import Mathlib

/-!
kabinka.online: the try-on orchestration core.

A shallow embedding of the cache-key hasher (`simpleHash`, `generateCacheKey`),
the image extractor of `generateTryOnWithGemini` and the fallback parser of
`detectClothes` / `detectUserClothes`, with the properties proved about them.

JavaScript strings are sequences of UTF-16 code units; they are embedded as
lists of natural numbers (one number per code unit).
-/

namespace Kabinka

/-- A JavaScript string: its UTF-16 code units, in order. -/
abbrev JSString := List Nat

/-- The code units of an ASCII / BMP literal. -/
def lit (s : String) : JSString := s.toList.map Char.toNat

/-! ## Number primitives used by `simpleHash` -/

/-- ECMAScript `ToInt32`: reduce modulo 2^32 into the range [-2^31, 2^31). -/
def toInt32 (x : Int) : Int :=
  let m := x % 4294967296
  if m ≥ 2147483648 then m - 4294967296 else m

/-- The operator `x << k` on numbers: `ToInt32 x` shifted left, wrapped to 32 bits. -/
def shl (x : Int) (k : Nat) : Int :=
  toInt32 (toInt32 x * 2 ^ (k % 32))

/-- The operator `x & y` on numbers: bitwise and of the two `ToInt32` values. -/
def band (x y : Int) : Int :=
  Int.land (toInt32 x) (toInt32 y)

/-- One base-36 digit as a code unit: `0`-`9`, then `a`-`z`. -/
def digit36 (d : Nat) : Nat :=
  if d < 10 then 48 + d else 87 + d

/-- Digits of `n` in base 36, most significant first, prepended to `acc`. -/
def toDigits36 : Nat → Nat → JSString → JSString
  | 0, _, acc => acc
  | fuel + 1, n, acc =>
    let acc' := digit36 (n % 36) :: acc
    if n / 36 = 0 then acc' else toDigits36 fuel (n / 36) acc'

/-- `Number.prototype.toString(36)` on an integer-valued number. -/
def toString36 (x : Int) : JSString :=
  if x < 0 then 45 :: toDigits36 (x.natAbs + 1) x.natAbs []
  else toDigits36 (x.natAbs + 1) x.natAbs []

/-! ## `simpleHash` and `generateCacheKey` -/

/-- Body of the loop in `simpleHash`:
`hash = ((hash << 5) - hash) + char; hash = hash & hash`. The operands of `-`
and `+` are integers far below 2^53 in magnitude, so the arithmetic on doubles
is exact and is written over the integers. -/
def hashStep (hash : Int) (char : Nat) : Int :=
  let hash := (shl hash 5 - hash) + (char : Int)
  band hash hash

/-- The loop of `simpleHash`, from the initial value `hash = 0`. -/
def hashLoop (str : JSString) : Int :=
  str.foldl hashStep 0

/-- `simpleHash(str)` of `BaseTryOnConnector`, `UniversalTryOn` and
`GeminiAPIService` (the three copies are textually identical). -/
def simpleHash (str : JSString) : JSString :=
  toString36 (hashLoop str)

/-- `generateCacheKey(imageSrc)` of `BaseTryOnConnector` (and, word for word,
of `UniversalTryOn`); `userPhoto` is the stored `userPhoto` entry (`none` when
the entry is absent). `result.userPhoto || ''` turns an absent entry and the
empty string into `''`. -/
def generateCacheKey (imageSrc : JSString) (userPhoto : Option JSString) : JSString :=
  let userPhotoHash := simpleHash (match userPhoto with
    | some (c :: cs) => c :: cs
    | _ => [])
  let imageHash := simpleHash imageSrc
  imageHash ++ lit "_" ++ userPhotoHash

/-- `generateCacheKey(imageSrc)` of `GeminiAPIService` (service worker, lines
513-518); `userPhoto` is what `getUserPhoto()` resolves to. -/
def GeminiAPIService.generateCacheKey (imageSrc : JSString) (userPhoto : Option JSString) :
    JSString :=
  let userPhotoHash := simpleHash (match userPhoto with
    | some (c :: cs) => c :: cs
    | _ => [])
  let imageHash := simpleHash imageSrc
  imageHash ++ lit "_" ++ userPhotoHash

/-! ## The hasher as the specification words it -/

/-- Wrap an integer to the signed 32-bit range (two's complement). -/
def wrapSigned32 (x : Int) : Int :=
  (x + 2147483648) % 4294967296 - 2147483648

/-- The specification's hash: fold `h := h * 31 + codeUnit`, wrapped to signed
32 bits, from `h = 0`. -/
def specHash (s : JSString) : Int :=
  s.foldl (fun h c => wrapSigned32 (h * 31 + (c : Int))) 0

/-- The value of a base-36 digit character `0`-`9`, `a`-`z`. -/
def digitValue36 (c : Nat) : Nat :=
  if c ≤ 57 then c - 48 else c - 87

/-- The natural number a string of base-36 digits denotes, most significant
digit first. -/
def readDigits36 (s : JSString) : Nat :=
  s.foldl (fun a c => 36 * a + digitValue36 c) 0

/-- The integer a base-36 numeral denotes: an optional leading `-`, then the
digits. -/
def readBase36 : JSString → Int
  | [] => 0
  | c :: cs => if c = 45 then -(readDigits36 cs : Int) else (readDigits36 (c :: cs) : Int)

/-! ## JSON values and the JavaScript operations applied to them -/

/-- A value produced by `response.json()` or `JSON.parse`.

* `num text`: a number, given by its canonical rendering (`Number::toString`,
  what both `JSON.stringify` and a template literal print); zero is `0`.
* `obj fields`: the own properties in enumeration order, keys distinct. -/
inductive JSON where
  | null
  | bool (b : Bool)
  | num (text : JSString)
  | str (s : JSString)
  | arr (items : List JSON)
  | obj (fields : List (JSString × JSON))
  deriving Inhabited

/-- What a JavaScript expression can throw here: a `TypeError` raised by the
engine, or `new Error(message)` raised by the code. -/
inductive JSError where
  | typeError
  | error (message : JSString)
  deriving DecidableEq

/-- Own property `key` of an object's property list. -/
def lookup (key : JSString) : List (JSString × JSON) → Option JSON
  | [] => none
  | (k, v) :: rest => if k = key then some v else lookup key rest

/-- `ToBoolean`; `none` is `undefined`. -/
def truthy : Option JSON → Bool
  | none => false
  | some .null => false
  | some (.bool b) => b
  | some (.num text) => decide (text ≠ lit "0")
  | some (.str s) => decide (s ≠ [])
  | some (.arr _) => true
  | some (.obj _) => true

/-- The read `v.key` for one of the names `candidates`, `content`, `parts`,
`inline_data`, `data`, `text`, `clothes`, `color`: an own property of an
object; arrays, strings, numbers and booleans have no property of these names;
reading from `null` or `undefined` throws. -/
def getProp (v : Option JSON) (key : JSString) : Except JSError (Option JSON) :=
  match v with
  | none => .error .typeError
  | some .null => .error .typeError
  | some (.obj fields) => .ok (lookup key fields)
  | some _ => .ok none

/-- The test `v.length === 0` on a truthy value. -/
def lengthIsZero : JSON → Bool
  | .arr items => items.isEmpty
  | .str s => s.isEmpty
  | .obj fields =>
    match lookup (lit "length") fields with
    | some (.num text) => decide (text = lit "0")
    | _ => false
  | _ => false

/-- The read `v[0]` on a truthy value. -/
def index0 : JSON → Option JSON
  | .arr items => items.head?
  | .str s => s.head?.map (fun c => .str [c])
  | .obj fields => lookup (lit "0") fields
  | _ => none

/-- High (leading) surrogate code unit. -/
def isHighSurrogate (c : Nat) : Bool := 55296 ≤ c && c ≤ 56319

/-- Low (trailing) surrogate code unit. -/
def isLowSurrogate (c : Nat) : Bool := 56320 ≤ c && c ≤ 57343

/-- The strings a `for ... of` loop over a string yields: one per code point. -/
def codePoints : JSString → List JSString
  | [] => []
  | [c] => [[c]]
  | c :: d :: rest =>
    if isHighSurrogate c && isLowSurrogate d then [c, d] :: codePoints rest
    else [c] :: codePoints (d :: rest)

/-- The values a `for (const part of v)` loop visits, for a truthy `v`:
arrays and strings are iterable, the other values are not. -/
def iterate : JSON → Except JSError (List JSON)
  | .arr items => .ok items
  | .str s => .ok ((codePoints s).map .str)
  | _ => .error .typeError

mutual
/-- `ToString`, as applied by a template literal `${v}`. An object prints
through `Object.prototype.toString`; an own `toString` property (never callable
in parsed JSON) leaves no way to a primitive and throws. -/
def toStr : JSON → Except JSError JSString
  | .null => .ok (lit "null")
  | .bool true => .ok (lit "true")
  | .bool false => .ok (lit "false")
  | .num text => .ok text
  | .str s => .ok s
  | .arr items => joinItems items
  | .obj fields =>
    match lookup (lit "toString") fields with
    | some _ => .error .typeError
    | none => .ok (lit "[object Object]")
/-- `Array.prototype.join(",")`: `null` elements print as the empty string. -/
def joinItems : List JSON → Except JSError JSString
  | [] => .ok []
  | [.null] => .ok []
  | [x] => toStr x
  | .null :: y :: rest =>
    match joinItems (y :: rest) with
    | .ok t => .ok (44 :: t)
    | .error e => .error e
  | x :: y :: rest =>
    match toStr x with
    | .error e => .error e
    | .ok s =>
      match joinItems (y :: rest) with
      | .ok t => .ok (s ++ 44 :: t)
      | .error e => .error e
end

/-! ## `JSON.stringify` -/

/-- One lower-case hexadecimal digit. -/
def hexDigit (d : Nat) : Nat :=
  if d < 10 then 48 + d else 87 + d

/-- The escape `\uXXXX` of a code unit. -/
def unicodeEscape (c : Nat) : JSString :=
  [92, 117, hexDigit (c / 4096 % 16), hexDigit (c / 256 % 16), hexDigit (c / 16 % 16),
    hexDigit (c % 16)]

/-- The escape of one code unit other than a surrogate, as `QuoteJSONString`
writes it. -/
def escapeUnit (c : Nat) : JSString :=
  if c = 34 then [92, 34]
  else if c = 92 then [92, 92]
  else if c = 8 then [92, 98]
  else if c = 9 then [92, 116]
  else if c = 10 then [92, 110]
  else if c = 12 then [92, 102]
  else if c = 13 then [92, 114]
  else if c < 32 then unicodeEscape c
  else [c]

/-- The body of `QuoteJSONString`: escapes quote, backslash and control
characters, keeps surrogate pairs, escapes lone surrogates. -/
def escapeJSON : JSString → JSString
  | [] => []
  | [c] =>
    if isHighSurrogate c || isLowSurrogate c then unicodeEscape c else escapeUnit c
  | c :: d :: rest =>
    if isHighSurrogate c && isLowSurrogate d then c :: d :: escapeJSON rest
    else if isHighSurrogate c || isLowSurrogate c then unicodeEscape c ++ escapeJSON (d :: rest)
    else escapeUnit c ++ escapeJSON (d :: rest)

/-- `QuoteJSONString`. -/
def quoteJSON (s : JSString) : JSString :=
  34 :: escapeJSON s ++ [34]

mutual
/-- `JSON.stringify(v)` with no indentation. -/
def stringify : JSON → JSString
  | .null => lit "null"
  | .bool true => lit "true"
  | .bool false => lit "false"
  | .num text => text
  | .str s => quoteJSON s
  | .arr items => 91 :: stringifyItems items ++ [93]
  | .obj fields => 123 :: stringifyFields fields ++ [125]
/-- The elements of an array, separated by commas. -/
def stringifyItems : List JSON → JSString
  | [] => []
  | [x] => stringify x
  | x :: y :: rest => stringify x ++ 44 :: stringifyItems (y :: rest)
/-- The members of an object, `"key":value`, separated by commas. -/
def stringifyFields : List (JSString × JSON) → JSString
  | [] => []
  | [(k, v)] => quoteJSON k ++ 58 :: stringify v
  | (k, v) :: kv :: rest => quoteJSON k ++ 58 :: stringify v ++ 44 :: stringifyFields (kv :: rest)
end

/-! ## The regular expressions `/"key":\s*"([^"]+)"/` -/

/-- The class `\s` (and what `String.prototype.trim` strips): white space and
line terminators. -/
def isWhiteSpace (c : Nat) : Bool :=
  c = 9 || c = 10 || c = 11 || c = 12 || c = 13 || c = 32 || c = 160 || c = 5760 ||
  (8192 ≤ c && c ≤ 8202) || c = 8232 || c = 8233 || c = 8239 || c = 8287 || c = 12288 ||
  c = 65279

/-- The literal head `"key":` of the pattern. -/
def fieldHead (key : JSString) : JSString :=
  34 :: key ++ [34, 58]

/-- Remove the literal `pat` from the front of `s`, if `s` starts with it. -/
def dropLiteral : JSString → JSString → Option JSString
  | [], s => some s
  | _ :: _, [] => none
  | p :: ps, c :: cs => if p = c then dropLiteral ps cs else none

/-- Match `/"key":\s*"([^"]+)"/` at the very start of `s`. The result is the
matched text, the captured group and the text after the match. Both `\s*` and
`[^"]+` are greedy and are followed by a quote they cannot themselves consume,
so backtracking never finds a match the greedy run misses. -/
def matchHere (key s : JSString) : Option (JSString × JSString × JSString) :=
  match dropLiteral (fieldHead key) s with
  | none => none
  | some afterHead =>
    match afterHead.dropWhile isWhiteSpace with
    | 34 :: afterQuote =>
      let value := afterQuote.takeWhile (fun c => c != 34)
      match afterQuote.dropWhile (fun c => c != 34) with
      | 34 :: rest =>
        if value = [] then none
        else some (fieldHead key ++ afterHead.takeWhile isWhiteSpace ++ 34 :: value ++ [34],
          value, rest)
      | _ => none
    | _ => none

/-- The leftmost match of `/"key":\s*"([^"]+)"/` in `s` (`s.match(re)` without
the `g` flag): matched text, captured group, text after the match. -/
def regexExec (key : JSString) : JSString → Option (JSString × JSString × JSString)
  | [] => none
  | c :: cs =>
    match matchHere key (c :: cs) with
    | some m => some m
    | none => regexExec key cs

/-- Successive matches from left to right, each search resuming after the
previous match; `fuel` bounds the number of matches. -/
def matchAllAux (key : JSString) : Nat → JSString → List JSString
  | 0, _ => []
  | fuel + 1, s =>
    match regexExec key s with
    | none => []
    | some (m, _, rest) => m :: matchAllAux key fuel rest

/-- The matched texts of `s.match(/"key":\s*"([^"]+)"/g)`; the empty list stands
for `null`. Every match is non-empty, so `s.length` bounds their number. -/
def matchAll (key s : JSString) : List JSString :=
  matchAllAux key s.length s

/-! ## Image extraction in `generateTryOnWithGemini` -/

/-- The console lines of the extraction code that are kept in the model. -/
inductive LogEvent where
  | noCandidates
  | searching
  | foundDataFields (count : Nat)
  | extractedLength (length : Nat)
  | tooShort (head : JSString)
  | foundInlineData
  | foundPartData
  | foundCandidateData
  | noImageFound
  deriving DecidableEq

/-- The object returned on success. -/
structure TryOnImage where
  generatedImage : JSString
  analysis : JSString
  deriving DecidableEq

/-- What the extraction code does with a response: the console lines it wrote
and the value it returned or the error it threw. -/
structure Outcome where
  log : List LogEvent
  result : Except JSError TryOnImage

/-- Message of the error thrown at line 223. -/
def noCandidatesMessage : JSString :=
  lit "No candidates returned from Gemini API"

/-- Message of the error thrown at line 293. -/
def noImageMessage : JSString :=
  lit "No generated image found in Gemini response. The API may have returned text instead of image data."

/-- The object built at each `return`, from the payload. -/
def imageResult (payload : JSString) : TryOnImage :=
  { generatedImage := lit "data:image/png;base64," ++ payload
    analysis := lit "Try-on image generated successfully with Gemini 2.5 Flash" }

/-- The key of the pattern `/"data":\s*"([^"]+)"/`. -/
def dataKey : JSString := lit "data"

/-- Lines 235-258, the scan of the serialized response: the console lines, and
the payload when the last match passes the length test. -/
def structuralScan (responseText : JSString) : List LogEvent × Option JSString :=
  let dataMatches := matchAll dataKey responseText
  match dataMatches.getLast? with
  | none => ([], none)
  | some lastMatch =>
    match regexExec dataKey lastMatch with
    | none => ([.foundDataFields dataMatches.length], none)
    | some (_, imageBase64, _) =>
      if imageBase64 = [] then ([.foundDataFields dataMatches.length], none)
      else if imageBase64.length > 1000 then
        ([.foundDataFields dataMatches.length, .extractedLength imageBase64.length],
          some imageBase64)
      else
        ([.foundDataFields dataMatches.length, .extractedLength imageBase64.length,
          .tooShort (imageBase64.take 100)], none)

/-- The test `part.inline_data && part.inline_data.data` of line 263: the value
of `part.inline_data.data` when the test holds, `none` when it does not. -/
def inlinePayload (part : JSON) : Except JSError (Option JSON) :=
  match getProp (some part) (lit "inline_data") with
  | .error e => .error e
  | .ok inlineData =>
    if truthy inlineData then
      match getProp inlineData (lit "data") with
      | .error e => .error e
      | .ok d => .ok (if truthy d then d else none)
    else .ok none

/-- The test `part.data` of line 272: the value when it is truthy. -/
def partPayload (part : JSON) : Except JSError (Option JSON) :=
  match getProp (some part) (lit "data") with
  | .error e => .error e
  | .ok d => .ok (if truthy d then d else none)

/-- The loop of lines 262-279 over the parts: the console line and the payload
of the first `return` reached, `none` when the loop runs to its end. -/
def walkParts : List JSON → Except JSError (Option (LogEvent × JSString))
  | [] => .ok none
  | part :: rest =>
    match inlinePayload part with
    | .error e => .error e
    | .ok (some d) =>
      match toStr d with
      | .error e => .error e
      | .ok s => .ok (some (.foundInlineData, s))
    | .ok none =>
      match partPayload part with
      | .error e => .error e
      | .ok (some d) =>
        match toStr d with
        | .error e => .error e
        | .ok s => .ok (some (.foundPartData, s))
      | .ok none => walkParts rest

/-- Lines 261-280: the guard `candidate.content && candidate.content.parts` and
the loop over the parts. -/
def contentPartsWalk (candidate : JSON) : Except JSError (Option (LogEvent × JSString)) :=
  match getProp (some candidate) (lit "content") with
  | .error e => .error e
  | .ok content =>
    if truthy content then
      match getProp content (lit "parts") with
      | .error e => .error e
      | .ok none => .ok none
      | .ok (some parts) =>
        if truthy (some parts) then
          match iterate parts with
          | .error e => .error e
          | .ok items => walkParts items
        else .ok none
    else .ok none

/-- Lines 283-293: the test of `candidate.data`, then the final `throw`. -/
def candidateLevel (log : List LogEvent) (candidate : JSON) : Outcome :=
  match partPayload candidate with
  | .error e => ⟨log, .error e⟩
  | .ok (some d) =>
    match toStr d with
    | .error e => ⟨log ++ [.foundCandidateData], .error e⟩
    | .ok s => ⟨log ++ [.foundCandidateData], .ok (imageResult s)⟩
  | .ok none => ⟨log ++ [.noImageFound], .error (.error noImageMessage)⟩

/-- Lines 226-293, from the first candidate on. -/
def extractFromCandidate (result candidate : JSON) : Outcome :=
  match structuralScan (stringify result) with
  | (scanLog, some imageBase64) => ⟨.searching :: scanLog, .ok (imageResult imageBase64)⟩
  | (scanLog, none) =>
    match contentPartsWalk candidate with
    | .error e => ⟨.searching :: scanLog, .error e⟩
    | .ok (some (line, s)) => ⟨.searching :: scanLog ++ [line], .ok (imageResult s)⟩
    | .ok none => candidateLevel (.searching :: scanLog) candidate

/-- The part of `generateTryOnWithGemini` that follows
`const result = await response.json()` (lines 217-293): what is returned or
thrown for the parsed response `result`. `Object.keys` throws on `null` and
`undefined` (lines 218 and 227). -/
def extractImage (result : JSON) : Outcome :=
  match result with
  | .null => ⟨[], .error .typeError⟩
  | _ =>
    match getProp (some result) (lit "candidates") with
    | .error e => ⟨[], .error e⟩
    | .ok none => ⟨[.noCandidates], .error (.error noCandidatesMessage)⟩
    | .ok (some candidates) =>
      if !truthy (some candidates) || lengthIsZero candidates then
        ⟨[.noCandidates], .error (.error noCandidatesMessage)⟩
      else
        match index0 candidates with
        | none => ⟨[], .error .typeError⟩
        | some .null => ⟨[], .error .typeError⟩
        | some candidate => extractFromCandidate result candidate

/-! ## `JSON.parse` -/

/-- JSON white space: space, tab, line feed, carriage return. -/
def isJsonWs (c : Nat) : Bool :=
  c = 32 || c = 9 || c = 10 || c = 13

/-- A decimal digit. -/
def isDigit (c : Nat) : Bool := 48 ≤ c && c ≤ 57

/-- The value of a hexadecimal digit, either case. -/
def hexValue (c : Nat) : Option Nat :=
  if 48 ≤ c && c ≤ 57 then some (c - 48)
  else if 97 ≤ c && c ≤ 102 then some (c - 87)
  else if 65 ≤ c && c ≤ 70 then some (c - 55)
  else none

/-- The code unit denoted by a one-letter escape `\e`. -/
def escapeValue (e : Nat) : Option Nat :=
  if e = 34 then some 34
  else if e = 92 then some 92
  else if e = 47 then some 47
  else if e = 98 then some 8
  else if e = 102 then some 12
  else if e = 110 then some 10
  else if e = 114 then some 13
  else if e = 116 then some 9
  else none

/-- A JSON string after its opening quote: the decoded string and the text
after the closing quote. -/
def parseStringBody : JSString → Option (JSString × JSString)
  | [] => none
  | c :: rest =>
    if c = 34 then some ([], rest)
    else if c = 92 then
      match rest with
      | [] => none
      | e :: rest1 =>
        if e = 117 then
          match rest1 with
          | h1 :: h2 :: h3 :: h4 :: rest2 =>
            match hexValue h1, hexValue h2, hexValue h3, hexValue h4 with
            | some a, some b, some c, some d =>
              match parseStringBody rest2 with
              | some (s, after) => some ((4096 * a + 256 * b + 16 * c + d) :: s, after)
              | none => none
            | _, _, _, _ => none
          | _ => none
        else
          match escapeValue e with
          | none => none
          | some u =>
            match parseStringBody rest1 with
            | some (s, after) => some (u :: s, after)
            | none => none
    else if c < 32 then none
    else
      match parseStringBody rest with
      | some (s, after) => some (c :: s, after)
      | none => none

/-- A run of one or more digits at the start of `s`: the digits and the rest. -/
def parseDigits (s : JSString) : Option (JSString × JSString) :=
  if s.takeWhile isDigit = [] then none
  else some (s.takeWhile isDigit, s.dropWhile isDigit)

/-- The integer part of a JSON number: `0`, or a non-zero digit and digits. -/
def parseIntPart : JSString → Option (JSString × JSString)
  | [] => none
  | c :: rest =>
    if c = 48 then some ([48], rest)
    else if isDigit c then some (c :: rest.takeWhile isDigit, rest.dropWhile isDigit)
    else none

/-- The optional fraction `.digits` of a JSON number. -/
def parseFraction : JSString → Option (JSString × JSString)
  | [] => some ([], [])
  | c :: rest =>
    if c = 46 then
      match parseDigits rest with
      | some (ds, after) => some (46 :: ds, after)
      | none => none
    else some ([], c :: rest)

/-- The optional exponent `e`, sign, digits of a JSON number. -/
def parseExponent : JSString → Option (JSString × JSString)
  | [] => some ([], [])
  | c :: rest =>
    if c = 101 || c = 69 then
      match rest with
      | [] => none
      | sg :: rest1 =>
        if sg = 43 || sg = 45 then
          match parseDigits rest1 with
          | some (ds, after) => some (c :: sg :: ds, after)
          | none => none
        else
          match parseDigits (sg :: rest1) with
          | some (ds, after) => some (c :: ds, after)
          | none => none
    else some ([], c :: rest)

/-- A JSON number without its sign: the literal and the text after it. -/
def parseUnsigned (s : JSString) : Option (JSString × JSString) :=
  match parseIntPart s with
  | none => none
  | some (ip, s1) =>
    match parseFraction s1 with
    | none => none
    | some (fp, s2) =>
      match parseExponent s2 with
      | none => none
      | some (ep, s3) => some (ip ++ fp ++ ep, s3)

/-- A JSON number at the start of `s`: the literal as written and the text
after it. -/
def parseNumber : JSString → Option (JSString × JSString)
  | [] => none
  | c :: rest =>
    if c = 45 then
      match parseUnsigned rest with
      | some (t, after) => some (45 :: t, after)
      | none => none
    else parseUnsigned (c :: rest)

/-- The array index a property key denotes: a canonical decimal numeral below
2^32 - 1. Such keys enumerate first, in ascending order. -/
def arrayIndex (key : JSString) : Option Nat :=
  match key with
  | [] => none
  | c :: rest =>
    if c = 48 && !rest.isEmpty then none
    else if (c :: rest).all isDigit then
      let n := (c :: rest).foldl (fun acc d => 10 * acc + (d - 48)) 0
      if n < 4294967295 then some n else none
    else none

/-- Overwrite the value of the existing property `key`, in place. -/
def replaceValue (key : JSString) (v : JSON) : List (JSString × JSON) → List (JSString × JSON)
  | [] => []
  | (k, w) :: rest => if k = key then (k, v) :: rest else (k, w) :: replaceValue key v rest

/-- Insert the new index property `key` (index `i`) before the first property
that is not an index or has a larger index. -/
def insertIndexed (i : Nat) (key : JSString) (v : JSON) :
    List (JSString × JSON) → List (JSString × JSON)
  | [] => [(key, v)]
  | (k, w) :: rest =>
    match arrayIndex k with
    | some j => if j < i then (k, w) :: insertIndexed i key v rest else (key, v) :: (k, w) :: rest
    | none => (key, v) :: (k, w) :: rest

/-- `CreateDataProperty` on the object being parsed: a repeated key overwrites,
a new index key goes among the index keys, any other new key goes last. -/
def defineProp (fields : List (JSString × JSON)) (key : JSString) (v : JSON) :
    List (JSString × JSON) :=
  match lookup key fields with
  | some _ => replaceValue key v fields
  | none =>
    match arrayIndex key with
    | some i => insertIndexed i key v fields
    | none => fields ++ [(key, v)]

mutual
/-- A JSON value at the start of `s`, after optional white space: the value
and the text after it. `fuel` bounds the nesting of the recursion. A number is
kept as its literal (its rounding to a double is not modelled). -/
def parseValue : Nat → JSString → Option (JSON × JSString)
  | 0, _ => none
  | fuel + 1, s =>
    match s.dropWhile isJsonWs with
    | [] => none
    | c :: rest =>
      if c = 123 then
        match rest.dropWhile isJsonWs with
        | [] => none
        | d :: rest1 =>
          if d = 125 then some (.obj [], rest1) else parseMembers fuel (d :: rest1) []
      else if c = 91 then
        match rest.dropWhile isJsonWs with
        | [] => none
        | d :: rest1 =>
          if d = 93 then some (.arr [], rest1) else parseElements fuel (d :: rest1) []
      else if c = 34 then
        match parseStringBody rest with
        | some (str, after) => some (.str str, after)
        | none => none
      else if c = 116 then
        match dropLiteral (lit "rue") rest with
        | some after => some (.bool true, after)
        | none => none
      else if c = 102 then
        match dropLiteral (lit "alse") rest with
        | some after => some (.bool false, after)
        | none => none
      else if c = 110 then
        match dropLiteral (lit "ull") rest with
        | some after => some (.null, after)
        | none => none
      else
        match parseNumber (c :: rest) with
        | some (text, after) => some (.num text, after)
        | none => none
/-- The elements of an array up to its closing bracket; `acc` holds the
elements read so far. -/
def parseElements : Nat → JSString → List JSON → Option (JSON × JSString)
  | 0, _, _ => none
  | fuel + 1, s, acc =>
    match parseValue fuel s with
    | none => none
    | some (v, after) =>
      match after.dropWhile isJsonWs with
      | [] => none
      | c :: rest =>
        if c = 44 then parseElements fuel rest (acc ++ [v])
        else if c = 93 then some (.arr (acc ++ [v]), rest)
        else none
/-- The members of an object up to its closing brace; `acc` holds the
properties defined so far. -/
def parseMembers : Nat → JSString → List (JSString × JSON) → Option (JSON × JSString)
  | 0, _, _ => none
  | fuel + 1, s, acc =>
    match s.dropWhile isJsonWs with
    | [] => none
    | q :: rest =>
      if q = 34 then
        match parseStringBody rest with
        | none => none
        | some (key, afterKey) =>
          match afterKey.dropWhile isJsonWs with
          | [] => none
          | colon :: afterColon =>
            if colon = 58 then
              match parseValue fuel afterColon with
              | none => none
              | some (v, after) =>
                match after.dropWhile isJsonWs with
                | [] => none
                | c :: rest1 =>
                  if c = 44 then parseMembers fuel rest1 (defineProp acc key v)
                  else if c = 125 then some (.obj (defineProp acc key v), rest1)
                  else none
            else none
      else none
end

/-- `JSON.parse(text)`: the value, or `none` when it throws a `SyntaxError`.
Every recursive call is made after at least one more character was consumed, so
the fuel `text.length + 1` is never exhausted. -/
def jsonParse (text : JSString) : Option JSON :=
  match parseValue (text.length + 1) text with
  | none => none
  | some (v, after) => if after.dropWhile isJsonWs = [] then some v else none

/-! ## The parse policy of `detectClothes` and `detectUserClothes` -/

/-- `String.prototype.trim`. -/
def trim (s : JSString) : JSString :=
  ((s.dropWhile isWhiteSpace).reverse.dropWhile isWhiteSpace).reverse

/-- `m ? m[1] : sentinel` for `m = content.match(/"key":\s*"([^"]+)"/)`. -/
def capturedOr (key content sentinel : JSString) : JSString :=
  match regexExec key content with
  | some (_, value, _) => value
  | none => sentinel

/-- Lines 93-109 of `detectClothes`: the value returned for the model's text
`content`. -/
def detectClothesParse (content : JSString) : JSON :=
  match jsonParse (trim content) with
  | some parsed => parsed
  | none =>
    .obj [(lit "clothes", .str (capturedOr (lit "clothes") content (lit "clothing item"))),
      (lit "color", .str (capturedOr (lit "color") content (lit "unknown")))]

/-- Lines 456-471 of `detectUserClothes`: the value returned for the model's
text `content`. -/
def detectUserClothesParse (content : JSString) : JSON :=
  match jsonParse (trim content) with
  | some parsed => parsed
  | none =>
    .obj [(lit "clothes", .str (capturedOr (lit "clothes") content (lit "clothing item"))),
      (lit "color", .str (capturedOr (lit "color") content (lit "unknown")))]

/-! ## Vocabulary of the statements -/

/-- The text `m` is a field `"key":"<value>"` with value `v`, as the pattern
`/"key":\s*"([^"]+)"/` reads it: the quoted key, a colon, optional white space,
and a non-empty quoted run `v` that holds no quote. -/
def IsField (key m v : JSString) : Prop :=
  ∃ ws : JSString, (∀ c ∈ ws, isWhiteSpace c = true) ∧ v ≠ [] ∧ 34 ∉ v ∧
    m = fieldHead key ++ ws ++ 34 :: v ++ [34]

/-- The response `{"candidates":[],"data":"BBB..."}`: no candidate, and a
top-level `data` field of 1200 characters. -/
def emptyCandidatesResponse : JSON :=
  .obj [(lit "candidates", .arr []), (lit "data", .str (List.replicate 1200 66))]

/-- The response of the specification's ordering example: a short
`inline_data.data` in the first part and a top-level `data` field made of
`BBBB` and 1500 times `x`. -/
def orderingResponse : JSON :=
  .obj [(lit "candidates", .arr [.obj [(lit "content", .obj [(lit "parts",
      .arr [.obj [(lit "inline_data", .obj [(lit "data", .str (lit "AAAAshort"))])]])])]]),
    (lit "data", .str (lit "BBBB" ++ List.replicate 1500 120))]

/-- The response `{"candidates":[{"content":{"parts":[{"inline_data":{"data":"abc"}}]}}]}`. -/
def shortInlineResponse : JSON :=
  .obj [(lit "candidates", .arr [.obj [(lit "content", .obj [(lit "parts",
      .arr [.obj [(lit "inline_data", .obj [(lit "data", .str (lit "abc"))])]])])]])]

/-- The property `v.key` "if present": the own property `key` of an object,
when its value is truthy (for a string: non-empty). -/
def presentField (v : JSON) (key : JSString) : Option JSON :=
  match v with
  | .obj fields =>
    match lookup key fields with
    | some d => if truthy (some d) then some d else none
    | none => none
  | _ => none

/-- The list `candidates[0].content.parts` of the specification: the parts when
`content` and `parts` are present and `parts` is a list, no parts otherwise. -/
def specParts (candidate : JSON) : List JSON :=
  match presentField candidate (lit "content") with
  | some content =>
    match presentField content (lit "parts") with
    | some (.arr parts) => parts
    | _ => []
  | none => []

/-- What one part yields in the specification's typed walk: its
`inline_data.data` if present, otherwise its `data` if present. -/
def specPartPayload (part : JSON) : Option JSON :=
  match presentField part (lit "inline_data") with
  | some inlineData =>
    match presentField inlineData (lit "data") with
    | some d => some d
    | none => presentField part (lit "data")
  | none => presentField part (lit "data")

/-- The specification's typed walks, strategies 2 and 3: the payload of the
first part, in list order, that yields one; when no part does, the
candidate-level `data` if present. -/
def specTypedWalk (candidate : JSON) : Option JSON :=
  match (specParts candidate).findSome? specPartPayload with
  | some d => some d
  | none => presentField candidate (lit "data")

/-- The shape the typed walk relies on: when `candidate.content.parts` is
present it is a list, and none of its parts is `null`. -/
def PartsListed (candidate : JSON) : Prop :=
  ∀ content parts, presentField candidate (lit "content") = some content →
    presentField content (lit "parts") = some parts →
    ∃ items, parts = .arr items ∧ ∀ p ∈ items, p ≠ .null

/-- A response whose first candidate has a text part, a part with `data`, a
part with `inline_data.data`, and a candidate-level `data`, all short. -/
def walkOrderResponse : JSON :=
  .obj [(lit "candidates", .arr [.obj [
    (lit "content", .obj [(lit "parts", .arr [
      .obj [(lit "text", .str (lit "hi"))],
      .obj [(lit "data", .str (lit "PART"))],
      .obj [(lit "inline_data", .obj [(lit "data", .str (lit "INLINE"))])]])]),
    (lit "data", .str (lit "CAND"))]])]

/-- The response `{"candidates":[{"content":{"parts":[{"text":t1},...]}}]}`
whose parts are text parts only. -/
def textOnlyResponse (texts : List JSString) : JSON :=
  .obj [(lit "candidates", .arr [.obj [(lit "content", .obj [(lit "parts",
    .arr (texts.map (fun t => .obj [(lit "text", .str t)])))])]])]

/-- States of a scanner for the three characters `a":`, which end the head
`"data":` of every match of the data pattern. -/
inductive Scan where
  | idle
  | sawA
  | sawAQuote
  | found
  deriving DecidableEq

/-- One step of the scanner. -/
def scanStep : Scan → Nat → Scan
  | .found, _ => .found
  | .sawAQuote, c => if c = 58 then .found else if c = 97 then .sawA else .idle
  | .sawA, c => if c = 34 then .sawAQuote else if c = 97 then .sawA else .idle
  | .idle, c => if c = 97 then .sawA else .idle

/-- The scanner run over a text from state `q`. -/
def scanRun (q : Scan) (s : JSString) : Scan :=
  s.foldl scanStep q

/-- The states in which the scanner is not just behind a quote. -/
def Scan.Safe (q : Scan) : Prop :=
  q = .idle ∨ q = .sawA

/-- The response `{"candidates":[{"content":{"parts":[{"text":"sorry, no image"}]}}]}`. -/
def textReplyResponse : JSON :=
  textOnlyResponse [lit "sorry, no image"]

/-- The response `{"candidates":[{}]}`: one empty candidate, no `data` field. -/
def bareResponse : JSON :=
  .obj [(lit "candidates", .arr [.obj []])]

/-- The response `{"candidates":[{}],"data":"abc"}`: one empty candidate and a
short top-level `data` field. -/
def shortDataResponse : JSON :=
  .obj [(lit "candidates", .arr [.obj []]), (lit "data", .str (lit "abc"))]

/-- The text `content` holds, starting at offset `n`, a field `"key":"<value>"`
with value `v`. -/
def OccursAt (key content : JSString) (n : Nat) (v : JSString) : Prop :=
  ∃ pre m rest, content = pre ++ m ++ rest ∧ pre.length = n ∧ IsField key m v

/-- The value `v` is the one captured first: it belongs to the leftmost field
`"key":"<value>"` of `content`. -/
def FirstCaptured (key content v : JSString) : Prop :=
  ∃ n, OccursAt key content n v ∧ ∀ n' v', OccursAt key content n' v' → n ≤ n'

/-- The text `content` holds no field `"key":"<value>"` at all. -/
def NoField (key content : JSString) : Prop :=
  ∀ n v, ¬ OccursAt key content n v

/-- The descriptor object `{clothes, color}`. -/
def descriptor (clothes color : JSString) : JSON :=
  .obj [(lit "clothes", .str clothes), (lit "color", .str color)]

/-- The malformed model output of the specification's detection example. -/
def malformedOutput : JSString :=
  lit "Here is the result: \x7bclothes info unavailable\x7d"

/-! ## The storage area `chrome.storage.local` -/

/-- Modelled from the spec: the storage area `chrome.storage.local`, which is
outside the repository. The entries `geminiApiKey` and `userPhoto` are written
by the setup page only, as strings (`none`: entry absent). `entries` holds every
other entry (`cache_...`, `firstRun`, ...) with its value, names distinct, in the
order in which `chrome.storage.local.get(null)` enumerates them. The platform
documents no order; following the specification ("recency is approximated by
key insertion order") it is the order in which the names were first inserted. -/
structure Store where
  geminiApiKey : Option JSString
  userPhoto : Option JSString
  entries : List (JSString × JSON)

/-- The value stored under `name`, as `chrome.storage.local.get([name])` finds
it. -/
def Store.get (store : Store) (name : JSString) : Option JSON :=
  lookup name store.entries

/-- Modelled from the spec: `chrome.storage.local.set` of one item ("the newer
write overwrites the older"): an existing name keeps its place and takes the
new value, a new name goes last. -/
def Store.set (store : Store) (name : JSString) (value : JSON) : Store :=
  { store with
    entries :=
      match lookup name store.entries with
      | some _ => replaceValue name value store.entries
      | none => store.entries ++ [(name, value)] }

/-- The call `chrome.storage.local.remove(names)`: every listed name goes. -/
def Store.remove (store : Store) (names : List JSString) : Store :=
  { store with entries := store.entries.filter (fun e => !names.contains e.1) }

/-- The storage name of a cache entry: the template `cache_${cacheKey}`. -/
def cacheName (cacheKey : JSString) : JSString :=
  lit "cache_" ++ cacheKey

/-- The test `key.startsWith('cache_')`. -/
def isCacheName (name : JSString) : Bool :=
  (dropLiteral (lit "cache_") name).isSome

/-- The list `Object.keys(storage).filter(key => key.startsWith('cache_'))`. The
names `geminiApiKey` and `userPhoto` do not pass the filter. -/
def Store.cacheKeys (store : Store) : List JSString :=
  (store.entries.map Prod.fst).filter isCacheName

/-! ## Effects -/

/-- The three requests to the provider. -/
inductive Stage where
  | detectProduct
  | detectUser
  | generate
  deriving DecidableEq

/-- What a request to the provider comes back with: the `fetch` (or the reading
of its body) rejects; or the status is not a success, with the printed status
and the text of the body; or the body parses to `result`. -/
inductive ProviderReply where
  | rejected (e : JSError)
  | httpError (status : JSString) (text : JSString)
  | ok (result : JSON)

/-- The effects kept in the model, in the order of their occurrence. -/
inductive Event where
  | imageFetch (url : JSString)
  | providerCall (stage : Stage) (body : JSON)
  | storageSet (name : JSString) (value : JSON)
  | storageRemove (names : List JSString)
  | showLoadingModal (imageSrc : JSString)
  | showResult (result : JSON)
  | showError (error : JSError)

/-- The surroundings of one request, as far as the code cannot decide them:
what `imageUrlToBase64(url)` resolves to (an error also when the data URL has
no payload to take the length of), the provider's reply at each stage, the
figure `getBytesInUse(null)` reports for a state of the area, and the message
of `chrome.runtime.lastError` after a `set`, if the write fails. -/
structure Env where
  image : JSString → Except JSError JSString
  reply : Stage → ProviderReply
  bytesInUse : Store → Nat
  setError : Store → JSString → JSON → Option JSString

/-! ## Cache operations of the content scripts -/

/-- `getCachedResult(cacheKey)`: `result[name] || null`. -/
def getCachedResult (store : Store) (cacheKey : JSString) : JSON :=
  match store.get (cacheName cacheKey) with
  | some v => if truthy (some v) then v else .null
  | none => .null

/-- `cacheResult(cacheKey, result)`: the `set` call, rejected with the message
of `chrome.runtime.lastError` when the write fails (the area then keeps its
state). -/
def cacheResult (env : Env) (store : Store) (cacheKey : JSString) (result : JSON) :
    List Event × Except JSError Store :=
  match env.setError store (cacheName cacheKey) result with
  | some message => ([.storageSet (cacheName cacheKey) result], .error (.error message))
  | none =>
    ([.storageSet (cacheName cacheKey) result], .ok (store.set (cacheName cacheKey) result))

/-- `clearCache(cacheKey)`. -/
def clearCache (store : Store) (cacheKey : JSString) : List Event × Store :=
  ([.storageRemove [cacheName cacheKey]], store.remove [cacheName cacheKey])

/-- `getStorageUsage()`: `usage || 0`. -/
def getStorageUsage (env : Env) (store : Store) : Nat :=
  env.bytesInUse store

/-- `cleanOldCache()` of `BaseTryOnConnector` (and, word for word, of
`UniversalTryOn`): with more than 3 cache names, `cacheKeys.slice(0, -3)` is
removed. -/
def cleanOldCache (store : Store) : List Event × Store :=
  let cacheKeys := store.cacheKeys
  if cacheKeys.length > 3 then
    let keysToRemove := cacheKeys.take (cacheKeys.length - 3)
    ([.storageRemove keysToRemove], store.remove keysToRemove)
  else ([], store)

/-- `CacheManager.clearOldCache()`: with more than 5 cache names,
`cacheKeys.slice(0, -5)` is removed. -/
def CacheManager.clearOldCache (store : Store) : List Event × Store :=
  let cacheKeys := store.cacheKeys
  if cacheKeys.length > 5 then
    let keysToRemove := cacheKeys.take (cacheKeys.length - 5)
    ([.storageRemove keysToRemove], store.remove keysToRemove)
  else ([], store)

/-- The budget `4 * 1024 * 1024`. -/
def cacheBudget : Nat := 4 * 1024 * 1024

/-- Lines 272-292 of `handleTryOnClick`, the caching step: the usage is read;
under the budget the result is written; otherwise `cleanOldCache` runs, the
usage is read again, and the result is written only if it now fits. A rejected
write is caught (line 290): the step throws nothing. -/
def cacheStep (env : Env) (store : Store) (cacheKey : JSString) (finalResult : JSON) :
    List Event × Store :=
  let usage := getStorageUsage env store
  let resultSize := (stringify finalResult).length
  if usage + resultSize < cacheBudget then
    match cacheResult env store cacheKey finalResult with
    | (events, .ok store') => (events, store')
    | (events, .error _) => (events, store)
  else
    match cleanOldCache store with
    | (cleaned, store1) =>
      let newUsage := getStorageUsage env store1
      if newUsage + resultSize < cacheBudget then
        match cacheResult env store1 cacheKey finalResult with
        | (events, .ok store') => (cleaned ++ events, store')
        | (events, .error _) => (cleaned ++ events, store1)
      else (cleaned, store1)
/-! ## Prompts of the service worker -/

/-- `ToString` of a value that may be `undefined`, as a template literal or
`String.prototype.replace` applies it to an argument. -/
def toStringOf : Option JSON → Except JSError JSString
  | none => .ok (lit "undefined")
  | some v => toStr v

/-- Split `s` at the first occurrence of `pat`: the text before it and the
text after it. -/
def splitAtFirst (pat : JSString) : JSString → Option (JSString × JSString)
  | [] => if pat = [] then some ([], []) else none
  | c :: cs =>
    match dropLiteral pat (c :: cs) with
    | some after => some ([], after)
    | none =>
      match splitAtFirst pat cs with
      | some (before, after) => some (c :: before, after)
      | none => none

/-- `GetSubstitution` for a string pattern (no captures): in the replacement
text `$$` stands for `$`, `$&` for the matched text, a dollar and a backtick
for the text before the match, a dollar and an apostrophe for the text after
it; every other character stands for itself. -/
def getSubstitution (matched before after : JSString) : JSString → JSString
  | [] => []
  | [c] => [c]
  | c :: d :: rest =>
    if c = 36 then
      if d = 36 then 36 :: getSubstitution matched before after rest
      else if d = 38 then matched ++ getSubstitution matched before after rest
      else if d = 96 then before ++ getSubstitution matched before after rest
      else if d = 39 then after ++ getSubstitution matched before after rest
      else 36 :: getSubstitution matched before after (d :: rest)
    else c :: getSubstitution matched before after (d :: rest)

/-- `s.replace(pat, replacement)` for strings: the first occurrence of `pat`
is replaced by the expansion of `replacement`. -/
def replaceFirst (s pat replacement : JSString) : JSString :=
  match splitAtFirst pat s with
  | none => s
  | some (before, after) => before ++ getSubstitution pat before after replacement ++ after

/-- The text `readUserClothesDetectionPrompt()` returns (lines 483-510). -/
def readUserClothesDetectionPrompt : JSString :=
  lit "I want to show how this person looks wearing a \x7bPRODUCT_CLOTHES\x7d in " ++
  lit "\x7bPRODUCT_COLOR\x7d color. \n" ++
  lit "\n" ++
  lit "Analyze the person in the photo and identify which piece of clothing " ++
  lit "should be replaced to make this try-on realistic. Return the type and " ++
  lit "color of the clothing item that would make sense to replace.\n" ++
  lit "\n" ++
  lit "For example:\n" ++
  lit "- If trying on a jacket, identify the person's current " ++
  lit "jacket/outerwear\n" ++
  lit "- If trying on a shirt, identify the person's current shirt/top\n" ++
  lit "- If trying on shoes, identify the person's current footwear\n" ++
  lit "\n" ++
  lit "Describe the clothing to replace like this:\n" ++
  lit "\x7b\n" ++
  lit "  \"clothes\": \"<<ADD>>\",\n" ++
  lit "  \"color\": \"<<ADD>>\"\n" ++
  lit "\x7d\n" ++
  lit "\n" ++
  lit "Examples:\n" ++
  lit "\x7b\n" ++
  lit "  \"clothes\": \"shirt\",\n" ++
  lit "  \"color\": \"blue\"\n" ++
  lit "\x7d\n" ++
  lit "\x7b\n" ++
  lit "  \"clothes\": \"jacket\", \n" ++
  lit "  \"color\": \"black\"\n" ++
  lit "\x7d\n" ++
  lit "\x7b\n" ++
  lit "  \"clothes\": \"shoes\",\n" ++
  lit "  \"color\": \"white\"\n" ++
  lit "\x7d"

/-- The text `readClothesDetectionPrompt()` returns (lines 532-550). -/
def readClothesDetectionPrompt : JSString :=
  lit "Analyze provided image and find the the main piece of clothes in the " ++
  lit "image. User has taken the photo with the goal to see how he will look " ++
  lit "in that piece of clothes. Describe that piece of clothes like this:\n" ++
  lit "\x7b\n" ++
  lit "  \"clothes\": \"<<ADD>>\",\n" ++
  lit "  \"color\": \"<<ADD>>\"\n" ++
  lit "\x7d\n" ++
  lit "\n" ++
  lit "Examples\n" ++
  lit "\x7b\n" ++
  lit "  \"clothes\": \"shirt\",\n" ++
  lit "  \"color\": \"white\"\n" ++
  lit "\x7d\n" ++
  lit "\x7b\n" ++
  lit "  \"clothes\": \"jacket\", \n" ++
  lit "  \"color\": \"red\"\n" ++
  lit "\x7d\n" ++
  lit "\x7b\n" ++
  lit "  \"clothes\": \"shoes\",\n" ++
  lit "  \"color\": \"blue\"\n" ++
  lit "\x7d"


/-- `buildUserClothesDetectionPrompt(productClothesInfo)` (lines 474-479): the
two reads throw on `null` and `undefined`, the two replacement values are
converted to strings. -/
def buildUserClothesDetectionPrompt (productClothesInfo : Option JSON) :
    Except JSError JSString :=
  match getProp productClothesInfo (lit "clothes") with
  | .error e => .error e
  | .ok clothes =>
    match toStringOf clothes with
    | .error e => .error e
    | .ok clothesText =>
      match getProp productClothesInfo (lit "color") with
      | .error e => .error e
      | .ok color =>
        match toStringOf color with
        | .error e => .error e
        | .ok colorText =>
          .ok (replaceFirst
            (replaceFirst readUserClothesDetectionPrompt (lit "\x7bPRODUCT_CLOTHES\x7d")
              clothesText)
            (lit "\x7bPRODUCT_COLOR\x7d") colorText)

/-- The template literal `tryOnPrompt` of `generateTryOnWithGemini` (line 172),
with the color and the type of the product garment in its three holes. -/
def tryOnPrompt (productClothes : Option JSON) : Except JSError JSString :=
  match getProp productClothes (lit "color") with
  | .error e => .error e
  | .ok color =>
    match toStringOf color with
    | .error e => .error e
    | .ok colorText =>
      match getProp productClothes (lit "clothes") with
      | .error e => .error e
      | .ok clothes =>
        match toStringOf clothes with
        | .error e => .error e
        | .ok clothesText =>
          .ok (lit "Create a professional e-commerce fashion photo. Take the " ++
            colorText ++ lit " " ++ clothesText ++
            lit " from the first image and let the person from the second image wear it. " ++
            lit "Generate a realistic, full-body shot of the person wearing the " ++
            clothesText ++
            lit ", with the lighting and shadows adjusted to match the environment. " ++
            lit "Ensure the clothing fits naturally on the person's body shape and " ++
            lit "the image looks professional and realistic.")

/-- The expression `userPhoto.includes(',') ? userPhoto.split(',')[1] : userPhoto`:
the text between the first comma and the second, or the whole text when it
holds no comma. -/
def stripDataUrl (userPhoto : JSString) : JSString :=
  match splitAtFirst [44] userPhoto with
  | none => userPhoto
  | some (_, after) => after.takeWhile (fun c => c != 44)

/-- An `inline_data` part of a request. -/
def inlineDataPart (mimeType data : JSString) : JSON :=
  .obj [(lit "inline_data", .obj [(lit "mime_type", .str mimeType), (lit "data", .str data)])]

/-- The request body of the two detection calls: the prompt, the image, and
the generation configuration (temperature 0.1, at most 100 output tokens). -/
def detectionRequest (prompt imageBase64 : JSString) : JSON :=
  .obj [(lit "contents", .arr [.obj [(lit "parts",
      .arr [.obj [(lit "text", .str prompt)], inlineDataPart (lit "image/jpeg") imageBase64])]]),
    (lit "generationConfig",
      .obj [(lit "temperature", .num (lit "0.1")), (lit "maxOutputTokens", .num (lit "100"))])]

/-- The request body of the generation call: product image, user photo,
prompt. -/
def generationRequest (productImageBase64 userPhotoBase64 prompt : JSString) : JSON :=
  .obj [(lit "contents", .arr [.obj [(lit "parts",
      .arr [inlineDataPart (lit "image/png") productImageBase64,
        inlineDataPart (lit "image/png") userPhotoBase64,
        .obj [(lit "text", .str prompt)]])]])]

/-! ## The service worker -/

/-- The read `v[0]`; it throws on `null` and `undefined`. -/
def getIndex0 (v : Option JSON) : Except JSError (Option JSON) :=
  match v with
  | none => .error .typeError
  | some .null => .error .typeError
  | some w => .ok (index0 w)

/-- The read `result.candidates[0].content.parts[0].text` (lines 90 and 453). -/
def responseText (result : JSON) : Except JSError (Option JSON) :=
  match getProp (some result) (lit "candidates") with
  | .error e => .error e
  | .ok candidates =>
    match getIndex0 candidates with
    | .error e => .error e
    | .ok candidate =>
      match getProp candidate (lit "content") with
      | .error e => .error e
      | .ok content =>
        match getProp content (lit "parts") with
        | .error e => .error e
        | .ok parts =>
          match getIndex0 parts with
          | .error e => .error e
          | .ok part => getProp part (lit "text")

/-- What a detection call does with the provider's reply (lines 70-109 and
433-471): a rejection is thrown on; a status that is not a success is thrown
as `errorHead` followed by the body text; otherwise the text of the first part
is read (a `null` body already fails at `result.usageMetadata`), and `parse` is
applied to it. A text that is not a string has neither `trim` nor `match`: the
`catch` block throws again. -/
def detectionResult (errorHead : JSString) (parse : JSString → JSON) :
    ProviderReply → Except JSError JSON
  | .rejected e => .error e
  | .httpError _ text => .error (.error (errorHead ++ text))
  | .ok result =>
    match responseText result with
    | .error e => .error e
    | .ok (some (.str content)) => .ok (parse content)
    | .ok _ => .error .typeError

/-- `GeminiAPIService.detectClothes(imageSrc)`: the effects, and the value
returned or the error thrown. -/
def GeminiAPIService.detectClothes (env : Env) (store : Store) (imageSrc : JSString) :
    List Event × Except JSError JSON :=
  match store.geminiApiKey with
  | none => ([], .error (.error (lit "No API key configured")))
  | some [] => ([], .error (.error (lit "No API key configured")))
  | some (_ :: _) =>
    match env.image imageSrc with
    | .error e => ([.imageFetch imageSrc], .error e)
    | .ok imageBase64 =>
      ([.imageFetch imageSrc,
          .providerCall .detectProduct (detectionRequest readClothesDetectionPrompt imageBase64)],
        detectionResult (lit "Gemini API error: ") detectClothesParse
          (env.reply .detectProduct))

/-- `GeminiAPIService.detectUserClothes(userPhoto, productClothesInfo)`. -/
def GeminiAPIService.detectUserClothes (env : Env) (store : Store) (userPhoto : JSString)
    (productClothesInfo : Option JSON) : List Event × Except JSError JSON :=
  match store.geminiApiKey with
  | none => ([], .error (.error (lit "No API key configured")))
  | some [] => ([], .error (.error (lit "No API key configured")))
  | some (_ :: _) =>
    match buildUserClothesDetectionPrompt productClothesInfo with
    | .error e => ([], .error e)
    | .ok prompt =>
      ([.providerCall .detectUser (detectionRequest prompt (stripDataUrl userPhoto))],
        detectionResult (lit "Gemini API error for user detection: ") detectUserClothesParse
          (env.reply .detectUser))

/-- The object `generateTryOn` returns (lines 144-153). A property whose value
is `undefined` does not survive the message to the content script. -/
structure Analysis where
  userPhoto : JSString
  productImage : JSString
  productClothes : Option JSON
  userClothes : JSON
  originalImage : JSString
  cacheKey : JSString
  needsGeneration : Bool
  analysisComplete : Bool

/-- The property list of an `Analysis`, as the content script receives it. -/
def Analysis.fields (a : Analysis) : List (JSString × JSON) :=
  [(lit "userPhoto", .str a.userPhoto), (lit "productImage", .str a.productImage)] ++
  (match a.productClothes with
    | some v => [(lit "productClothes", v)]
    | none => []) ++
  [(lit "userClothes", a.userClothes), (lit "originalImage", .str a.originalImage),
    (lit "cacheKey", .str a.cacheKey), (lit "needsGeneration", .bool a.needsGeneration),
    (lit "analysisComplete", .bool a.analysisComplete)]

/-- `GeminiAPIService.generateTryOn(imageSrc, clothesInfo)` (lines 112-154). -/
def GeminiAPIService.generateTryOn (env : Env) (store : Store) (imageSrc : JSString)
    (clothesInfo : Option JSON) : List Event × Except JSError Analysis :=
  match store.geminiApiKey, store.userPhoto with
  | some (_ :: _), some (p :: ps) =>
    match GeminiAPIService.detectUserClothes env store (p :: ps) clothesInfo with
    | (events, .error e) => (events, .error e)
    | (events, .ok userClothesInfo) =>
      (events, .ok {
        userPhoto := p :: ps
        productImage := imageSrc
        productClothes := clothesInfo
        userClothes := userClothesInfo
        originalImage := imageSrc
        cacheKey := GeminiAPIService.generateCacheKey imageSrc store.userPhoto
        needsGeneration := true
        analysisComplete := true })
  | _, _ => ([], .error (.error (lit "Missing API key or user photo")))

/-- What `generateTryOnWithGemini` does with the provider's reply (lines
207-293): the error thrown for a status that is not a success, else the image
extracted from the parsed response. -/
def generationResult : ProviderReply → Except JSError TryOnImage
  | .rejected e => .error e
  | .httpError status text =>
    .error (.error (lit "Gemini API error (" ++ status ++ lit "): " ++ text))
  | .ok result => (extractImage result).result

/-- `GeminiAPIService.generateTryOnWithGemini(userPhoto, productImageSrc,
productClothes, userClothes)` (lines 156-299). The stored key is read and put
into the request address without any test. -/
def GeminiAPIService.generateTryOnWithGemini (env : Env) (store : Store)
    (userPhoto productImageSrc : JSString) (productClothes : Option JSON)
    (_userClothes : JSON) : List Event × Except JSError TryOnImage :=
  let _apiKey := store.geminiApiKey
  match env.image productImageSrc with
  | .error e => ([.imageFetch productImageSrc], .error e)
  | .ok productImageBase64 =>
    match tryOnPrompt productClothes with
    | .error e => ([.imageFetch productImageSrc], .error e)
    | .ok prompt =>
      ([.imageFetch productImageSrc,
          .providerCall .generate
            (generationRequest productImageBase64 (stripDataUrl userPhoto) prompt)],
        generationResult (env.reply .generate))
/-! ## The content script: `handleTryOnClick` -/

/-- What the promise wrappers of the content script (lines 345-392) make of the
service worker's answer `{result}` or `{error: error.message}`: the promise is
rejected when `response.error` is truthy; an error whose message is empty or
missing resolves to `response.result`, which is `undefined`. -/
def viaMessage {α : Type} : Except JSError α → Except JSError (Option α)
  | .ok v => .ok (some v)
  | .error (.error []) => .ok none
  | .error e => .error e

/-- The object `{...apiResult, generatedImage: tryOnResult.generatedImage}` of
line 254. -/
def withGeneratedImage (apiResult : Analysis) (generatedImage : JSString) : JSON :=
  .obj (defineProp apiResult.fields (lit "generatedImage") (.str generatedImage))

/-- The object `{...apiResult, generatedImage: null, error: 'Image generation
failed'}` of line 261. -/
def failureArtifact (apiResult : Analysis) : JSON :=
  .obj (defineProp (defineProp apiResult.fields (lit "generatedImage") .null)
    (lit "error") (.str (lit "Image generation failed")))

/-- Lines 244-270: the generation message when `needsGeneration` holds, and
the final result. Every rejection is caught (line 259), and so is the read
`tryOnResult.generatedImage` on `undefined`. -/
def generationStage (env : Env) (store : Store) (apiResult : Analysis) : List Event × JSON :=
  if apiResult.needsGeneration then
    match GeminiAPIService.generateTryOnWithGemini env store apiResult.userPhoto
        apiResult.productImage apiResult.productClothes apiResult.userClothes with
    | (events, reply) =>
      match viaMessage reply with
      | .ok (some tryOnResult) =>
        (events, withGeneratedImage apiResult tryOnResult.generatedImage)
      | .ok none => (events, failureArtifact apiResult)
      | .error _ => (events, failureArtifact apiResult)
  else ([], .obj apiResult.fields)

/-- Lines 244-295, from the analysis on: the generation stage, the caching
step, and `showResult`. -/
def generateAndShow (env : Env) (store : Store) (cacheKey : JSString) (apiResult : Analysis) :
    List Event × Store :=
  match generationStage env store apiResult with
  | (events3, finalResult) =>
    match cacheStep env store cacheKey finalResult with
    | (events4, store') => (events3 ++ events4 ++ [.showResult finalResult], store')

/-- `handleTryOnClick(imageSrc)` of `BaseTryOnConnector` (and, word for word, of
`UniversalTryOn`): the effects in order, and the storage area afterwards. An
error outside the two inner `try` blocks ends in `showError` (line 299). -/
def handleTryOnClick (env : Env) (store : Store) (imageSrc : JSString) : List Event × Store :=
  let cacheKey := generateCacheKey imageSrc store.userPhoto
  let cachedResult := getCachedResult store cacheKey
  if truthy (some cachedResult) then ([.showResult cachedResult], store)
  else
    match GeminiAPIService.detectClothes env store imageSrc with
    | (events1, reply1) =>
      match viaMessage reply1 with
      | .error e => (.showLoadingModal imageSrc :: events1 ++ [.showError e], store)
      | .ok clothesInfo =>
        match GeminiAPIService.generateTryOn env store imageSrc clothesInfo with
        | (events2, reply2) =>
          match viaMessage reply2 with
          | .error e =>
            (.showLoadingModal imageSrc :: events1 ++ events2 ++ [.showError e], store)
          | .ok none =>
            (.showLoadingModal imageSrc :: events1 ++ events2 ++ [.showError .typeError],
              store)
          | .ok (some apiResult) =>
            match generateAndShow env store cacheKey apiResult with
            | (events, store') =>
              (.showLoadingModal imageSrc :: events1 ++ events2 ++ events, store')

/-! ## Vocabulary of the orchestration statements -/

/-- The provider calls of a run, in order. -/
def providerStages : List Event → List Stage
  | [] => []
  | .providerCall stage _ :: rest => stage :: providerStages rest
  | _ :: rest => providerStages rest

/-- The names written by the `set` calls of a run, in order. -/
def storageWrites : List Event → List JSString
  | [] => []
  | .storageSet name _ :: rest => name :: storageWrites rest
  | _ :: rest => storageWrites rest

/-- The values handed to `showResult` in a run, in order. -/
def shownResults : List Event → List JSON
  | [] => []
  | .showResult result :: rest => result :: shownResults rest
  | _ :: rest => shownResults rest

/-- The errors handed to `showError` in a run, in order. -/
def shownErrors : List Event → List JSError
  | [] => []
  | .showError e :: rest => e :: shownErrors rest
  | _ :: rest => shownErrors rest

/-- The number of `remove` calls of a run. -/
def storageRemovals : List Event → Nat
  | [] => 0
  | .storageRemove _ :: rest => storageRemovals rest + 1
  | _ :: rest => storageRemovals rest

/-! ## Vocabulary of the cache statements -/

/-- The names of the stored entries are distinct (the area is a map). -/
def Store.WF (store : Store) : Prop :=
  (store.entries.map Prod.fst).Nodup

/-- The size estimate of the caching step: `JSON.stringify(value).length`. -/
def estimatedSize (v : JSON) : Nat :=
  (stringify v).length

/-- The usage figure of the eviction bound: the sum of the estimated sizes of
the stored entries, the credential and the user photo included. -/
def estimatedUsage (store : Store) : Nat :=
  (match store.geminiApiKey with
    | some s => estimatedSize (.str s)
    | none => 0) +
  (match store.userPhoto with
    | some s => estimatedSize (.str s)
    | none => 0) +
  (store.entries.map (fun e => estimatedSize e.2)).sum

/-- An area without entries. -/
def emptyStore : Store :=
  { geminiApiKey := none, userPhoto := none, entries := [] }

/-- The area after the cache names `cache_k1`, ..., `cache_k4` were written in
this order and `cache_k1` was then written again. -/
def overwrittenStore : Store :=
  ((((emptyStore.set (cacheName (lit "k1")) (.obj [])).set (cacheName (lit "k2")) (.obj [])).set
    (cacheName (lit "k3")) (.obj [])).set (cacheName (lit "k4")) (.obj [])).set
    (cacheName (lit "k1")) (.obj [(lit "again", .bool true)])

/-! ## Vocabulary of the detection and orchestration examples -/

/-- A garment descriptor: an object whose `clothes` and `color` properties are
both present and strings. -/
def IsDescriptor (v : JSON) : Prop :=
  ∃ fields clothes color, v = .obj fields ∧
    lookup (lit "clothes") fields = some (.str clothes) ∧
    lookup (lit "color") fields = some (.str color)

/-- The model output `{"clothes": "shirt"}`: valid JSON, no color. -/
def partialOutput : JSString :=
  lit "\x7b\"clothes\": \"shirt\"\x7d"

/-- A provider reply with a success status whose body holds the one text part
`content`. -/
def replyWithText (content : JSString) : ProviderReply :=
  .ok (textOnlyResponse [content])

/-- An area with a credential, a user photo and no cache entry. -/
def exampleStore : Store :=
  { geminiApiKey := some (lit "KEY")
    userPhoto := some (lit "data:image/png;base64,PHOTO")
    entries := [] }

/-- An environment whose provider answers every call with the text
`partialOutput`. -/
def partialEnv : Env where
  image := fun _ => .ok (lit "IMG")
  reply := fun _ => replyWithText partialOutput
  bytesInUse := fun _ => 0
  setError := fun _ _ _ => none

/-- The effects of the service worker: image fetches and provider calls. -/
def Event.isService : Event → Bool
  | .imageFetch _ => true
  | .providerCall _ _ => true
  | _ => false

/-- The effects on the storage area. -/
def Event.isStorage : Event → Bool
  | .storageSet _ _ => true
  | .storageRemove _ => true
  | _ => false

/-- The values handed to the `set` calls of a run, in order. -/
def storedValues : List Event → List JSON
  | [] => []
  | .storageSet _ value :: rest => value :: storedValues rest
  | _ :: rest => storedValues rest

/-- The model output `{"clothes": "shirt", "color": "blue"}`. -/
def descriptorOutput : JSString :=
  lit "\x7b\"clothes\": \"shirt\", \"color\": \"blue\"\x7d"

/-- The address of the product image in the examples. -/
def exampleProduct : JSString :=
  lit "https://shop.example/p.jpg"

/-- The analysis `generateTryOn` returns in the examples. -/
def exampleAnalysis : Analysis where
  userPhoto := lit "data:image/png;base64,PHOTO"
  productImage := exampleProduct
  productClothes := some (descriptor (lit "shirt") (lit "blue"))
  userClothes := descriptor (lit "shirt") (lit "blue")
  originalImage := exampleProduct
  cacheKey := GeminiAPIService.generateCacheKey exampleProduct exampleStore.userPhoto
  needsGeneration := true
  analysisComplete := true

/-- Provider replies: both detections answer `descriptorOutput`, the generation
call answers with a text part only. -/
def noImageReplies : Stage → ProviderReply
  | .generate => .ok textReplyResponse
  | _ => replyWithText descriptorOutput

/-- An environment with the replies `noImageReplies`. -/
def noImageEnv : Env where
  image := fun _ => .ok (lit "IMG")
  reply := noImageReplies
  bytesInUse := fun _ => 0
  setError := fun _ _ _ => none

/-- Provider replies: both detections answer `descriptorOutput`, the generation
call answers with status 500 and the body `boom`. -/
def upstreamErrorReplies : Stage → ProviderReply
  | .generate => .httpError (lit "500") (lit "boom")
  | _ => replyWithText descriptorOutput

/-- An environment with the replies `upstreamErrorReplies`. -/
def upstreamErrorEnv : Env where
  image := fun _ => .ok (lit "IMG")
  reply := upstreamErrorReplies
  bytesInUse := fun _ => 0
  setError := fun _ _ _ => none

/-- The response `{"candidates":[{"content":{"parts":[{"inline_data":{"data":"AAA..."}}]}}]}`
with a payload of 1200 characters. -/
def inlineImageResponse : JSON :=
  .obj [(lit "candidates", .arr [.obj [(lit "content", .obj [(lit "parts",
      .arr [.obj [(lit "inline_data", .obj [(lit "data", .str (List.replicate 1200 65))])]])])]])]

/-- Provider replies: both detections answer `descriptorOutput`, the generation
call answers `inlineImageResponse`. -/
def imageReplies : Stage → ProviderReply
  | .generate => .ok inlineImageResponse
  | _ => replyWithText descriptorOutput

/-- An environment with the replies `imageReplies`. -/
def imageEnv : Env where
  image := fun _ => .ok (lit "IMG")
  reply := imageReplies
  bytesInUse := fun _ => 0
  setError := fun _ _ _ => none

/-- The artifact has an image: `generatedImage` is a non-empty string. -/
def HasImage (fields : List (JSString × JSON)) : Prop :=
  ∃ s, s ≠ [] ∧ lookup (lit "generatedImage") fields = some (.str s)

/-- The artifact has no image: `generatedImage` is absent or `null`. -/
def LacksImage (fields : List (JSString × JSON)) : Prop :=
  lookup (lit "generatedImage") fields = none ∨
    lookup (lit "generatedImage") fields = some .null

/-- The artifact has an `error` that is not `null`. -/
def HasError (fields : List (JSString × JSON)) : Prop :=
  ∃ e, lookup (lit "error") fields = some e ∧ e ≠ .null

/-- The pairing of an artifact: it is an object, and when it has no image it
has an error. -/
def Paired (a : JSON) : Prop :=
  ∃ fields, a = .obj fields ∧ (LacksImage fields → HasError fields)

/-! ## Vocabulary of the key statements -/

/-- A digit of a base-36 numeral: `0`-`9` or `a`-`z`. -/
def isBase36Digit (c : Nat) : Bool :=
  (48 ≤ c && c ≤ 57) || (97 ≤ c && c ≤ 122)

/-- `generateCacheKey(imageSrc)` of `UniversalTryOn` (universal-tryon.js, lines
161-169); `userPhoto` is the stored `userPhoto` entry. -/
def UniversalTryOn.generateCacheKey (imageSrc : JSString) (userPhoto : Option JSString) :
    JSString :=
  let userPhotoHash := simpleHash (match userPhoto with
    | some (c :: cs) => c :: cs
    | _ => [])
  let imageHash := simpleHash imageSrc
  imageHash ++ lit "_" ++ userPhotoHash

/-- The effects of a run other than those on the storage area. -/
def nonStorage (events : List Event) : List Event :=
  events.filter (fun e => !e.isStorage)

/-- Provider replies as in `imageReplies`, in an environment whose storage area
rejects every write. -/
def fullDiskEnv : Env where
  image := fun _ => .ok (lit "IMG")
  reply := imageReplies
  bytesInUse := fun _ => 0
  setError := fun _ _ _ => some (lit "QUOTA_BYTES quota exceeded")

/-- Provider replies: the product detection answers the text `null`, the other
calls as in `imageReplies`. -/
def nullDetectionReplies : Stage → ProviderReply
  | .detectProduct => replyWithText (lit "null")
  | stage => imageReplies stage

/-- An environment with the replies `nullDetectionReplies`. -/
def nullDetectionEnv : Env where
  image := fun _ => .ok (lit "IMG")
  reply := nullDetectionReplies
  bytesInUse := fun _ => 0
  setError := fun _ _ _ => none

/-! ## The user-detection prompt as the specification words it -/

/-- The placeholder for the garment type. -/
def clothesPlaceholder : JSString := lit "\x7bPRODUCT_CLOTHES\x7d"

/-- The placeholder for the garment color. -/
def colorPlaceholder : JSString := lit "\x7bPRODUCT_COLOR\x7d"

/-- The template text before the placeholder of the garment type. -/
def userPromptHead : JSString :=
  lit "I want to show how this person looks wearing a "

/-- The template text between the two placeholders. -/
def userPromptMiddle : JSString := lit " in "

/-- The template text after the placeholder of the color. -/
def userPromptTail : JSString :=
  readUserClothesDetectionPrompt.drop
    (userPromptHead.length + clothesPlaceholder.length + userPromptMiddle.length +
      colorPlaceholder.length)

/-- The prompt in the specification's words: the template with the type put
verbatim in the place of `{PRODUCT_CLOTHES}` and the color put verbatim in the
place of `{PRODUCT_COLOR}`. -/
def userPromptVerbatim (clothes color : JSString) : JSString :=
  userPromptHead ++ clothes ++ userPromptMiddle ++ color ++ userPromptTail

/-! # Properties -/

/-! ## Arithmetic of the hash step -/

theorem land_self (x : Int) : Int.land x x = x := by
  cases x with
  | ofNat n => simp [Int.land]
  | negSucc n => simp [Int.land]

theorem band_self (x : Int) : band x x = toInt32 x := by
  unfold band
  exact land_self _

theorem toInt32_range (x : Int) : -2147483648 ≤ toInt32 x ∧ toInt32 x < 2147483648 := by
  unfold toInt32
  simp only []
  split_ifs <;> omega

theorem hashStep_eq_wrap (h : Int) (c : Nat) :
    hashStep h c = wrapSigned32 (h * 31 + (c : Int)) := by
  unfold hashStep
  simp only [band_self]
  unfold shl toInt32 wrapSigned32
  simp only []
  norm_num
  split_ifs <;> omega

theorem wrapSigned32_spec (x : Int) :
    -2147483648 ≤ wrapSigned32 x ∧ wrapSigned32 x < 2147483648 ∧
      (wrapSigned32 x - x) % 4294967296 = 0 := by
  unfold wrapSigned32
  omega

theorem hashLoop_eq_specHash (s : JSString) : hashLoop s = specHash s := by
  unfold hashLoop specHash
  have key : ∀ (l : JSString) (a : Int),
      List.foldl hashStep a l =
        List.foldl (fun h c => wrapSigned32 (h * 31 + (c : Int))) a l := by
    intro l
    induction l with
    | nil => intro a; rfl
    | cons c cs ih =>
      intro a
      simp only [List.foldl_cons, hashStep_eq_wrap]
      exact ih _
  exact key s 0

/-! ## The characters of a hash -/

theorem digit36_ne_underscore (d : Nat) (h : d < 36) : digit36 d ≠ 95 := by
  unfold digit36
  split_ifs <;> omega

theorem toDigits36_no_underscore (fuel : Nat) :
    ∀ (n : Nat) (acc : JSString), 95 ∉ acc → 95 ∉ toDigits36 fuel n acc := by
  induction fuel with
  | zero => intro n acc h; simpa [toDigits36] using h
  | succ k ih =>
    intro n acc h
    have hd : digit36 (n % 36) ≠ 95 := digit36_ne_underscore _ (Nat.mod_lt _ (by decide))
    have hacc : 95 ∉ digit36 (n % 36) :: acc := by
      simp only [List.mem_cons, not_or]
      exact ⟨fun e => hd e.symm, h⟩
    unfold toDigits36
    simp only []
    split_ifs
    · exact hacc
    · exact ih _ _ hacc

theorem simpleHash_no_underscore (s : JSString) : 95 ∉ simpleHash s := by
  unfold simpleHash toString36
  split_ifs
  · simp only [List.mem_cons, not_or]
    exact ⟨by decide, toDigits36_no_underscore _ _ _ (by simp)⟩
  · exact toDigits36_no_underscore _ _ _ (by simp)

theorem append_sep_inj (a a' b b' : JSString) (ha : 95 ∉ a) (ha' : 95 ∉ a')
    (h : a ++ 95 :: b = a' ++ 95 :: b') : a = a' ∧ b = b' := by
  induction a generalizing a' with
  | nil =>
    cases a' with
    | nil => simpa using h
    | cons x xs =>
      simp only [List.nil_append, List.cons_append, List.cons.injEq] at h
      simp only [List.mem_cons, not_or] at ha'
      exact absurd h.1 ha'.1
  | cons y ys ih =>
    cases a' with
    | nil =>
      simp only [List.nil_append, List.cons_append, List.cons.injEq] at h
      simp only [List.mem_cons, not_or] at ha
      exact absurd h.1.symm ha.1
    | cons x xs =>
      simp only [List.cons_append, List.cons.injEq] at h
      simp only [List.mem_cons, not_or] at ha ha'
      obtain ⟨e1, e2⟩ := ih xs ha.2 ha'.2 h.2
      exact ⟨by rw [h.1, e1], e2⟩

theorem generateCacheKey_unfold (p : JSString) (u : Option JSString) :
    generateCacheKey p u = simpleHash p ++ 95 :: simpleHash (u.getD []) := by
  unfold generateCacheKey
  have hl : lit "_" = [95] := by decide
  rcases u with _ | u
  · simp [hl]
  · cases u <;> simp [hl]

/-! ## Base 36 -/

theorem digitValue36_digit36 (d : Nat) (h : d < 36) : digitValue36 (digit36 d) = d := by
  unfold digitValue36 digit36
  split_ifs <;> omega

theorem digit36_ne_minus (d : Nat) (h : d < 36) : digit36 d ≠ 45 := by
  unfold digit36
  split_ifs <;> omega

theorem toDigits36_read (fuel : Nat) : ∀ (n : Nat) (acc : JSString), n < fuel →
    List.foldl (fun a c => 36 * a + digitValue36 c) 0 (toDigits36 fuel n acc) =
      List.foldl (fun a c => 36 * a + digitValue36 c) n acc := by
  induction fuel with
  | zero => intro n acc h; omega
  | succ k ih =>
    intro n acc h
    have hd : digitValue36 (digit36 (n % 36)) = n % 36 :=
      digitValue36_digit36 _ (Nat.mod_lt _ (by decide))
    unfold toDigits36
    simp only []
    split_ifs with h0
    · simp only [List.foldl_cons, hd]
      congr 1
      omega
    · rw [ih (n / 36) _ (by omega)]
      simp only [List.foldl_cons, hd]
      congr 1
      omega

theorem toDigits36_head (fuel : Nat) : ∀ (n : Nat) (acc : JSString),
    (∀ c, acc.head? = some c → c ≠ 45) →
    ∀ c, (toDigits36 (fuel + 1) n acc).head? = some c → c ≠ 45 := by
  induction fuel with
  | zero =>
    intro n acc _ c h
    unfold toDigits36 at h
    simp only [toDigits36, ite_self, List.head?_cons, Option.some.injEq] at h
    rw [← h]
    exact digit36_ne_minus _ (Nat.mod_lt _ (by decide))
  | succ k ih =>
    intro n acc _ c h
    unfold toDigits36 at h
    simp only [] at h
    split_ifs at h
    · simp only [List.head?_cons, Option.some.injEq] at h
      rw [← h]
      exact digit36_ne_minus _ (Nat.mod_lt _ (by decide))
    · refine ih _ _ ?_ c h
      intro c' hc'
      simp only [List.head?_cons, Option.some.injEq] at hc'
      rw [← hc']
      exact digit36_ne_minus _ (Nat.mod_lt _ (by decide))

/-- Reading back the numeral that `toString36` writes gives the number. -/
theorem readBase36_toString36 (x : Int) : readBase36 (toString36 x) = x := by
  have hread : readDigits36 (toDigits36 (x.natAbs + 1) x.natAbs []) = x.natAbs := by
    unfold readDigits36
    rw [toDigits36_read _ _ _ (Nat.lt_succ_self _)]
    rfl
  unfold toString36
  split_ifs with hneg
  · simp only [readBase36, if_true, hread]
    omega
  · cases hd : toDigits36 (x.natAbs + 1) x.natAbs [] with
    | nil =>
      rw [hd] at hread
      simp only [readBase36]
      have : x.natAbs = 0 := by rw [← hread]; rfl
      omega
    | cons c cs =>
      have hc : c ≠ 45 := toDigits36_head _ _ [] (by simp) c (by rw [hd]; rfl)
      simp only [readBase36, hc, if_false]
      rw [← hd, hread]
      omega

/-! ## Claims C1 - C3 -/

/-- C1. `simpleHash(s)` is the base-36 rendering (leading `-` when negative) of
the fold `h := h * 31 + codeUnit`, wrapped to signed 32 bits, from `h = 0`, and
reading that numeral back gives the folded value; one step of the loop,
`((h << 5) - h) + c` then `h & h`, is `h * 31 + c` reduced modulo 2^32 into the
signed range; `simpleHash("")` is `0`. -/
theorem simpleHash_eq_base36_specHash (s : JSString) :
    simpleHash s = toString36 (specHash s) ∧
    readBase36 (simpleHash s) = specHash s ∧
    (∀ (h : Int) (c : Nat),
      hashStep h c = wrapSigned32 (h * 31 + (c : Int)) ∧
      -2147483648 ≤ hashStep h c ∧ hashStep h c < 2147483648 ∧
      (hashStep h c - (h * 31 + (c : Int))) % 4294967296 = 0) ∧
    simpleHash [] = lit "0" := by
  have h1 : simpleHash s = toString36 (specHash s) := by
    unfold simpleHash
    rw [hashLoop_eq_specHash]
  refine ⟨h1, ?_, ?_, by decide⟩
  · rw [h1, readBase36_toString36]
  · intro h c
    rw [hashStep_eq_wrap]
    exact ⟨rfl, wrapSigned32_spec _⟩

/-- C2. `generateCacheKey`, in the content script and in the service worker,
returns `simpleHash(p)`, an underscore, then `simpleHash(u)`, where an absent
user photo counts as the empty string; the key depends on `(p, u)` alone. -/
theorem generateCacheKey_eq_hashes (p : JSString) (u : Option JSString) :
    generateCacheKey p u = simpleHash p ++ lit "_" ++ simpleHash (u.getD []) ∧
    GeminiAPIService.generateCacheKey p u =
      simpleHash p ++ lit "_" ++ simpleHash (u.getD []) ∧
    generateCacheKey p none = generateCacheKey p (some []) := by
  have hsame : GeminiAPIService.generateCacheKey p u = generateCacheKey p u := rfl
  have hl : lit "_" = [95] := by decide
  have hkey : generateCacheKey p u = simpleHash p ++ lit "_" ++ simpleHash (u.getD []) := by
    rw [generateCacheKey_unfold]
    simp [hl]
  rw [hsame]
  exact ⟨hkey, hkey, rfl⟩

/-- C3, as stated, fails: `Aa` and `BB` are different product references with
the same hash, so the two keys coincide. -/
theorem generateCacheKey_collision :
    (lit "Aa", (none : Option JSString)) ≠ (lit "BB", none) ∧
    generateCacheKey (lit "Aa") none = generateCacheKey (lit "BB") none := by
  decide

/-- C3, amended. Changing an input changes the cache key whenever the change
alters that input's hash: if the product references hash differently, or the
user photos do, the keys differ. -/
theorem generateCacheKey_ne_of_hash_ne (p p' : JSString) (u u' : Option JSString)
    (h : simpleHash p ≠ simpleHash p' ∨
      simpleHash (u.getD []) ≠ simpleHash (u'.getD [])) :
    generateCacheKey p u ≠ generateCacheKey p' u' := by
  intro e
  rw [generateCacheKey_unfold, generateCacheKey_unfold] at e
  obtain ⟨e1, e2⟩ := append_sep_inj _ _ _ _ (simpleHash_no_underscore p)
    (simpleHash_no_underscore p') e
  rcases h with h | h
  · exact h e1
  · exact h e2

/-- C3, amended, at the product references `Aa` and `Ab` with one user photo. -/
theorem generateCacheKey_ne_of_hash_ne_witness :
    (simpleHash (lit "Aa") ≠ simpleHash (lit "Ab") ∨
      simpleHash ((some (lit "photo")).getD []) ≠ simpleHash ((some (lit "photo")).getD [])) ∧
    generateCacheKey (lit "Aa") (some (lit "photo")) ≠
      generateCacheKey (lit "Ab") (some (lit "photo")) :=
  ⟨Or.inl (by decide),
    generateCacheKey_ne_of_hash_ne (lit "Aa") (lit "Ab") (some (lit "photo"))
      (some (lit "photo")) (Or.inl (by decide))⟩

/-! ## The pattern `"key":\s*"([^"]+)"` -/

theorem dropLiteral_some (p : JSString) : ∀ (s r : JSString),
    dropLiteral p s = some r → s = p ++ r := by
  induction p with
  | nil => intro s r h; simpa [dropLiteral] using h
  | cons a p ih =>
    intro s r h
    cases s with
    | nil => simp [dropLiteral] at h
    | cons c cs =>
      simp only [dropLiteral] at h
      split_ifs at h with hac
      rw [hac, ih cs r h]
      rfl

theorem dropLiteral_append (p r : JSString) : dropLiteral p (p ++ r) = some r := by
  induction p with
  | nil => cases r <;> rfl
  | cons a p ih => simp [dropLiteral, ih]

theorem dropWhile_cons_split (p : Nat → Bool) : ∀ (l : JSString) (a : Nat) (r : JSString),
    l.dropWhile p = a :: r → p a = false ∧ l = l.takeWhile p ++ a :: r := by
  intro l
  induction l with
  | nil => intro a r h; simp at h
  | cons x xs ih =>
    intro a r h
    by_cases hx : p x = true
    · simp only [List.dropWhile_cons, hx, if_true] at h
      obtain ⟨h1, h2⟩ := ih a r h
      refine ⟨h1, ?_⟩
      simp only [List.takeWhile_cons, hx, if_true, List.cons_append]
      rw [← h2]
    · simp only [List.dropWhile_cons, hx] at h
      simp only [Bool.false_eq_true, if_false, List.cons.injEq] at h
      obtain ⟨h1, h2⟩ := h
      subst h1
      subst h2
      simp [List.takeWhile_cons, hx]

theorem takeWhile_run (p : Nat → Bool) (ws : JSString) (a : Nat) (r : JSString)
    (hws : ∀ c ∈ ws, p c = true) (ha : p a = false) :
    (ws ++ a :: r).takeWhile p = ws ∧ (ws ++ a :: r).dropWhile p = a :: r := by
  induction ws with
  | nil => simp [List.takeWhile_cons, List.dropWhile_cons, ha]
  | cons x xs ih =>
    have hx : p x = true := hws x (by simp)
    have := ih (fun c hc => hws c (by simp [hc]))
    simp [List.takeWhile_cons, List.dropWhile_cons, hx, this.1, this.2]

theorem matchHere_some (key s m v rest : JSString)
    (h : matchHere key s = some (m, v, rest)) : IsField key m v ∧ s = m ++ rest := by
  unfold matchHere at h
  split at h
  · simp at h
  · rename_i afterHead hdrop
    have hs := dropLiteral_some _ _ _ hdrop
    split at h
    · rename_i afterQuote hq
      obtain ⟨-, hsplit1⟩ := dropWhile_cons_split _ _ _ _ hq
      simp only at h
      split at h
      · rename_i rest' hr
        obtain ⟨-, hsplit2⟩ := dropWhile_cons_split _ _ _ _ hr
        split_ifs at h with hv
        simp only [Option.some.injEq, Prod.mk.injEq] at h
        obtain ⟨hm, hv', hrest⟩ := h
        subst hrest
        refine ⟨⟨afterHead.takeWhile isWhiteSpace, ?_, ?_, ?_, ?_⟩, ?_⟩
        · intro c hc
          exact List.mem_takeWhile_imp hc
        · rw [← hv']; exact hv
        · rw [← hv']
          intro hmem
          have := List.mem_takeWhile_imp hmem
          simp at this
        · rw [← hm, ← hv']
        · rw [← hm, hs]
          conv_lhs => rw [hsplit1, hsplit2]
          simp [List.append_assoc]
      · simp at h
    · simp at h

theorem matchHere_field (key ws v rest : JSString)
    (hws : ∀ c ∈ ws, isWhiteSpace c = true) (hv : v ≠ []) (hq : 34 ∉ v) :
    matchHere key (fieldHead key ++ ws ++ 34 :: v ++ 34 :: rest) =
      some (fieldHead key ++ ws ++ 34 :: v ++ [34], v, rest) := by
  unfold matchHere
  have h1 : fieldHead key ++ ws ++ 34 :: v ++ 34 :: rest
      = fieldHead key ++ (ws ++ 34 :: (v ++ 34 :: rest)) := by simp [List.append_assoc]
  rw [h1, dropLiteral_append]
  simp only
  obtain ⟨t1, d1⟩ := takeWhile_run isWhiteSpace ws 34 (v ++ 34 :: rest) hws (by decide)
  rw [d1, t1]
  simp only
  obtain ⟨t2, d2⟩ := takeWhile_run (fun c => c != 34) v 34 rest
    (by intro c hc; simp; intro e; exact hq (e ▸ hc)) (by simp)
  rw [d2, t2]
  simp [hv]

theorem regexExec_some (key : JSString) : ∀ (s m v rest : JSString),
    regexExec key s = some (m, v, rest) →
      IsField key m v ∧ ∃ pre, s = pre ++ m ++ rest := by
  intro s
  induction s with
  | nil => intro m v rest h; simp [regexExec] at h
  | cons c cs ih =>
    intro m v rest h
    unfold regexExec at h
    split at h
    · rename_i m' hm
      simp only [Option.some.injEq] at h
      subst h
      obtain ⟨hf, hs⟩ := matchHere_some _ _ _ _ _ hm
      exact ⟨hf, [], by simpa using hs⟩
    · obtain ⟨hf, pre, hp⟩ := ih m v rest h
      exact ⟨hf, c :: pre, by simp [hp]⟩

theorem regexExec_field (key m v : JSString) (h : IsField key m v) :
    regexExec key m = some (m, v, []) := by
  obtain ⟨ws, hws, hv, hq, hm⟩ := h
  have hmh := matchHere_field key ws v [] hws hv hq
  have hm' : m = fieldHead key ++ ws ++ 34 :: v ++ [34] := hm
  rw [← hm'] at hmh
  have hne : ∃ c cs, m = c :: cs := by
    rw [hm']; exact ⟨34, key ++ [34, 58] ++ ws ++ 34 :: v ++ [34], by simp [fieldHead]⟩
  obtain ⟨c, cs, hc⟩ := hne
  rw [hc] at hmh ⊢
  unfold regexExec
  rw [hmh]

theorem matchAllAux_isField (key : JSString) (fuel : Nat) : ∀ (s m : JSString),
    m ∈ matchAllAux key fuel s → ∃ v, IsField key m v := by
  induction fuel with
  | zero => intro s m h; simp [matchAllAux] at h
  | succ k ih =>
    intro s m h
    unfold matchAllAux at h
    split at h
    · simp at h
    · rename_i m' v' rest' hre
      simp only [List.mem_cons] at h
      rcases h with h | h
      · subst h
        exact ⟨v', (regexExec_some _ _ _ _ _ hre).1⟩
      · exact ih _ _ h

theorem regexExec_rest_lt (key s m v rest : JSString)
    (h : regexExec key s = some (m, v, rest)) : rest.length < s.length := by
  obtain ⟨⟨ws, -, -, -, hm⟩, pre, hs⟩ := regexExec_some key s m v rest h
  rw [hs, hm]
  simp [fieldHead]
  omega

theorem matchAllAux_fuel (key : JSString) (n : Nat) : ∀ (k : Nat) (s : JSString),
    s.length ≤ n → s.length ≤ k → matchAllAux key n s = matchAllAux key k s := by
  induction n with
  | zero =>
    intro k s hn _
    have hs : s = [] := List.length_eq_zero.mp (Nat.le_zero.mp hn)
    subst hs
    cases k <;> simp [matchAllAux, regexExec]
  | succ n ih =>
    intro k s hn hk
    cases k with
    | zero =>
      have hs : s = [] := List.length_eq_zero.mp (Nat.le_zero.mp hk)
      subst hs
      simp [matchAllAux, regexExec]
    | succ k =>
      unfold matchAllAux
      cases hre : regexExec key s with
      | none => rfl
      | some r =>
        obtain ⟨m, v, rest⟩ := r
        have hlt := regexExec_rest_lt key s m v rest hre
        simp only
        rw [ih k rest (by omega) (by omega)]

/-- The fuel of `matchAll` is never exhausted: more fuel gives the same list. -/
theorem matchAll_fuel (key s : JSString) (n : Nat) (h : s.length ≤ n) :
    matchAllAux key n s = matchAll key s :=
  matchAllAux_fuel key n s.length s h (Nat.le_refl _)

theorem structuralScan_cases (t : JSString) :
    (matchAll dataKey t = [] ∧ structuralScan t = ([], none)) ∨
    (∃ m v, (matchAll dataKey t).getLast? = some m ∧ IsField dataKey m v ∧
      v.length > 1000 ∧
      structuralScan t = ([.foundDataFields (matchAll dataKey t).length,
        .extractedLength v.length], some v)) ∨
    (∃ m v, (matchAll dataKey t).getLast? = some m ∧ IsField dataKey m v ∧
      ¬ v.length > 1000 ∧
      structuralScan t = ([.foundDataFields (matchAll dataKey t).length,
        .extractedLength v.length, .tooShort (v.take 100)], none)) := by
  unfold structuralScan
  simp only
  cases hl : (matchAll dataKey t).getLast? with
  | none =>
    left
    exact ⟨List.getLast?_eq_none_iff.mp hl, rfl⟩
  | some m =>
    right
    have hmem : m ∈ matchAll dataKey t := List.mem_of_getLast?_eq_some hl
    obtain ⟨v, hf⟩ := matchAllAux_isField dataKey _ _ _ hmem
    have hre := regexExec_field dataKey m v hf
    have hv : v ≠ [] := by obtain ⟨_, _, hv, _⟩ := hf; exact hv
    simp only [hre, hv, if_false]
    by_cases hlen : v.length > 1000
    · left
      exact ⟨m, v, rfl, hf, hlen, by simp [hlen]⟩
    · right
      exact ⟨m, v, rfl, hf, hlen, by simp [hlen]⟩

/-! ## The leftmost match -/

theorem regexExec_leftmost (key : JSString) : ∀ (pre m rest v : JSString),
    IsField key m v →
    (∀ n' v', OccursAt key (pre ++ m ++ rest) n' v' → pre.length ≤ n') →
    regexExec key (pre ++ m ++ rest) = some (m, v, rest) := by
  intro pre
  induction pre with
  | nil =>
    intro m rest v hf _
    obtain ⟨ws, hws, hv, hq, hm⟩ := hf
    have hmh := matchHere_field key ws v rest hws hv hq
    have e : fieldHead key ++ ws ++ 34 :: v ++ 34 :: rest = m ++ rest := by
      rw [hm]; simp [List.append_assoc]
    rw [e, ← hm] at hmh
    have hne : ∃ c cs, [] ++ m ++ rest = c :: cs := by
      rw [hm]
      exact ⟨34, key ++ [34, 58] ++ ws ++ 34 :: v ++ [34] ++ rest, by simp [fieldHead]⟩
    obtain ⟨c, cs, hc⟩ := hne
    rw [hc]
    unfold regexExec
    rw [← hc]
    simp only [List.nil_append]
    rw [hmh]
  | cons c pre ih =>
    intro m rest v hf hmin
    have hrec := ih m rest v hf (by
      intro n' v' ⟨p, m', r, he, hl, hf'⟩
      have := hmin (n' + 1) v' ⟨c :: p, m', r, by simp [he], by simp [hl], hf'⟩
      simpa using this)
    simp only [List.cons_append]
    unfold regexExec
    cases hmh : matchHere key (c :: (pre ++ m ++ rest)) with
    | some r =>
      obtain ⟨m2, v2, rest2⟩ := r
      obtain ⟨hf2, hs2⟩ := matchHere_some _ _ _ _ _ hmh
      have := hmin 0 v2 ⟨[], m2, rest2, by simpa using hs2, rfl, hf2⟩
      simp at this
    | none =>
      simp only [List.append_assoc] at hrec ⊢
      exact hrec

theorem capturedOr_first (key content sentinel v : JSString)
    (h : FirstCaptured key content v) : capturedOr key content sentinel = v := by
  obtain ⟨n, ⟨pre, m, rest, he, hl, hf⟩, hmin⟩ := h
  subst hl
  have := regexExec_leftmost key pre m rest v hf (by rw [← he]; exact hmin)
  unfold capturedOr
  rw [he, this]

theorem capturedOr_none (key content sentinel : JSString)
    (h : NoField key content) : capturedOr key content sentinel = sentinel := by
  unfold capturedOr
  cases hre : regexExec key content with
  | none => rfl
  | some r =>
    obtain ⟨m, v, rest⟩ := r
    obtain ⟨hf, pre, hs⟩ := regexExec_some key content m v rest hre
    exact absurd ⟨pre, m, rest, hs, rfl, hf⟩ (h pre.length v)

theorem matchAll_nil_of_exec_none (key s : JSString) (h : regexExec key s = none) :
    matchAll key s = [] := by
  unfold matchAll
  cases hl : s.length with
  | zero => rfl
  | succ n => simp [matchAllAux, h]

theorem regexExec_of_occurs (key s : JSString) : ∀ (n : Nat) (v : JSString),
    OccursAt key s n v → regexExec key s ≠ none := by
  intro n
  induction n using Nat.strong_induction_on with
  | _ n ih =>
    intro v hocc
    by_cases hless : ∃ n' v', n' < n ∧ OccursAt key s n' v'
    · obtain ⟨n', v', hlt, hocc'⟩ := hless
      exact ih n' hlt v' hocc'
    · obtain ⟨pre, m, rest, he, hl, hf⟩ := hocc
      have hmin : ∀ n' v', OccursAt key (pre ++ m ++ rest) n' v' → pre.length ≤ n' := by
        intro n' v' h'
        by_contra hc
        exact hless ⟨n', v', by omega, he ▸ h'⟩
      rw [he, regexExec_leftmost key pre m rest v hf hmin]
      simp

/-- The search finds nothing exactly when the text holds no field. -/
theorem regexExec_eq_none_iff (key s : JSString) :
    regexExec key s = none ↔ NoField key s := by
  constructor
  · intro h n v hocc
    exact regexExec_of_occurs key s n v hocc h
  · intro h
    cases hre : regexExec key s with
    | none => rfl
    | some r =>
      obtain ⟨m, v, rest⟩ := r
      obtain ⟨hf, pre, hs⟩ := regexExec_some key s m v rest hre
      exact absurd ⟨pre, m, rest, hs, rfl, hf⟩ (h pre.length v)

/-- The global match finds nothing exactly when the text holds no field. -/
theorem matchAll_eq_nil_iff (key s : JSString) : matchAll key s = [] ↔ NoField key s := by
  rw [← regexExec_eq_none_iff]
  constructor
  · intro h
    cases hre : regexExec key s with
    | none => rfl
    | some r =>
      obtain ⟨m, v, rest⟩ := r
      have hlt := regexExec_rest_lt key s m v rest hre
      unfold matchAll at h
      cases hl : s.length with
      | zero => omega
      | succ n =>
        rw [hl] at h
        simp [matchAllAux, hre] at h
  · exact matchAll_nil_of_exec_none key s

/-- The global match lists the leftmost match, then the matches of the text
after it. -/
theorem matchAll_cons (key s m v rest : JSString)
    (h : regexExec key s = some (m, v, rest)) :
    matchAll key s = m :: matchAll key rest := by
  have hlt := regexExec_rest_lt key s m v rest h
  unfold matchAll
  cases hl : s.length with
  | zero => omega
  | succ n =>
    simp only [matchAllAux, h]
    rw [matchAllAux_fuel key n rest.length rest (by omega) (Nat.le_refl _)]

/-! ## Claims C4 - C9 -/

/-- C4. A response (any parsed body other than `null`) whose `candidates` is
missing or the empty list fails with `No candidates returned from Gemini API`;
the only console line is the no-candidates one, so no extraction strategy has
run, whatever else the response holds. -/
theorem extractImage_no_candidates (result : JSON) (hnull : result ≠ .null)
    (h : getProp (some result) (lit "candidates") = .ok none ∨
      getProp (some result) (lit "candidates") = .ok (some (.arr []))) :
    extractImage result = ⟨[.noCandidates], .error (.error noCandidatesMessage)⟩ := by
  cases result with
  | null => exact absurd rfl hnull
  | obj fields =>
    rcases h with h | h <;> simp [extractImage, h, truthy, lengthIsZero]
  | _ =>
    rcases h with h | h <;> simp_all [extractImage, getProp]

/-- C4 at the response `{"candidates":[],"data":"BBB..."}`. -/
theorem extractImage_no_candidates_witness :
    emptyCandidatesResponse ≠ .null ∧
    (getProp (some emptyCandidatesResponse) (lit "candidates") = .ok none ∨
      getProp (some emptyCandidatesResponse) (lit "candidates") = .ok (some (.arr []))) ∧
    extractImage emptyCandidatesResponse =
      ⟨[.noCandidates], .error (.error noCandidatesMessage)⟩ :=
  ⟨fun h => JSON.noConfusion h, Or.inr rfl,
    extractImage_no_candidates emptyCandidatesResponse (fun h => JSON.noConfusion h)
      (Or.inr rfl)⟩

theorem extractFromCandidate_accept (result candidate : JSON) (m v : JSString)
    (hlast : (matchAll dataKey (stringify result)).getLast? = some m)
    (hfield : IsField dataKey m v) (hlen : v.length > 1000) :
    extractFromCandidate result candidate =
      ⟨[.searching, .foundDataFields (matchAll dataKey (stringify result)).length,
        .extractedLength v.length], .ok (imageResult v)⟩ := by
  have hre := regexExec_field dataKey m v hfield
  have hv : v ≠ [] := by obtain ⟨_, _, hv, _⟩ := hfield; exact hv
  unfold extractFromCandidate structuralScan
  simp [hlast, hre, hv, hlen]

/-- C5. With at least one candidate, when the last `"data":"<value>"` field of
the serialized response has a value longer than 1000 characters, the extractor
returns that value behind `data:image/png;base64,`, whatever the parts of the
first candidate hold. -/
theorem extractImage_last_data_field (result candidate : JSON) (more : List JSON)
    (lastMatch value : JSString)
    (hcands : getProp (some result) (lit "candidates") = .ok (some (.arr (candidate :: more))))
    (hcand : candidate ≠ .null)
    (hlast : (matchAll dataKey (stringify result)).getLast? = some lastMatch)
    (hfield : IsField dataKey lastMatch value)
    (hlen : value.length > 1000) :
    (extractImage result).result = .ok (imageResult value) ∧
    (imageResult value).generatedImage = lit "data:image/png;base64," ++ value := by
  refine ⟨?_, rfl⟩
  have hx := extractFromCandidate_accept result candidate lastMatch value hlast hfield hlen
  cases result with
  | obj fields =>
    cases candidate with
    | null => exact absurd rfl hcand
    | _ => simp [extractImage, hcands, truthy, lengthIsZero, index0, hx]
  | _ => simp [getProp] at hcands

/-- C5 at the specification's ordering example: the result is the
1504-character payload `BBBBxxx...`, not the short `inline_data.data`. -/
theorem extractImage_last_data_field_witness :
    (lit "BBBB" ++ List.replicate 1500 120).length > 1000 ∧
    (extractImage orderingResponse).result =
      .ok (imageResult (lit "BBBB" ++ List.replicate 1500 120)) ∧
    (lit "BBBB" ++ List.replicate 1500 120).length = 1504 :=
  ⟨by decide!,
    (extractImage_last_data_field orderingResponse
      (.obj [(lit "content", .obj [(lit "parts",
        .arr [.obj [(lit "inline_data", .obj [(lit "data", .str (lit "AAAAshort"))])]])])])
      [] (lit "\"data\":\"BBBB" ++ List.replicate 1500 120 ++ [34])
      (lit "BBBB" ++ List.replicate 1500 120)
      rfl (fun h => JSON.noConfusion h) (by decide!)
      ⟨[], fun _ h => absurd h (List.not_mem_nil _), by decide!, by decide!, rfl⟩
      (by decide!)).1, by decide!⟩

/-! ## The typed walks -/

theorem partPayload_eq (part : JSON) (h : part ≠ .null) :
    partPayload part = .ok (presentField part (lit "data")) := by
  cases part with
  | null => exact absurd rfl h
  | obj fields =>
    simp only [partPayload, getProp, presentField]
    cases hl : lookup (lit "data") fields with
    | none => simp [truthy]
    | some d => simp
  | _ => simp [partPayload, getProp, presentField, truthy]

theorem inlinePayload_eq (part : JSON) (h : part ≠ .null) :
    inlinePayload part = .ok (
      match presentField part (lit "inline_data") with
      | some inlineData => presentField inlineData (lit "data")
      | none => none) := by
  cases part with
  | null => exact absurd rfl h
  | obj fields =>
    simp only [inlinePayload, getProp, presentField]
    cases hl : lookup (lit "inline_data") fields with
    | none => simp [truthy]
    | some inl =>
      by_cases ht : truthy (some inl) = true
      · simp only [ht, if_true]
        cases inl with
        | null => simp [truthy] at ht
        | obj f2 =>
          simp only [getProp]
          cases hl2 : lookup (lit "data") f2 with
          | none => simp [truthy]
          | some d => simp
        | _ => simp [getProp, truthy]
      · simp [ht]
  | _ => simp [inlinePayload, getProp, presentField, truthy]

theorem walkParts_spec : ∀ (items : List JSON), (∀ p ∈ items, p ≠ .null) →
    match items.findSome? specPartPayload with
    | none => walkParts items = .ok none
    | some d =>
      (∃ e, toStr d = .error e ∧ walkParts items = .error e) ∨
      (∃ s line, toStr d = .ok s ∧ walkParts items = .ok (some (line, s)) ∧
        (line = .foundInlineData ∨ line = .foundPartData)) := by
  intro items
  induction items with
  | nil => intro _; simp [walkParts]
  | cons part rest ih =>
    intro hnn
    have hp : part ≠ .null := hnn part (by simp)
    have ih' := ih (fun p hp' => hnn p (by simp [hp']))
    rw [List.findSome?_cons]
    unfold walkParts
    rw [inlinePayload_eq part hp, partPayload_eq part hp]
    unfold specPartPayload
    cases h1 : presentField part (lit "inline_data") with
    | none =>
      simp only
      cases h2 : presentField part (lit "data") with
      | none => simpa using ih'
      | some d =>
        simp only
        cases hs : toStr d with
        | error e => left; exact ⟨e, rfl, rfl⟩
        | ok s => right; exact ⟨s, _, rfl, rfl, Or.inr rfl⟩
    | some inl =>
      simp only
      cases h3 : presentField inl (lit "data") with
      | some d =>
        simp only
        cases hs : toStr d with
        | error e => left; exact ⟨e, rfl, rfl⟩
        | ok s => right; exact ⟨s, _, rfl, rfl, Or.inl rfl⟩
      | none =>
        simp only
        cases h2 : presentField part (lit "data") with
        | none => simpa using ih'
        | some d =>
          simp only
          cases hs : toStr d with
          | error e => left; exact ⟨e, rfl, rfl⟩
          | ok s => right; exact ⟨s, _, rfl, rfl, Or.inr rfl⟩

theorem specParts_ne_null (candidate : JSON) (hl : PartsListed candidate) :
    ∀ p ∈ specParts candidate, p ≠ .null := by
  intro p hp
  unfold specParts at hp
  split at hp
  · rename_i content hc
    split at hp
    · rename_i parts hpa
      obtain ⟨items, hi, hnn⟩ := hl content _ hc hpa
      cases hi
      exact hnn p hp
    · simp at hp
  · simp at hp

theorem contentPartsWalk_eq (candidate : JSON) (hc : candidate ≠ .null)
    (hl : PartsListed candidate) :
    contentPartsWalk candidate = walkParts (specParts candidate) := by
  cases candidate with
  | null => exact absurd rfl hc
  | obj fields =>
    unfold PartsListed at hl
    simp only [contentPartsWalk, getProp, specParts, presentField] at hl ⊢
    cases hcont : lookup (lit "content") fields with
    | none => simp [truthy, walkParts]
    | some content =>
      rw [hcont] at hl
      by_cases ht : truthy (some content) = true
      · simp only [ht, if_true] at hl ⊢
        cases content with
        | null => simp [truthy] at ht
        | obj cf =>
          simp only [getProp] at hl ⊢
          cases hp : lookup (lit "parts") cf with
          | none => simp [walkParts]
          | some parts =>
            by_cases htp : truthy (some parts) = true
            · simp only [htp, if_true]
              obtain ⟨items, hi, -⟩ := hl (.obj cf) parts rfl (by simp [hp, htp])
              subst hi
              simp [iterate]
            · simp [htp, walkParts]
        | _ => simp [getProp, walkParts]
      · simp [ht, walkParts]
  | _ => simp [contentPartsWalk, getProp, specParts, presentField, truthy, walkParts]

theorem candidateLevel_eq (log : List LogEvent) (candidate : JSON) (hc : candidate ≠ .null) :
    candidateLevel log candidate =
      match presentField candidate (lit "data") with
      | some d =>
        match toStr d with
        | .error e => ⟨log ++ [.foundCandidateData], .error e⟩
        | .ok s => ⟨log ++ [.foundCandidateData], .ok (imageResult s)⟩
      | none => ⟨log ++ [.noImageFound], .error (.error noImageMessage)⟩ := by
  unfold candidateLevel
  rw [partPayload_eq candidate hc]
  cases presentField candidate (lit "data") <;> rfl

theorem extractImage_candidate (result candidate : JSON) (more : List JSON)
    (hcands : getProp (some result) (lit "candidates") = .ok (some (.arr (candidate :: more))))
    (hcand : candidate ≠ .null) :
    extractImage result = extractFromCandidate result candidate := by
  cases result with
  | obj fields =>
    cases candidate with
    | null => exact absurd rfl hcand
    | _ => simp [extractImage, hcands, truthy, lengthIsZero, index0]
  | _ => simp [getProp] at hcands

theorem extractFromCandidate_fallthrough (result candidate : JSON) (hc : candidate ≠ .null)
    (hl : PartsListed candidate)
    (hscan : (structuralScan (stringify result)).2 = none) :
    (extractFromCandidate result candidate).result =
      match specTypedWalk candidate with
      | some d => (toStr d).map imageResult
      | none => .error (.error noImageMessage) := by
  unfold extractFromCandidate
  rcases hsc : structuralScan (stringify result) with ⟨scanLog, acc⟩
  rw [hsc] at hscan
  simp only at hscan
  subst hscan
  simp only
  rw [contentPartsWalk_eq candidate hc hl]
  have hw := walkParts_spec (specParts candidate) (specParts_ne_null candidate hl)
  unfold specTypedWalk
  cases hf : (specParts candidate).findSome? specPartPayload with
  | some d =>
    rw [hf] at hw
    simp only at hw ⊢
    rcases hw with ⟨e, he, hwe⟩ | ⟨s, line, hs, hws, -⟩
    · rw [hwe, he]; rfl
    · rw [hws, hs]; rfl
  | none =>
    rw [hf] at hw
    simp only at hw ⊢
    rw [hw]
    simp only
    rw [candidateLevel_eq _ candidate hc]
    cases presentField candidate (lit "data") with
    | none => rfl
    | some d =>
      simp only
      cases toStr d <;> rfl

theorem partsListed_of_parts (fields cf : List (JSString × JSON)) (items : List JSON)
    (h1 : lookup (lit "content") fields = some (.obj cf))
    (h2 : lookup (lit "parts") cf = some (.arr items))
    (h3 : ∀ p ∈ items, p ≠ .null) : PartsListed (.obj fields) := by
  intro content parts hc hp
  simp only [presentField, h1, truthy, if_true, Option.some.injEq] at hc
  subst hc
  simp only [presentField, h2, truthy, if_true, Option.some.injEq] at hp
  subst hp
  exact ⟨items, rfl, h3⟩

/-- C6, at the failing input. For the response
`{"candidates":[{"content":{"parts":[{"inline_data":{"data":"abc"}}]}}]}` the
scan logs that the 3-character value is too short for an image, and the walk
over the parts then returns that same value as the generated image: the payload
returned is not longer than 1000 characters. -/
theorem extractImage_short_inline :
    (extractImage shortInlineResponse).result = .ok (imageResult (lit "abc")) ∧
    (extractImage shortInlineResponse).log =
      [.searching, .foundDataFields 1, .extractedLength 3, .tooShort (lit "abc"),
        .foundInlineData] ∧
    (lit "abc").length = 3 := by
  refine ⟨rfl, by decide, by decide⟩

/-- C7. With at least one candidate, parts that form a list without `null`,
and a structural scan that accepts nothing, the extractor returns what the
specification's typed walk selects: the first part's `inline_data.data` if
present, otherwise that part's `data` if present, before the next part; with
no part yielding, the candidate-level `data` if present; each printed as a
template literal prints it. With nothing selected it throws the no-image error. -/
theorem extractImage_typed_walk (result candidate : JSON) (more : List JSON)
    (hcands : getProp (some result) (lit "candidates") = .ok (some (.arr (candidate :: more))))
    (hcand : candidate ≠ .null)
    (hparts : PartsListed candidate)
    (hscan : (structuralScan (stringify result)).2 = none) :
    (extractImage result).result =
      match specTypedWalk candidate with
      | some d => (toStr d).map imageResult
      | none => .error (.error noImageMessage) := by
  rw [extractImage_candidate result candidate more hcands hcand]
  exact extractFromCandidate_fallthrough result candidate hcand hparts hscan

/-- C7 at a response whose second part holds `data` and whose third part holds
`inline_data.data`: the walk returns the second part's `data`. -/
theorem extractImage_typed_walk_witness :
    (structuralScan (stringify walkOrderResponse)).2 = none ∧
    (extractImage walkOrderResponse).result = .ok (imageResult (lit "PART")) :=
  ⟨by decide!,
    extractImage_typed_walk walkOrderResponse
      (.obj [
        (lit "content", .obj [(lit "parts", .arr [
          .obj [(lit "text", .str (lit "hi"))],
          .obj [(lit "data", .str (lit "PART"))],
          .obj [(lit "inline_data", .obj [(lit "data", .str (lit "INLINE"))])]])]),
        (lit "data", .str (lit "CAND"))])
      [] rfl (fun h => JSON.noConfusion h)
      (partsListed_of_parts _ _ _ rfl rfl (by
        intro p hp
        simp only [List.mem_cons, List.mem_singleton, List.not_mem_nil, or_false] at hp
        rcases hp with h | h | h <;> subst h <;> exact fun e => JSON.noConfusion e))
      (by decide!)⟩

/-! ## Escaped text holds no data field -/

theorem scanRun_append (q : Scan) (s t : JSString) :
    scanRun q (s ++ t) = scanRun (scanRun q s) t := by
  simp [scanRun, List.foldl_append]

theorem scanRun_cons (q : Scan) (c : Nat) (s : JSString) :
    scanRun q (c :: s) = scanRun (scanStep q c) s := rfl

theorem scanRun_found (s : JSString) : scanRun .found s = .found := by
  induction s with
  | nil => rfl
  | cons c cs ih => rw [scanRun_cons]; exact ih

theorem scanRun_tail (q : Scan) (post : JSString) :
    scanRun q (97 :: 34 :: 58 :: post) = .found := by
  cases q <;> simp [scanRun_cons, scanStep, scanRun_found]

theorem scanRun_of_occurrence (pre post : JSString) : ∀ q : Scan,
    scanRun q (pre ++ 97 :: 34 :: 58 :: post) = .found := by
  intro q
  rw [scanRun_append, scanRun_tail]

theorem scanRun_of_match (s : JSString) (r : JSString × JSString × JSString)
    (h : regexExec dataKey s = some r) : scanRun .idle s = .found := by
  obtain ⟨m, v, rest⟩ := r
  obtain ⟨⟨ws, -, -, -, hm⟩, pre, hs⟩ := regexExec_some dataKey s m v rest h
  have hh : fieldHead dataKey = [34, 100, 97, 116] ++ 97 :: 34 :: 58 :: [] := by decide
  rw [hs, hm, hh]
  have : pre ++ ([34, 100, 97, 116] ++ [97, 34, 58] ++ ws ++ 34 :: v ++ [34]) ++ rest
      = (pre ++ [34, 100, 97, 116]) ++ 97 :: 34 :: 58 :: (ws ++ 34 :: v ++ [34] ++ rest) := by
    simp [List.append_assoc]
  rw [this]
  exact scanRun_of_occurrence _ _ _

theorem scanStep_safe (q : Scan) (c : Nat) (hq : q.Safe) (hc : c ≠ 34) :
    (scanStep q c).Safe := by
  rcases hq with h | h <;> subst h <;> simp only [scanStep, Scan.Safe]
  · split_ifs <;> simp
  · split_ifs <;> simp_all

theorem scanRun_safe_of_no_quote (s : JSString) : ∀ q : Scan, q.Safe → 34 ∉ s →
    (scanRun q s).Safe := by
  induction s with
  | nil => intro q hq _; exact hq
  | cons c cs ih =>
    intro q hq hs
    simp only [List.mem_cons, not_or] at hs
    rw [scanRun_cons]
    exact ih _ (scanStep_safe q c hq (fun e => hs.1 e.symm)) hs.2

theorem hexDigit_ne_quote (d : Nat) : 34 ≠ hexDigit d := by
  unfold hexDigit
  split_ifs <;> omega

theorem scanRun_unicodeEscape (q : Scan) (c : Nat) (hq : q.Safe) :
    (scanRun q (unicodeEscape c)).Safe := by
  apply scanRun_safe_of_no_quote _ _ hq
  simp [unicodeEscape, hexDigit_ne_quote]

theorem scanRun_escapeUnit (q : Scan) (c : Nat) (hq : q.Safe) :
    (scanRun q (escapeUnit c)).Safe := by
  unfold escapeUnit
  split_ifs with h1 h2 h3 h4 h5 h6 h7 h8
  · rcases hq with h | h <;> subst h <;> simp [scanRun_cons, scanStep, Scan.Safe, scanRun]
  all_goals first
    | exact scanRun_unicodeEscape q c hq
    | (apply scanRun_safe_of_no_quote _ _ hq; simp; try omega)

theorem scanRun_escapeJSON (n : Nat) : ∀ (t : JSString), t.length ≤ n → ∀ q : Scan, q.Safe →
    (scanRun q (escapeJSON t)).Safe := by
  induction n with
  | zero =>
    intro t ht q hq
    have : t = [] := List.length_eq_zero.mp (Nat.le_zero.mp ht)
    subst this
    simpa [escapeJSON, scanRun] using hq
  | succ n ih =>
    intro t ht q hq
    match t, ht with
    | [], _ => simpa [escapeJSON, scanRun] using hq
    | [c], _ =>
      simp only [escapeJSON]
      split_ifs
      · exact scanRun_unicodeEscape q c hq
      · exact scanRun_escapeUnit q c hq
    | c :: d :: rest, ht =>
      simp only [List.length_cons] at ht
      simp only [escapeJSON]
      split_ifs with h1 h2
      · rw [scanRun_cons, scanRun_cons]
        apply ih rest (by omega)
        simp only [Bool.and_eq_true, isHighSurrogate, isLowSurrogate, decide_eq_true_eq] at h1
        have hc : c ≠ 34 := by omega
        have hd : d ≠ 34 := by omega
        exact scanStep_safe _ d (scanStep_safe q c hq hc) hd
      · rw [scanRun_append]
        exact ih (d :: rest) (by simp only [List.length_cons]; omega) _
          (scanRun_unicodeEscape q c hq)
      · rw [scanRun_append]
        exact ih (d :: rest) (by simp only [List.length_cons]; omega) _
          (scanRun_escapeUnit q c hq)

theorem scanRun_textPart (t : JSString) (q : Scan) (hq : q.Safe) :
    (scanRun q (stringify (.obj [(lit "text", .str t)]))).Safe := by
  have hk : quoteJSON (lit "text") = [34, 116, 101, 120, 116, 34] := by decide
  simp only [stringify, stringifyFields, quoteJSON] at hk ⊢
  rw [hk]
  simp only [List.cons_append, List.nil_append, List.append_assoc, scanRun_cons,
    scanRun_append]
  have h0 : scanStep (scanStep (scanStep (scanStep (scanStep (scanStep (scanStep (scanStep
      (scanStep q 123) 34) 116) 101) 120) 116) 34) 58) 34 = .idle := by
    rcases hq with h | h <;> subst h <;> decide
  rw [h0]
  have h1 := scanRun_escapeJSON t.length t (Nat.le_refl _) .idle (Or.inl rfl)
  rcases h1 with h | h <;> rw [h] <;> simp [scanRun, scanStep, Scan.Safe]

theorem scanRun_textParts : ∀ (texts : List JSString) (q : Scan), q.Safe →
    (scanRun q (stringifyItems
      (texts.map (fun t => JSON.obj [(lit "text", JSON.str t)])))).Safe := by
  intro texts
  induction texts with
  | nil => intro q hq; simpa [stringifyItems, scanRun] using hq
  | cons t ts ih =>
    intro q hq
    cases ts with
    | nil =>
      simp only [List.map_cons, List.map_nil, stringifyItems]
      exact scanRun_textPart t q hq
    | cons t' ts' =>
      simp only [List.map_cons, stringifyItems]
      rw [scanRun_append, scanRun_cons]
      have h1 := scanRun_textPart t q hq
      have h2 : (scanStep (scanRun q (stringify (.obj [(lit "text", .str t)]))) 44).Safe :=
        scanStep_safe _ 44 h1 (by decide)
      have := ih _ h2
      simpa only [List.map_cons] using this

theorem scanRun_textOnlyResponse (texts : List JSString) :
    scanRun .idle (stringify (textOnlyResponse texts)) ≠ .found := by
  have hk1 : quoteJSON (lit "candidates") =
      [34, 99, 97, 110, 100, 105, 100, 97, 116, 101, 115, 34] := by decide
  have hk2 : quoteJSON (lit "content") = [34, 99, 111, 110, 116, 101, 110, 116, 34] := by
    decide
  have hk3 : quoteJSON (lit "parts") = [34, 112, 97, 114, 116, 115, 34] := by decide
  unfold textOnlyResponse
  simp only [stringify, stringifyFields, stringifyItems, hk1, hk2, hk3]
  simp only [List.cons_append, List.nil_append, List.append_assoc, scanRun_cons,
    scanRun_append]
  have h0 : ∀ q : Scan, q.Safe → scanStep (scanStep (scanStep (scanStep (scanStep q 93) 125)
      125) 93) 125 ≠ .found := by
    intro q hq
    rcases hq with h | h <;> subst h <;> decide
  apply h0
  apply scanRun_textParts
  left
  decide

theorem matchAll_textOnlyResponse (texts : List JSString) :
    matchAll dataKey (stringify (textOnlyResponse texts)) = [] := by
  apply matchAll_nil_of_exec_none
  cases h : regexExec dataKey (stringify (textOnlyResponse texts)) with
  | none => rfl
  | some r => exact absurd (scanRun_of_match _ r h) (scanRun_textOnlyResponse texts)

theorem extractFromCandidate_exhausted (result candidate : JSON) (hc : candidate ≠ .null)
    (hl : PartsListed candidate)
    (hnomatch : matchAll dataKey (stringify result) = [])
    (hnone : specTypedWalk candidate = none) :
    extractFromCandidate result candidate =
      ⟨[.searching, .noImageFound], .error (.error noImageMessage)⟩ := by
  have hscan : structuralScan (stringify result) = ([], none) := by
    unfold structuralScan
    simp [hnomatch]
  have hw := walkParts_spec (specParts candidate) (specParts_ne_null candidate hl)
  unfold specTypedWalk at hnone
  cases hf : (specParts candidate).findSome? specPartPayload with
  | some d => rw [hf] at hnone; simp at hnone
  | none =>
    rw [hf] at hnone hw
    simp only at hnone hw
    unfold extractFromCandidate
    rw [hscan]
    simp only
    rw [contentPartsWalk_eq candidate hc hl, hw]
    simp only
    rw [candidateLevel_eq _ candidate hc, hnone]
    rfl

theorem textPart_no_payload (t : JSString) :
    specPartPayload (.obj [(lit "text", .str t)]) = none := by
  have h1 : ¬ (lit "text" = lit "inline_data") := by decide
  have h2 : ¬ (lit "text" = lit "data") := by decide
  simp [specPartPayload, presentField, lookup, h1, h2]

theorem extractImage_textOnly (texts : List JSString) :
    extractImage (textOnlyResponse texts) =
      ⟨[.searching, .noImageFound], .error (.error noImageMessage)⟩ := by
  have hparts : specParts (.obj [(lit "content", .obj [(lit "parts",
      .arr (texts.map (fun t => JSON.obj [(lit "text", JSON.str t)])))])]) =
      texts.map (fun t => JSON.obj [(lit "text", JSON.str t)]) := by
    simp [specParts, presentField, lookup, truthy]
  rw [extractImage_candidate (textOnlyResponse texts) _ [] rfl (fun h => JSON.noConfusion h)]
  apply extractFromCandidate_exhausted
  · exact fun h => JSON.noConfusion h
  · intro content parts h1 h2
    simp only [presentField, lookup, truthy, if_true, Option.some.injEq] at h1
    subst h1
    simp only [presentField, lookup, truthy, if_true, Option.some.injEq] at h2
    subst h2
    refine ⟨_, rfl, ?_⟩
    intro p hp
    simp only [List.mem_map] at hp
    obtain ⟨t, -, ht⟩ := hp
    rw [← ht]
    exact fun h => JSON.noConfusion h
  · exact matchAll_textOnlyResponse texts
  · unfold specTypedWalk
    rw [hparts]
    have : (texts.map (fun t => JSON.obj [(lit "text", JSON.str t)])).findSome?
        specPartPayload = none := by
      rw [List.findSome?_eq_none_iff]
      intro p hp
      simp only [List.mem_map] at hp
      obtain ⟨t, -, ht⟩ := hp
      rw [← ht]
      exact textPart_no_payload t
    rw [this]
    have h3 : ¬ (lit "content" = lit "data") := by decide
    simp [presentField, lookup, h3]

/-- C8. With at least one candidate, no `"data":"<non-empty value>"` field in
the serialization, and nothing for the typed walks to select, the extractor
throws the no-image error after the scan and returns no image. Text parts never
count as a data field: for any texts whatever, the serialization of a response
whose parts are text parts only holds no such field (their quotes are escaped),
and the extractor throws the no-image error. -/
theorem extractImage_no_image :
    (∀ (result candidate : JSON) (more : List JSON),
      getProp (some result) (lit "candidates") = .ok (some (.arr (candidate :: more))) →
      candidate ≠ .null → PartsListed candidate →
      NoField dataKey (stringify result) →
      specTypedWalk candidate = none →
      extractImage result = ⟨[.searching, .noImageFound], .error (.error noImageMessage)⟩) ∧
    (∀ texts : List JSString,
      NoField dataKey (stringify (textOnlyResponse texts)) ∧
      extractImage (textOnlyResponse texts) =
        ⟨[.searching, .noImageFound], .error (.error noImageMessage)⟩) := by
  refine ⟨?_, fun texts =>
    ⟨(matchAll_eq_nil_iff _ _).mp (matchAll_textOnlyResponse texts),
      extractImage_textOnly texts⟩⟩
  intro result candidate more hcands hcand hparts hnofield hnone
  rw [extractImage_candidate result candidate more hcands hcand]
  exact extractFromCandidate_exhausted result candidate hcand hparts
    ((matchAll_eq_nil_iff _ _).mpr hnofield) hnone

/-- C8 at the response `{"candidates":[{"content":{"parts":[{"text":"sorry, no image"}]}}]}`. -/
theorem extractImage_no_image_witness :
    NoField dataKey (stringify textReplyResponse) ∧
    extractImage textReplyResponse =
      ⟨[.searching, .noImageFound], .error (.error noImageMessage)⟩ :=
  ⟨(matchAll_eq_nil_iff _ _).mp (by decide!),
    extractImage_no_image.1 textReplyResponse
      (.obj [(lit "content", .obj [(lit "parts",
        .arr [.obj [(lit "text", .str (lit "sorry, no image"))]])])])
      [] rfl (fun h => JSON.noConfusion h)
      (partsListed_of_parts _ _ _ rfl rfl (by
        intro p hp
        simp only [List.mem_singleton] at hp
        subst hp
        exact fun e => JSON.noConfusion e))
      ((matchAll_eq_nil_iff _ _).mp (by decide!)) rfl⟩

theorem walkParts_line : ∀ (items : List JSON) (line : LogEvent) (s : JSString),
    walkParts items = .ok (some (line, s)) →
      line = .foundInlineData ∨ line = .foundPartData := by
  intro items
  induction items with
  | nil => intro line s h; simp [walkParts] at h
  | cons part rest ih =>
    intro line s h
    unfold walkParts at h
    split at h
    · simp at h
    · split at h
      · simp at h
      · simp only [Except.ok.injEq, Option.some.injEq, Prod.mk.injEq] at h
        exact Or.inl h.1.symm
    · split at h
      · simp at h
      · split at h
        · simp at h
        · simp only [Except.ok.injEq, Option.some.injEq, Prod.mk.injEq] at h
          exact Or.inr h.1.symm
      · exact ih line s h

theorem contentPartsWalk_line (candidate : JSON) (line : LogEvent) (s : JSString)
    (h : contentPartsWalk candidate = .ok (some (line, s))) :
    line = .foundInlineData ∨ line = .foundPartData := by
  unfold contentPartsWalk at h
  split at h
  · simp at h
  · split_ifs at h
    · split at h
      · simp at h
      · simp at h
      · split_ifs at h
        · split at h
          · simp at h
          · exact walkParts_line _ line s h
        · simp at h
    · simp at h

theorem candidateLevel_noImage (log : List LogEvent) (candidate : JSON)
    (hlog : LogEvent.noImageFound ∉ log)
    (h : .noImageFound ∈ (candidateLevel log candidate).log) :
    candidateLevel log candidate =
      ⟨log ++ [.noImageFound], .error (.error noImageMessage)⟩ := by
  unfold candidateLevel at h ⊢
  split at h
  · exact absurd h hlog
  · split at h <;> simp at h <;> exact absurd h hlog
  · rfl

theorem extractFromCandidate_noImage (result candidate : JSON)
    (h : .noImageFound ∈ (extractFromCandidate result candidate).log) :
    (extractFromCandidate result candidate).result = .error (.error noImageMessage) ∧
    ((∃ head, .tooShort head ∈ (extractFromCandidate result candidate).log) ↔
      matchAll dataKey (stringify result) ≠ []) := by
  have key : ∀ scanLog : List LogEvent, LogEvent.noImageFound ∉ scanLog →
      structuralScan (stringify result) = (scanLog, none) →
      extractFromCandidate result candidate =
        ⟨.searching :: scanLog ++ [.noImageFound], .error (.error noImageMessage)⟩ := by
    intro scanLog hno hs
    have hno' : LogEvent.noImageFound ∉ LogEvent.searching :: scanLog := by
      simp only [List.mem_cons, not_or]
      exact ⟨by decide, hno⟩
    unfold extractFromCandidate at h ⊢
    rw [hs] at h ⊢
    simp only at h ⊢
    split at h
    · exact absurd h hno'
    · rename_i line s hw
      rcases contentPartsWalk_line candidate line s hw with hl | hl <;> subst hl <;>
        simp at h <;> exact absurd h hno
    · have := candidateLevel_noImage _ candidate hno' h
      rw [this]
  rcases structuralScan_cases (stringify result) with
    ⟨hm, hs⟩ | ⟨m, v, hl, hf, hlen, hs⟩ | ⟨m, v, hl, hf, hlen, hs⟩
  · rw [key [] (by simp) hs]
    refine ⟨rfl, ?_⟩
    simp [hm]
  · unfold extractFromCandidate at h
    rw [hs] at h
    simp at h
  · rw [key _ (by simp) hs]
    refine ⟨rfl, ?_⟩
    have hne : matchAll dataKey (stringify result) ≠ [] := by
      intro e
      rw [e] at hl
      simp at hl
    simp [hne]

/-- C9, as stated, fails: a response with no `data` field at all and a response
with a too-short top-level `data` field fail with one and the same error. -/
theorem extractImage_same_failure :
    matchAll dataKey (stringify bareResponse) = [] ∧
    matchAll dataKey (stringify shortDataResponse) = [lit "\"data\":\"abc\""] ∧
    (extractImage bareResponse).result = .error (.error noImageMessage) ∧
    (extractImage shortDataResponse).result = (extractImage bareResponse).result := by
  refine ⟨by decide, by decide, rfl, rfl⟩

/-- C9, amended. When all strategies are exhausted the extractor throws the one
fixed no-image error, which carries no diagnostic; the two cases differ only on
the console, where the too-short warning is written exactly when the
serialization holds data fields. -/
theorem extractImage_exhausted_diagnostic (result : JSON)
    (h : .noImageFound ∈ (extractImage result).log) :
    (extractImage result).result = .error (.error noImageMessage) ∧
    ((∃ head, .tooShort head ∈ (extractImage result).log) ↔
      ¬ NoField dataKey (stringify result)) := by
  rw [← matchAll_eq_nil_iff]
  unfold extractImage at h ⊢
  split at h
  · simp at h
  · split at h
    · simp at h
    · simp at h
    · split_ifs at h with hc
      · simp at h
      · rw [if_neg hc]
        split at h
        · simp at h
        · simp at h
        · rename_i candidate _ _
          exact extractFromCandidate_noImage result candidate h

/-- C9, amended, at the response `{"candidates":[{}],"data":"abc"}`. -/
theorem extractImage_exhausted_diagnostic_witness :
    LogEvent.noImageFound ∈ (extractImage shortDataResponse).log ∧
    (extractImage shortDataResponse).result = .error (.error noImageMessage) ∧
    ((∃ head, LogEvent.tooShort head ∈ (extractImage shortDataResponse).log) ↔
      ¬ NoField dataKey (stringify shortDataResponse)) :=
  ⟨by decide, extractImage_exhausted_diagnostic shortDataResponse (by decide)⟩

/-! ## The fuel of `jsonParse` -/

theorem dropWhile_length_le (p : Nat → Bool) (s : JSString) :
    (s.dropWhile p).length ≤ s.length :=
  (List.dropWhile_suffix p).length_le

theorem dropWhile_cons_length (p : Nat → Bool) (s : JSString) (c : Nat) (r : JSString)
    (h : s.dropWhile p = c :: r) : r.length < s.length := by
  have := dropWhile_length_le p s
  rw [h] at this
  simp only [List.length_cons] at this
  omega

theorem dropLiteral_length (p s r : JSString) (h : dropLiteral p s = some r) :
    r.length ≤ s.length := by
  rw [dropLiteral_some p s r h]
  simp

theorem parseStringBody_length (n : Nat) : ∀ (s x after : JSString), s.length ≤ n →
    parseStringBody s = some (x, after) → after.length < s.length := by
  induction n with
  | zero =>
    intro s x after hn h
    have : s = [] := List.length_eq_zero.mp (Nat.le_zero.mp hn)
    subst this
    simp [parseStringBody] at h
  | succ n ih =>
    intro s x after hn h
    cases s with
    | nil => simp [parseStringBody] at h
    | cons c rest =>
      simp only [List.length_cons] at hn
      unfold parseStringBody at h
      split_ifs at h with h1 h2 h3
      · simp only [Option.some.injEq, Prod.mk.injEq] at h
        rw [← h.2]; simp
      · split at h
        · simp at h
        · rename_i e rest1
          split_ifs at h with h4
          · split at h
            · rename_i a b c' d rest2
              split at h
              · split at h
                · rename_i s' after' hrec
                  simp only [Option.some.injEq, Prod.mk.injEq] at h
                  have := ih rest2 s' after' (by simp only [List.length_cons] at hn; omega) hrec
                  rw [← h.2]
                  simp only [List.length_cons]
                  omega
                · simp at h
              · simp at h
            · simp at h
          · split at h
            · simp at h
            · split at h
              · rename_i s' after' hrec
                simp only [Option.some.injEq, Prod.mk.injEq] at h
                have := ih rest1 s' after' (by simp only [List.length_cons] at hn; omega) hrec
                rw [← h.2]
                simp only [List.length_cons]
                omega
              · simp at h
      · split at h
        · rename_i s' after' hrec
          simp only [Option.some.injEq, Prod.mk.injEq] at h
          have := ih rest s' after' (by omega) hrec
          rw [← h.2]
          simp only [List.length_cons]
          omega
        · simp at h

theorem parseDigits_length (s ds after : JSString) (h : parseDigits s = some (ds, after)) :
    after.length ≤ s.length := by
  unfold parseDigits at h
  split_ifs at h
  simp only [Option.some.injEq, Prod.mk.injEq] at h
  rw [← h.2]
  exact dropWhile_length_le _ _

theorem parseIntPart_length (s ip after : JSString) (h : parseIntPart s = some (ip, after)) :
    after.length < s.length := by
  cases s with
  | nil => simp [parseIntPart] at h
  | cons c rest =>
    simp only [parseIntPart] at h
    split_ifs at h <;> simp only [Option.some.injEq, Prod.mk.injEq] at h
    · rw [← h.2]; simp
    · rw [← h.2]
      have := dropWhile_length_le isDigit rest
      simp only [List.length_cons]
      omega

theorem parseFraction_length (s fp after : JSString) (h : parseFraction s = some (fp, after)) :
    after.length ≤ s.length := by
  cases s with
  | nil => simp only [parseFraction, Option.some.injEq, Prod.mk.injEq] at h; rw [← h.2]
  | cons c rest =>
    simp only [parseFraction] at h
    split_ifs at h
    · split at h
      · rename_i ds after' hd
        simp only [Option.some.injEq, Prod.mk.injEq] at h
        have := parseDigits_length _ _ _ hd
        rw [← h.2]
        simp only [List.length_cons]
        omega
      · simp at h
    · simp only [Option.some.injEq, Prod.mk.injEq] at h
      rw [← h.2]

theorem parseExponent_length (s ep after : JSString) (h : parseExponent s = some (ep, after)) :
    after.length ≤ s.length := by
  cases s with
  | nil => simp only [parseExponent, Option.some.injEq, Prod.mk.injEq] at h; rw [← h.2]
  | cons c rest =>
    simp only [parseExponent] at h
    split_ifs at h
    · split at h
      · simp at h
      · rename_i sg rest1
        split_ifs at h
        · split at h
          · rename_i ds after' hd
            simp only [Option.some.injEq, Prod.mk.injEq] at h
            have := parseDigits_length _ _ _ hd
            rw [← h.2]
            simp only [List.length_cons]
            omega
          · simp at h
        · split at h
          · rename_i ds after' hd
            simp only [Option.some.injEq, Prod.mk.injEq] at h
            have := parseDigits_length _ _ _ hd
            rw [← h.2]
            simp only [List.length_cons] at this ⊢
            omega
          · simp at h
    · simp only [Option.some.injEq, Prod.mk.injEq] at h
      rw [← h.2]

theorem parseUnsigned_length (s t after : JSString) (h : parseUnsigned s = some (t, after)) :
    after.length < s.length := by
  unfold parseUnsigned at h
  split at h
  · simp at h
  · rename_i ip s1 h1
    split at h
    · simp at h
    · rename_i fp s2 h2
      split at h
      · simp at h
      · rename_i ep s3 h3
        simp only [Option.some.injEq, Prod.mk.injEq] at h
        have a1 := parseIntPart_length _ _ _ h1
        have a2 := parseFraction_length _ _ _ h2
        have a3 := parseExponent_length _ _ _ h3
        rw [← h.2]
        omega

theorem parseNumber_length (s t after : JSString) (h : parseNumber s = some (t, after)) :
    after.length < s.length := by
  cases s with
  | nil => simp [parseNumber] at h
  | cons c rest =>
    simp only [parseNumber] at h
    split_ifs at h
    · split at h
      · rename_i t' after' hu
        simp only [Option.some.injEq, Prod.mk.injEq] at h
        have := parseUnsigned_length _ _ _ hu
        rw [← h.2]
        simp only [List.length_cons]
        omega
      · simp at h
    · exact parseUnsigned_length _ _ _ h

theorem parseValue_step (f : Nat)
    (hM : ∀ s acc v rest, parseMembers f s acc = some (v, rest) →
      rest.length < s.length ∧
      ∀ f', s.length - rest.length < f' → parseMembers f' s acc = some (v, rest))
    (hE : ∀ s acc v rest, parseElements f s acc = some (v, rest) →
      rest.length < s.length ∧
      ∀ f', s.length - rest.length < f' → parseElements f' s acc = some (v, rest)) :
    ∀ s v rest, parseValue (f + 1) s = some (v, rest) →
      rest.length < s.length ∧
      ∀ f', s.length - rest.length < f' → parseValue f' s = some (v, rest) := by
  intro s v rest h
  have hws := dropWhile_length_le isJsonWs s
  simp only [parseValue] at h
  split at h
  · simp at h
  · rename_i c r hdw
    rw [hdw] at hws
    simp only [List.length_cons] at hws
    -- every later fuel is a successor
    have succ_of : ∀ f', s.length - rest.length < f' → ∃ g, f' = g + 1 := by
      intro f' hf'
      exact ⟨f' - 1, by omega⟩
    split_ifs at h with h1 h2 h3 h4 h5 h6
    · -- object
      have hws2 := dropWhile_length_le isJsonWs r
      split at h
      · simp at h
      · rename_i d r1 hdw2
        rw [hdw2] at hws2
        simp only [List.length_cons] at hws2
        split_ifs at h with h7
        · simp only [Option.some.injEq, Prod.mk.injEq] at h
          obtain ⟨hv, hr⟩ := h
          subst hr
          refine ⟨by omega, ?_⟩
          intro f' hf'
          obtain ⟨g, rfl⟩ := succ_of f' hf'
          simp [parseValue, hdw, h1, hdw2, h7, hv]
        · obtain ⟨hl, hfu⟩ := hM _ _ _ _ h
          simp only [List.length_cons] at hl
          refine ⟨by omega, ?_⟩
          intro f' hf'
          obtain ⟨g, rfl⟩ := succ_of f' hf'
          simp only [parseValue, hdw, h1, if_true, hdw2, h7, if_false]
          apply hfu
          simp only [List.length_cons]
          omega
    · -- array
      have hws2 := dropWhile_length_le isJsonWs r
      split at h
      · simp at h
      · rename_i d r1 hdw2
        rw [hdw2] at hws2
        simp only [List.length_cons] at hws2
        split_ifs at h with h7
        · simp only [Option.some.injEq, Prod.mk.injEq] at h
          obtain ⟨hv, hr⟩ := h
          subst hr
          refine ⟨by omega, ?_⟩
          intro f' hf'
          obtain ⟨g, rfl⟩ := succ_of f' hf'
          simp [parseValue, hdw, h1, h2, hdw2, h7, hv]
        · obtain ⟨hl, hfu⟩ := hE _ _ _ _ h
          simp only [List.length_cons] at hl
          refine ⟨by omega, ?_⟩
          intro f' hf'
          obtain ⟨g, rfl⟩ := succ_of f' hf'
          simp only [parseValue, hdw, h1, h2, if_true, if_false, hdw2, h7]
          apply hfu
          simp only [List.length_cons]
          omega
    · -- string
      split at h
      · rename_i str after hsb
        simp only [Option.some.injEq, Prod.mk.injEq] at h
        obtain ⟨hv, hr⟩ := h
        subst hr
        have := parseStringBody_length r.length r str after (Nat.le_refl _) hsb
        refine ⟨by omega, ?_⟩
        intro f' hf'
        obtain ⟨g, rfl⟩ := succ_of f' hf'
        simp [parseValue, hdw, h1, h2, h3, hsb, hv]
      · simp at h
    · -- true
      split at h
      · rename_i after hdl
        simp only [Option.some.injEq, Prod.mk.injEq] at h
        obtain ⟨hv, hr⟩ := h
        subst hr
        have := dropLiteral_length _ _ _ hdl
        refine ⟨by omega, ?_⟩
        intro f' hf'
        obtain ⟨g, rfl⟩ := succ_of f' hf'
        simp [parseValue, hdw, h1, h2, h3, h4, hdl, hv]
      · simp at h
    · -- false
      split at h
      · rename_i after hdl
        simp only [Option.some.injEq, Prod.mk.injEq] at h
        obtain ⟨hv, hr⟩ := h
        subst hr
        have := dropLiteral_length _ _ _ hdl
        refine ⟨by omega, ?_⟩
        intro f' hf'
        obtain ⟨g, rfl⟩ := succ_of f' hf'
        simp [parseValue, hdw, h1, h2, h3, h4, h5, hdl, hv]
      · simp at h
    · -- null
      split at h
      · rename_i after hdl
        simp only [Option.some.injEq, Prod.mk.injEq] at h
        obtain ⟨hv, hr⟩ := h
        subst hr
        have := dropLiteral_length _ _ _ hdl
        refine ⟨by omega, ?_⟩
        intro f' hf'
        obtain ⟨g, rfl⟩ := succ_of f' hf'
        simp [parseValue, hdw, h1, h2, h3, h4, h5, h6, hdl, hv]
      · simp at h
    · -- number
      split at h
      · rename_i text after hn
        simp only [Option.some.injEq, Prod.mk.injEq] at h
        obtain ⟨hv, hr⟩ := h
        subst hr
        have := parseNumber_length _ _ _ hn
        simp only [List.length_cons] at this
        refine ⟨by omega, ?_⟩
        intro f' hf'
        obtain ⟨g, rfl⟩ := succ_of f' hf'
        simp [parseValue, hdw, h1, h2, h3, h4, h5, h6, hn, hv]
      · simp at h

theorem parseElements_step (f : Nat)
    (hV : ∀ s v rest, parseValue f s = some (v, rest) →
      rest.length < s.length ∧
      ∀ f', s.length - rest.length < f' → parseValue f' s = some (v, rest))
    (hE : ∀ s acc v rest, parseElements f s acc = some (v, rest) →
      rest.length < s.length ∧
      ∀ f', s.length - rest.length < f' → parseElements f' s acc = some (v, rest)) :
    ∀ s acc v rest, parseElements (f + 1) s acc = some (v, rest) →
      rest.length < s.length ∧
      ∀ f', s.length - rest.length < f' → parseElements f' s acc = some (v, rest) := by
  intro s acc v rest h
  simp only [parseElements] at h
  split at h
  · simp at h
  · rename_i v1 after hpv
    obtain ⟨hl1, hf1⟩ := hV _ _ _ hpv
    have hws := dropWhile_length_le isJsonWs after
    split at h
    · simp at h
    · rename_i c r hdw
      rw [hdw] at hws
      simp only [List.length_cons] at hws
      split_ifs at h with h1 h2
      · obtain ⟨hl2, hf2⟩ := hE _ _ _ _ h
        refine ⟨by omega, ?_⟩
        intro f' hf'
        obtain ⟨g, rfl⟩ : ∃ g, f' = g + 1 := ⟨f' - 1, by omega⟩
        simp only [parseElements, hf1 g (by omega), hdw, h1, if_true]
        exact hf2 g (by omega)
      · simp only [Option.some.injEq, Prod.mk.injEq] at h
        obtain ⟨hv, hr⟩ := h
        subst hr
        refine ⟨by omega, ?_⟩
        intro f' hf'
        obtain ⟨g, rfl⟩ : ∃ g, f' = g + 1 := ⟨f' - 1, by omega⟩
        simp [parseElements, hf1 g (by omega), hdw, h1, h2, hv]

theorem parseMembers_step (f : Nat)
    (hV : ∀ s v rest, parseValue f s = some (v, rest) →
      rest.length < s.length ∧
      ∀ f', s.length - rest.length < f' → parseValue f' s = some (v, rest))
    (hM : ∀ s acc v rest, parseMembers f s acc = some (v, rest) →
      rest.length < s.length ∧
      ∀ f', s.length - rest.length < f' → parseMembers f' s acc = some (v, rest)) :
    ∀ s acc v rest, parseMembers (f + 1) s acc = some (v, rest) →
      rest.length < s.length ∧
      ∀ f', s.length - rest.length < f' → parseMembers f' s acc = some (v, rest) := by
  intro s acc v rest h
  have hws0 := dropWhile_length_le isJsonWs s
  simp only [parseMembers] at h
  split at h
  · simp at h
  · rename_i q r0 hdw0
    rw [hdw0] at hws0
    simp only [List.length_cons] at hws0
    split_ifs at h with hq
    split at h
    · simp at h
    · rename_i key afterKey hsb
      have hk := parseStringBody_length r0.length r0 key afterKey (Nat.le_refl _) hsb
      have hws1 := dropWhile_length_le isJsonWs afterKey
      split at h
      · simp at h
      · rename_i colon afterColon hdw1
        rw [hdw1] at hws1
        simp only [List.length_cons] at hws1
        split_ifs at h with hcol
        split at h
        · simp at h
        · rename_i v1 after hpv
          obtain ⟨hl1, hf1⟩ := hV _ _ _ hpv
          have hws := dropWhile_length_le isJsonWs after
          split at h
          · simp at h
          · rename_i c r hdw
            rw [hdw] at hws
            simp only [List.length_cons] at hws
            split_ifs at h with h1 h2
            · obtain ⟨hl2, hf2⟩ := hM _ _ _ _ h
              refine ⟨by omega, ?_⟩
              intro f' hf'
              obtain ⟨g, rfl⟩ : ∃ g, f' = g + 1 := ⟨f' - 1, by omega⟩
              simp only [parseMembers, hdw0, hq, if_true, hsb, hdw1, hcol,
                hf1 g (by omega), hdw, h1]
              exact hf2 g (by omega)
            · simp only [Option.some.injEq, Prod.mk.injEq] at h
              obtain ⟨hv, hr⟩ := h
              subst hr
              refine ⟨by omega, ?_⟩
              intro f' hf'
              obtain ⟨g, rfl⟩ : ∃ g, f' = g + 1 := ⟨f' - 1, by omega⟩
              simp [parseMembers, hdw0, hq, hsb, hdw1, hcol, hf1 g (by omega), hdw, h1, h2, hv]

theorem parse_stable (f : Nat) :
    (∀ s v rest, parseValue f s = some (v, rest) →
      rest.length < s.length ∧
      ∀ f', s.length - rest.length < f' → parseValue f' s = some (v, rest)) ∧
    (∀ s acc v rest, parseElements f s acc = some (v, rest) →
      rest.length < s.length ∧
      ∀ f', s.length - rest.length < f' → parseElements f' s acc = some (v, rest)) ∧
    (∀ s acc v rest, parseMembers f s acc = some (v, rest) →
      rest.length < s.length ∧
      ∀ f', s.length - rest.length < f' → parseMembers f' s acc = some (v, rest)) := by
  induction f with
  | zero =>
    refine ⟨?_, ?_, ?_⟩
    · intro s v rest h; simp [parseValue] at h
    · intro s acc v rest h; simp [parseElements] at h
    · intro s acc v rest h; simp [parseMembers] at h
  | succ f ih =>
    obtain ⟨hV, hE, hM⟩ := ih
    exact ⟨parseValue_step f hM hE, parseElements_step f hV hE, parseMembers_step f hV hM⟩

/-- The fuel of `jsonParse` is never the reason for a rejection: a value that
`parseValue` reads with any fuel at all is read, with the same rest, with the
fuel `text.length + 1` that `jsonParse` gives it. -/
theorem parseValue_fuel (fuel : Nat) (text : JSString) (v : JSON) (rest : JSString)
    (h : parseValue fuel text = some (v, rest)) :
    parseValue (text.length + 1) text = some (v, rest) :=
  ((parse_stable fuel).1 text v rest h).2 (text.length + 1) (by omega)

/-! ## Claim C10 -/

/-- C10. For a model output that is not valid JSON after trimming,
`detectClothes` and `detectUserClothes` return, without throwing, the descriptor
whose `clothes` is the value captured by the first `"clothes":"<value>"` field
of the raw text, or `clothing item` when there is no such field, and whose
`color` is the value captured by the first `"color":"<value>"` field, or
`unknown`; each of the two is decided by its own pattern alone. -/
theorem detection_fallback (content : JSString) (h : jsonParse (trim content) = none) :
    detectClothesParse content =
      descriptor (capturedOr (lit "clothes") content (lit "clothing item"))
        (capturedOr (lit "color") content (lit "unknown")) ∧
    detectUserClothesParse content = detectClothesParse content ∧
    (∀ v, FirstCaptured (lit "clothes") content v →
      capturedOr (lit "clothes") content (lit "clothing item") = v) ∧
    (NoField (lit "clothes") content →
      capturedOr (lit "clothes") content (lit "clothing item") = lit "clothing item") ∧
    (∀ v, FirstCaptured (lit "color") content v →
      capturedOr (lit "color") content (lit "unknown") = v) ∧
    (NoField (lit "color") content →
      capturedOr (lit "color") content (lit "unknown") = lit "unknown") := by
  refine ⟨?_, ?_, fun v hv => capturedOr_first _ _ _ v hv, capturedOr_none _ _ _,
    fun v hv => capturedOr_first _ _ _ v hv, capturedOr_none _ _ _⟩
  · unfold detectClothesParse
    rw [h]
    rfl
  · unfold detectUserClothesParse detectClothesParse
    rw [h]

/-- C10 at the specification's malformed output
`Here is the result: {clothes info unavailable}`: the sentinel descriptor. -/
theorem detection_fallback_witness :
    jsonParse (trim malformedOutput) = none ∧
    detectClothesParse malformedOutput = descriptor (lit "clothing item") (lit "unknown") ∧
    detectUserClothesParse malformedOutput =
      descriptor (lit "clothing item") (lit "unknown") :=
  ⟨rfl, (detection_fallback malformedOutput rfl).1,
    ((detection_fallback malformedOutput rfl).2.1).trans
      (detection_fallback malformedOutput rfl).1⟩

/-! ## The storage area -/

theorem lookup_eq_none_iff (key : JSString) (l : List (JSString × JSON)) :
    lookup key l = none ↔ key ∉ l.map Prod.fst := by
  induction l with
  | nil => simp [lookup]
  | cons e rest ih =>
    obtain ⟨k, v⟩ := e
    simp only [lookup, List.map_cons, List.mem_cons, not_or]
    split_ifs with h
    · simp [h]
    · rw [ih]
      constructor
      · intro hr; exact ⟨fun e => h e.symm, hr⟩
      · intro hr; exact hr.2

theorem lookup_append_new (key : JSString) (v : JSON) (l : List (JSString × JSON))
    (h : lookup key l = none) : lookup key (l ++ [(key, v)]) = some v := by
  induction l with
  | nil => simp [lookup]
  | cons e rest ih =>
    obtain ⟨k, w⟩ := e
    simp only [lookup] at h
    split_ifs at h with hk
    simp only [List.cons_append, lookup, hk, if_false]
    exact ih h

theorem lookup_append_other (key name : JSString) (v : JSON) (l : List (JSString × JSON))
    (h : name ≠ key) : lookup name (l ++ [(key, v)]) = lookup name l := by
  induction l with
  | nil => simp [lookup, Ne.symm h]
  | cons e rest ih =>
    obtain ⟨k, w⟩ := e
    simp only [List.cons_append, lookup]
    split_ifs
    · rfl
    · exact ih

theorem lookup_replaceValue_same (key : JSString) (v : JSON) (l : List (JSString × JSON))
    (h : lookup key l ≠ none) : lookup key (replaceValue key v l) = some v := by
  induction l with
  | nil => simp [lookup] at h
  | cons e rest ih =>
    obtain ⟨k, w⟩ := e
    simp only [replaceValue]
    split_ifs with hk
    · simp [lookup, hk]
    · simp only [lookup, hk, if_false] at h ⊢
      exact ih h

theorem lookup_replaceValue_other (key name : JSString) (v : JSON)
    (l : List (JSString × JSON)) (h : name ≠ key) :
    lookup name (replaceValue key v l) = lookup name l := by
  induction l with
  | nil => rfl
  | cons e rest ih =>
    obtain ⟨k, w⟩ := e
    simp only [replaceValue]
    split_ifs with hk
    · have : ¬ k = name := fun e => h (e.symm.trans hk)
      simp [lookup, this]
    · simp only [lookup]
      split_ifs
      · rfl
      · exact ih

theorem names_replaceValue (key : JSString) (v : JSON) (l : List (JSString × JSON)) :
    (replaceValue key v l).map Prod.fst = l.map Prod.fst := by
  induction l with
  | nil => rfl
  | cons e rest ih =>
    obtain ⟨k, w⟩ := e
    simp only [replaceValue]
    split_ifs
    · rfl
    · simp [ih]

theorem Store.get_set_same (store : Store) (name : JSString) (v : JSON) :
    (store.set name v).get name = some v := by
  unfold Store.set Store.get
  simp only
  cases h : lookup name store.entries with
  | none => exact lookup_append_new name v _ h
  | some w => exact lookup_replaceValue_same name v _ (by rw [h]; simp)

theorem Store.get_set_other (store : Store) (key name : JSString) (v : JSON)
    (h : name ≠ key) : (store.set key v).get name = store.get name := by
  unfold Store.set Store.get
  simp only
  cases lookup key store.entries with
  | none => exact lookup_append_other key name v _ h
  | some w => exact lookup_replaceValue_other key name v _ h

theorem Store.names_set (store : Store) (name : JSString) (v : JSON) :
    (store.set name v).entries.map Prod.fst =
      if (store.get name).isNone then store.entries.map Prod.fst ++ [name]
      else store.entries.map Prod.fst := by
  unfold Store.set Store.get
  simp only
  cases h : lookup name store.entries with
  | none => simp
  | some w => simp [names_replaceValue]

theorem Store.wf_set (store : Store) (name : JSString) (v : JSON) (h : store.WF) :
    (store.set name v).WF := by
  unfold Store.WF at h ⊢
  rw [Store.names_set]
  split_ifs with hn
  · rw [List.nodup_append]
    refine ⟨h, by simp, ?_⟩
    intro a ha hb
    simp only [List.mem_singleton] at hb
    subst hb
    exact (lookup_eq_none_iff _ _).mp (Option.isNone_iff_eq_none.mp hn) ha
  · exact h

theorem isCacheName_cacheName (cacheKey : JSString) : isCacheName (cacheName cacheKey) = true := by
  unfold isCacheName cacheName
  rw [dropLiteral_append]
  rfl

theorem Store.cacheKeys_set (store : Store) (name : JSString) (v : JSON)
    (hname : isCacheName name = true) :
    (store.set name v).cacheKeys =
      if (store.get name).isNone then store.cacheKeys ++ [name] else store.cacheKeys := by
  unfold Store.cacheKeys
  rw [Store.names_set]
  split_ifs
  · simp [List.filter_append, hname]
  · rfl

theorem count_of_nodup (l : List (JSString × JSON)) (name : JSString)
    (h : (l.map Prod.fst).Nodup) (hmem : lookup name l ≠ none) :
    (l.filter (fun e => decide (e.1 = name))).length = 1 := by
  induction l with
  | nil => simp [lookup] at hmem
  | cons e rest ih =>
    obtain ⟨k, w⟩ := e
    simp only [List.map_cons, List.nodup_cons] at h
    by_cases hk : k = name
    · subst hk
      have hnone : rest.filter (fun e => decide (e.1 = k)) = [] := by
        rw [List.filter_eq_nil_iff]
        intro a ha hd
        simp only [decide_eq_true_eq] at hd
        exact h.1 (List.mem_map.mpr ⟨a, ha, hd⟩)
      simp [List.filter_cons, hnone]
    · simp only [lookup, hk, if_false] at hmem
      simp [List.filter_cons, hk, ih h.2 hmem]
theorem lookup_filter_keep (name : JSString) (p : JSString → Bool)
    (l : List (JSString × JSON)) (h : p name = true) :
    lookup name (l.filter (fun e => p e.1)) = lookup name l := by
  induction l with
  | nil => rfl
  | cons e rest ih =>
    obtain ⟨k, w⟩ := e
    by_cases hk : k = name
    · subst hk
      simp [List.filter_cons, h, lookup]
    · by_cases hp : p k = true
      · simp [List.filter_cons, hp, lookup, hk, ih]
      · simp [List.filter_cons, hp, lookup, hk, ih]

theorem lookup_filter_drop (name : JSString) (p : JSString → Bool)
    (l : List (JSString × JSON)) (h : p name = false) :
    lookup name (l.filter (fun e => p e.1)) = none := by
  rw [lookup_eq_none_iff]
  intro hmem
  obtain ⟨e, he, hn⟩ := List.mem_map.mp hmem
  have := (List.mem_filter.mp he).2
  rw [hn, h] at this
  exact Bool.false_ne_true this

theorem Store.cacheKeys_remove (store : Store) (names : List JSString) :
    (store.remove names).cacheKeys =
      store.cacheKeys.filter (fun name => !names.contains name) := by
  unfold Store.cacheKeys Store.remove
  simp only
  have e1 : (store.entries.filter (fun e => !names.contains e.1)).map Prod.fst =
      (store.entries.map Prod.fst).filter (fun name => !names.contains name) := by
    rw [List.filter_map]
    rfl
  rw [e1, List.filter_filter, List.filter_filter]
  congr 1
  funext a
  exact Bool.and_comm _ _

theorem filter_not_left (A B : List JSString) :
    (A ++ B).filter (fun name => !A.contains name) = B.filter (fun name => !A.contains name) := by
  have h1 : A.filter (fun name => !A.contains name) = [] := by
    rw [List.filter_eq_nil_iff]
    intro a ha
    simp [ha]
  rw [List.filter_append, h1, List.nil_append]

theorem filter_not_take (K : List JSString) (m : Nat) :
    K.filter (fun name => !(K.take m).contains name) =
      (K.drop m).filter (fun name => !(K.take m).contains name) := by
  have h := filter_not_left (K.take m) (K.drop m)
  rw [List.take_append_drop] at h
  exact h

theorem filter_not_take_length (K : List JSString) (m : Nat) :
    (K.filter (fun name => !(K.take m).contains name)).length ≤ K.length - m := by
  rw [filter_not_take]
  calc _ ≤ (K.drop m).length := List.length_filter_le _ _
    _ = K.length - m := List.length_drop m K

theorem filter_not_take_nodup (K : List JSString) (m : Nat) (h : K.Nodup) :
    K.filter (fun name => !(K.take m).contains name) = K.drop m := by
  have hd : List.Disjoint (K.take m) (K.drop m) := by
    have := h
    rw [← List.take_append_drop m K, List.nodup_append] at this
    exact fun a ha hb => this.2.2 ha hb
  rw [filter_not_take, List.filter_eq_self]
  intro a ha
  have : a ∉ K.take m := fun hb => hd hb ha
  simp [this]

theorem Store.cacheKeys_nodup (store : Store) (h : store.WF) : store.cacheKeys.Nodup :=
  List.Nodup.filter _ h

theorem Store.get_remove_kept (store : Store) (names : List JSString) (name : JSString)
    (h : name ∉ names) : (store.remove names).get name = store.get name := by
  unfold Store.remove Store.get
  exact lookup_filter_keep name (fun k => !names.contains k) _ (by simp [h])

theorem Store.get_remove_dropped (store : Store) (names : List JSString) (name : JSString)
    (h : name ∈ names) : (store.remove names).get name = none := by
  unfold Store.remove Store.get
  exact lookup_filter_drop name (fun k => !names.contains k) _ (by simp [h])

/-- The cache names left by an eviction that keeps `keep` names are at most
`keep`. -/
theorem cacheKeys_after_eviction (store : Store) (keep : Nat) :
    ((store.remove (store.cacheKeys.take (store.cacheKeys.length - keep))).cacheKeys).length
      ≤ keep := by
  rw [Store.cacheKeys_remove]
  have := filter_not_take_length store.cacheKeys (store.cacheKeys.length - keep)
  omega
/-! ## Cache round trip, eviction -/

/-- C20. In an area whose names are distinct, a successful `cacheResult` of a
truthy value `v` (any object is one) under `k` makes `getCachedResult` return
`v`; a second successful write of `v2` under `k` makes it return `v2` and
leaves exactly one entry named `cache_k`; for a name that holds no entry
`getCachedResult` answers `null`. -/
theorem cacheResult_round_trip (env : Env) (store s1 : Store) (k : JSString) (v v2 : JSON)
    (hwf : store.WF) (hv : truthy (some v) = true) (hv2 : truthy (some v2) = true)
    (h1 : (cacheResult env store k v).2 = .ok s1) :
    getCachedResult s1 k = v ∧
    (∀ s2, (cacheResult env s1 k v2).2 = .ok s2 →
      getCachedResult s2 k = v2 ∧
      (s2.entries.filter (fun e => decide (e.1 = cacheName k))).length = 1) ∧
    (∀ j, store.get (cacheName j) = none → getCachedResult store j = .null) := by
  have hset : ∀ (s s' : Store) (w : JSON), (cacheResult env s k w).2 = .ok s' →
      s' = s.set (cacheName k) w := by
    intro s s' w h
    unfold cacheResult at h
    cases hs : env.setError s (cacheName k) w with
    | some m => rw [hs] at h; cases h
    | none => rw [hs] at h; simp only [Except.ok.injEq] at h; exact h.symm
  have hget : ∀ (s : Store) (w : JSON), truthy (some w) = true →
      getCachedResult (s.set (cacheName k) w) k = w := by
    intro s w hw
    unfold getCachedResult
    rw [Store.get_set_same]
    simp [hw]
  have e1 := hset store s1 v h1
  refine ⟨by rw [e1]; exact hget store v hv, ?_, ?_⟩
  · intro s2 h2
    have e2 := hset s1 s2 v2 h2
    refine ⟨by rw [e2]; exact hget s1 v2 hv2, ?_⟩
    have hwf2 : s2.WF := by
      rw [e2, e1]
      exact Store.wf_set _ _ _ (Store.wf_set _ _ _ hwf)
    apply count_of_nodup _ _ hwf2
    have : s2.get (cacheName k) = some v2 := by rw [e2]; exact Store.get_set_same _ _ _
    unfold Store.get at this
    rw [this]
    simp
  · intro j hj
    unfold getCachedResult
    rw [hj]

/-- C20, at a concrete input: the empty area, a writable environment, two
objects. -/
theorem cacheResult_round_trip_witness :
    getCachedResult (emptyStore.set (cacheName (lit "k")) (.obj [])) (lit "k") = .obj [] ∧
    (∀ s2, (cacheResult ⟨fun _ => .ok [], fun _ => .rejected .typeError, fun _ => 0,
        fun _ _ _ => none⟩ (emptyStore.set (cacheName (lit "k")) (.obj [])) (lit "k")
        (.obj [(lit "a", .null)])).2 = .ok s2 →
      getCachedResult s2 (lit "k") = .obj [(lit "a", .null)] ∧
      (s2.entries.filter (fun e => decide (e.1 = cacheName (lit "k")))).length = 1) ∧
    (∀ j, emptyStore.get (cacheName j) = none → getCachedResult emptyStore j = .null) :=
  cacheResult_round_trip ⟨fun _ => .ok [], fun _ => .rejected .typeError, fun _ => 0,
    fun _ _ _ => none⟩ emptyStore (emptyStore.set (cacheName (lit "k")) (.obj [])) (lit "k")
    (.obj []) (.obj [(lit "a", .null)]) List.nodup_nil rfl rfl rfl

/-- C18. `cleanOldCache` applied to its own result removes nothing and leaves
the area as it is; on an area with at most 3 cache names it removes nothing;
`CacheManager.clearOldCache` behaves so with 5. -/
theorem cleanOldCache_idempotent (store : Store) :
    cleanOldCache (cleanOldCache store).2 = ([], (cleanOldCache store).2) ∧
    (if store.cacheKeys.length ≤ 3 then cleanOldCache store = ([], store)
      else (cleanOldCache store).2.cacheKeys.length ≤ 3) ∧
    CacheManager.clearOldCache (CacheManager.clearOldCache store).2 =
      ([], (CacheManager.clearOldCache store).2) ∧
    (if store.cacheKeys.length ≤ 5 then CacheManager.clearOldCache store = ([], store)
      else (CacheManager.clearOldCache store).2.cacheKeys.length ≤ 5) := by
  have small3 : ∀ s : Store, s.cacheKeys.length ≤ 3 → cleanOldCache s = ([], s) := by
    intro s hs
    unfold cleanOldCache
    simp only
    rw [if_neg (by omega)]
  have small5 : ∀ s : Store, s.cacheKeys.length ≤ 5 →
      CacheManager.clearOldCache s = ([], s) := by
    intro s hs
    unfold CacheManager.clearOldCache
    simp only
    rw [if_neg (by omega)]
  have after3 : (cleanOldCache store).2.cacheKeys.length ≤ 3 := by
    by_cases h : store.cacheKeys.length ≤ 3
    · rw [small3 store h]; exact h
    · unfold cleanOldCache
      simp only
      rw [if_pos (by omega)]
      exact cacheKeys_after_eviction store 3
  have after5 : (CacheManager.clearOldCache store).2.cacheKeys.length ≤ 5 := by
    by_cases h : store.cacheKeys.length ≤ 5
    · rw [small5 store h]; exact h
    · unfold CacheManager.clearOldCache
      simp only
      rw [if_pos (by omega)]
      exact cacheKeys_after_eviction store 5
  refine ⟨small3 _ after3, ?_, small5 _ after5, ?_⟩
  · split_ifs with h
    · exact small3 store h
    · exact after3
  · split_ifs with h
    · exact small5 store h
    · exact after5

/-- C17, counterexample. The cache names `cache_k1`, ..., `cache_k4` are written
in this order and `cache_k1` is then written again, so that `cache_k1` is the
latest write: the area still enumerates `cache_k1` first, and `cleanOldCache`
removes exactly `cache_k1` and keeps `cache_k2`, written before it. -/
theorem cleanOldCache_removes_rewritten :
    overwrittenStore.cacheKeys =
      [cacheName (lit "k1"), cacheName (lit "k2"), cacheName (lit "k3"), cacheName (lit "k4")] ∧
    overwrittenStore.get (cacheName (lit "k1")) = some (.obj [(lit "again", .bool true)]) ∧
    (cleanOldCache overwrittenStore).1 = [.storageRemove [cacheName (lit "k1")]] ∧
    (cleanOldCache overwrittenStore).2.get (cacheName (lit "k1")) = none ∧
    (cleanOldCache overwrittenStore).2.cacheKeys =
      [cacheName (lit "k2"), cacheName (lit "k3"), cacheName (lit "k4")] :=
  ⟨rfl, rfl, rfl, rfl, rfl⟩

/-- C17, amended. In an area whose names are distinct, `cleanOldCache` leaves
exactly the last `min n 3` cache names of the order in which the area
enumerates its `n` cache names, with their values, and removes every earlier
one (`CacheManager.clearOldCache`: 5); a write under a new cache name puts it
last in that order, a write under an existing one leaves the order as it is. -/
theorem cleanOldCache_keeps_last_enumerated (store : Store) (hwf : store.WF) :
    (cleanOldCache store).2.cacheKeys = store.cacheKeys.drop (store.cacheKeys.length - 3) ∧
    (cleanOldCache store).2.cacheKeys.length = min store.cacheKeys.length 3 ∧
    (∀ name, name ∈ store.cacheKeys.take (store.cacheKeys.length - 3) →
      (cleanOldCache store).2.get name = none) ∧
    (∀ name, name ∉ store.cacheKeys.take (store.cacheKeys.length - 3) →
      (cleanOldCache store).2.get name = store.get name) ∧
    (CacheManager.clearOldCache store).2.cacheKeys =
      store.cacheKeys.drop (store.cacheKeys.length - 5) ∧
    (CacheManager.clearOldCache store).2.cacheKeys.length = min store.cacheKeys.length 5 ∧
    (∀ name, name ∈ store.cacheKeys.take (store.cacheKeys.length - 5) →
      (CacheManager.clearOldCache store).2.get name = none) ∧
    (∀ name, name ∉ store.cacheKeys.take (store.cacheKeys.length - 5) →
      (CacheManager.clearOldCache store).2.get name = store.get name) ∧
    (∀ name v, isCacheName name = true →
      (store.set name v).cacheKeys =
        if (store.get name).isNone then store.cacheKeys ++ [name] else store.cacheKeys) := by
  have hnd := Store.cacheKeys_nodup store hwf
  have key : ∀ keep : Nat,
      let s := if store.cacheKeys.length > keep then
          store.remove (store.cacheKeys.take (store.cacheKeys.length - keep)) else store
      s.cacheKeys = store.cacheKeys.drop (store.cacheKeys.length - keep) ∧
      s.cacheKeys.length = min store.cacheKeys.length keep ∧
      (∀ name, name ∈ store.cacheKeys.take (store.cacheKeys.length - keep) →
        s.get name = none) ∧
      (∀ name, name ∉ store.cacheKeys.take (store.cacheKeys.length - keep) →
        s.get name = store.get name) := by
    intro keep
    simp only
    split_ifs with h
    · have e : (store.remove (store.cacheKeys.take (store.cacheKeys.length - keep))).cacheKeys =
          store.cacheKeys.drop (store.cacheKeys.length - keep) := by
        rw [Store.cacheKeys_remove, filter_not_take_nodup _ _ hnd]
      refine ⟨e, ?_, ?_, ?_⟩
      · rw [e, List.length_drop]; omega
      · intro name hn; exact Store.get_remove_dropped _ _ _ hn
      · intro name hn; exact Store.get_remove_kept _ _ _ hn
    · have e0 : store.cacheKeys.length - keep = 0 := by omega
      rw [e0]
      refine ⟨by simp, by omega, ?_, ?_⟩
      · intro name hn; simp at hn
      · intro name _; rfl
  have e3 : (cleanOldCache store).2 = if store.cacheKeys.length > 3 then
      store.remove (store.cacheKeys.take (store.cacheKeys.length - 3)) else store := by
    unfold cleanOldCache
    simp only
    split_ifs <;> rfl
  have e5 : (CacheManager.clearOldCache store).2 = if store.cacheKeys.length > 5 then
      store.remove (store.cacheKeys.take (store.cacheKeys.length - 5)) else store := by
    unfold CacheManager.clearOldCache
    simp only
    split_ifs <;> rfl
  have k3 := key 3
  have k5 := key 5
  simp only at k3 k5
  rw [← e3] at k3
  rw [← e5] at k5
  exact ⟨k3.1, k3.2.1, k3.2.2.1, k3.2.2.2, k5.1, k5.2.1, k5.2.2.1, k5.2.2.2,
    fun name v hname => Store.cacheKeys_set store name v hname⟩

/-- C17, amended, at the area written `k1`, `k2`, `k3`, `k4`, `k1`. -/
theorem cleanOldCache_keeps_last_enumerated_witness :
    (cleanOldCache overwrittenStore).2.cacheKeys =
      overwrittenStore.cacheKeys.drop (overwrittenStore.cacheKeys.length - 3) ∧
    (cleanOldCache overwrittenStore).2.cacheKeys.length =
      min overwrittenStore.cacheKeys.length 3 :=
  have h := cleanOldCache_keeps_last_enumerated overwrittenStore (by
    unfold Store.WF
    decide)
  ⟨h.1, h.2.1⟩
/-! ## The caching step -/

/-- The three courses of the caching step. -/
theorem cacheStep_courses (env : Env) (store : Store) (k : JSString) (a : JSON) :
    (getStorageUsage env store + (stringify a).length < 4 * 1024 * 1024 →
      (cacheStep env store k a).1 = [.storageSet (cacheName k) a] ∧
      storageRemovals (cacheStep env store k a).1 = 0 ∧
      (cacheStep env store k a).2 =
        match env.setError store (cacheName k) a with
        | none => store.set (cacheName k) a
        | some _ => store) ∧
    (¬ getStorageUsage env store + (stringify a).length < 4 * 1024 * 1024 →
      (getStorageUsage env (cleanOldCache store).2 + (stringify a).length < 4 * 1024 * 1024 →
        (cacheStep env store k a).1 =
          (cleanOldCache store).1 ++ [.storageSet (cacheName k) a] ∧
        (cacheStep env store k a).2 =
          match env.setError (cleanOldCache store).2 (cacheName k) a with
          | none => (cleanOldCache store).2.set (cacheName k) a
          | some _ => (cleanOldCache store).2) ∧
      (¬ getStorageUsage env (cleanOldCache store).2 + (stringify a).length
          < 4 * 1024 * 1024 →
        cacheStep env store k a = cleanOldCache store ∧
        storageWrites (cacheStep env store k a).1 = [])) := by
  have hclean : storageWrites (cleanOldCache store).1 = [] := by
    unfold cleanOldCache
    simp only
    split_ifs <;> rfl
  refine ⟨?_, ?_⟩
  · intro h
    unfold cacheStep cacheResult
    simp only [cacheBudget]
    rw [if_pos h]
    cases env.setError store (cacheName k) a <;> exact ⟨rfl, rfl, rfl⟩
  · intro h
    refine ⟨?_, ?_⟩
    · intro h1
      unfold cacheStep cacheResult
      simp only [cacheBudget]
      rw [if_neg h, if_pos h1]
      cases env.setError (cleanOldCache store).2 (cacheName k) a <;> exact ⟨rfl, rfl⟩
    · intro h1
      have e : cacheStep env store k a = cleanOldCache store := by
        unfold cacheStep
        simp only [cacheBudget]
        rw [if_neg h, if_neg h1]
      exact ⟨e, by rw [e]; exact hclean⟩

/-- C16. With `u` the reported usage and `s` the length of the serialization of
the artifact: when `u + s < 4 * 1024 * 1024` the caching step issues the write
of the artifact under `cache_` + key and no removal; otherwise it runs
`cleanOldCache`, reads the usage `u1` of the cleaned area, and issues the write
exactly when `u1 + s < 4 * 1024 * 1024`; when not, it issues no write. In every
case the step returns an area and no error: a rejected write leaves the area as
it was. -/
theorem cacheStep_quota (env : Env) (store : Store) (k : JSString) (a : JSON) :
    (getStorageUsage env store + (stringify a).length < 4 * 1024 * 1024 →
      (cacheStep env store k a).1 = [.storageSet (cacheName k) a] ∧
      storageRemovals (cacheStep env store k a).1 = 0 ∧
      (cacheStep env store k a).2 =
        match env.setError store (cacheName k) a with
        | none => store.set (cacheName k) a
        | some _ => store) ∧
    (¬ getStorageUsage env store + (stringify a).length < 4 * 1024 * 1024 →
      (getStorageUsage env (cleanOldCache store).2 + (stringify a).length < 4 * 1024 * 1024 →
        (cacheStep env store k a).1 =
          (cleanOldCache store).1 ++ [.storageSet (cacheName k) a] ∧
        (cacheStep env store k a).2 =
          match env.setError (cleanOldCache store).2 (cacheName k) a with
          | none => (cleanOldCache store).2.set (cacheName k) a
          | some _ => (cleanOldCache store).2) ∧
      (¬ getStorageUsage env (cleanOldCache store).2 + (stringify a).length
          < 4 * 1024 * 1024 →
        cacheStep env store k a = cleanOldCache store ∧
        storageWrites (cacheStep env store k a).1 = [])) := by
  have hclean : storageWrites (cleanOldCache store).1 = [] := by
    unfold cleanOldCache
    simp only
    split_ifs <;> rfl
  refine ⟨?_, ?_⟩
  · intro h
    unfold cacheStep cacheResult
    simp only [cacheBudget]
    rw [if_pos h]
    cases env.setError store (cacheName k) a <;> exact ⟨rfl, rfl, rfl⟩
  · intro h
    refine ⟨?_, ?_⟩
    · intro h1
      unfold cacheStep cacheResult
      simp only [cacheBudget]
      rw [if_neg h, if_pos h1]
      cases env.setError (cleanOldCache store).2 (cacheName k) a <;> exact ⟨rfl, rfl⟩
    · intro h1
      have e : cacheStep env store k a = cleanOldCache store := by
        unfold cacheStep
        simp only [cacheBudget]
        rw [if_neg h, if_neg h1]
      exact ⟨e, by rw [e]; exact hclean⟩

/-- C16, at the empty area with a reported usage of 0. -/
theorem cacheStep_quota_witness :
    (cacheStep ⟨fun _ => .ok [], fun _ => .rejected .typeError, fun _ => 0,
      fun _ _ _ => none⟩ emptyStore (lit "k") (.obj [])).1 =
        [.storageSet (cacheName (lit "k")) (.obj [])] ∧
    storageRemovals (cacheStep ⟨fun _ => .ok [], fun _ => .rejected .typeError, fun _ => 0,
      fun _ _ _ => none⟩ emptyStore (lit "k") (.obj [])).1 = 0 ∧
    (cacheStep ⟨fun _ => .ok [], fun _ => .rejected .typeError, fun _ => 0,
      fun _ _ _ => none⟩ emptyStore (lit "k") (.obj [])).2 =
        emptyStore.set (cacheName (lit "k")) (.obj []) :=
  (cacheStep_quota ⟨fun _ => .ok [], fun _ => .rejected .typeError, fun _ => 0,
    fun _ _ _ => none⟩ emptyStore (lit "k") (.obj [])).1 (by decide)

theorem sum_replaceValue_le (key : JSString) (v : JSON) (l : List (JSString × JSON)) :
    ((replaceValue key v l).map (fun e => estimatedSize e.2)).sum ≤
      (l.map (fun e => estimatedSize e.2)).sum + estimatedSize v := by
  induction l with
  | nil => simp [replaceValue]
  | cons e rest ih =>
    obtain ⟨k, w⟩ := e
    simp only [replaceValue]
    split_ifs
    · simp only [List.map_cons, List.sum_cons]; omega
    · simp only [List.map_cons, List.sum_cons]; omega

theorem estimatedUsage_set_le (store : Store) (name : JSString) (v : JSON) :
    estimatedUsage (store.set name v) ≤ estimatedUsage store + estimatedSize v := by
  unfold estimatedUsage Store.set
  simp only
  cases lookup name store.entries with
  | none => simp only [List.map_append, List.sum_append, List.map_cons, List.map_nil,
      List.sum_cons, List.sum_nil]; omega
  | some w =>
    have := sum_replaceValue_le name v store.entries
    simp only
    omega

theorem cleanOldCache_length_le (store : Store) :
    (cleanOldCache store).2.cacheKeys.length ≤ 3 := by
  unfold cleanOldCache
  simp only
  split_ifs with h
  · exact cacheKeys_after_eviction store 3
  · show store.cacheKeys.length ≤ 3
    omega

/-- C19. With the reported usage being the sum of the estimated sizes of the
stored entries: after the caching step either that sum is at most the budget or
the area holds at most 3 cache names; and whenever the step issued the write
(also when it actually stored the artifact), the sum afterwards is below the
budget. -/
theorem cacheStep_bound (env : Env) (store : Store) (k : JSString) (a : JSON)
    (henv : env.bytesInUse = estimatedUsage) :
    (estimatedUsage (cacheStep env store k a).2 ≤ cacheBudget ∨
      (cacheStep env store k a).2.cacheKeys.length ≤ 3) ∧
    (storageWrites (cacheStep env store k a).1 ≠ [] →
      estimatedUsage (cacheStep env store k a).2 < cacheBudget) := by
  have hq := cacheStep_courses env store k a
  have hset : ∀ s : Store, estimatedUsage s + (stringify a).length < cacheBudget →
      estimatedUsage (match env.setError s (cacheName k) a with
        | none => s.set (cacheName k) a
        | some _ => s) < cacheBudget := by
    intro s hs
    cases env.setError s (cacheName k) a with
    | none =>
      have := estimatedUsage_set_le s (cacheName k) a
      unfold estimatedSize at this
      simp only
      omega
    | some m => simp only; omega
  have hB : (4 * 1024 * 1024 : Nat) = cacheBudget := rfl
  simp only [getStorageUsage, henv, hB] at hq
  by_cases h : estimatedUsage store + (stringify a).length < cacheBudget
  · have h2 := (hq.1 h).2.2
    rw [h2]
    exact ⟨Or.inl (Nat.le_of_lt (hset store h)), fun _ => hset store h⟩
  · by_cases h1 : estimatedUsage (cleanOldCache store).2 + (stringify a).length < cacheBudget
    · have h2 := ((hq.2 h).1 h1).2
      rw [h2]
      exact ⟨Or.inl (Nat.le_of_lt (hset _ h1)), fun _ => hset _ h1⟩
    · have h2 := (hq.2 h).2 h1
      refine ⟨Or.inr ?_, fun hw => absurd h2.2 hw⟩
      rw [h2.1]
      exact cleanOldCache_length_le store

/-- C19, at the empty area, whose sum of estimated sizes is 0. -/
theorem cacheStep_bound_witness :
    (estimatedUsage (cacheStep ⟨fun _ => .ok [], fun _ => .rejected .typeError, estimatedUsage,
        fun _ _ _ => none⟩ emptyStore (lit "k") (.obj [])).2 ≤ cacheBudget ∨
      (cacheStep ⟨fun _ => .ok [], fun _ => .rejected .typeError, estimatedUsage,
        fun _ _ _ => none⟩ emptyStore (lit "k") (.obj [])).2.cacheKeys.length ≤ 3) ∧
    (storageWrites (cacheStep ⟨fun _ => .ok [], fun _ => .rejected .typeError, estimatedUsage,
        fun _ _ _ => none⟩ emptyStore (lit "k") (.obj [])).1 ≠ [] →
      estimatedUsage (cacheStep ⟨fun _ => .ok [], fun _ => .rejected .typeError, estimatedUsage,
        fun _ _ _ => none⟩ emptyStore (lit "k") (.obj [])).2 < cacheBudget) :=
  cacheStep_bound ⟨fun _ => .ok [], fun _ => .rejected .typeError, estimatedUsage,
    fun _ _ _ => none⟩ emptyStore (lit "k") (.obj []) rfl

/-! ## Detection results -/

theorem capturedOr_ne_nil (key content sentinel : JSString) (h : sentinel ≠ []) :
    capturedOr key content sentinel ≠ [] := by
  unfold capturedOr
  cases hre : regexExec key content with
  | none => exact h
  | some r =>
    obtain ⟨m, v, rest⟩ := r
    obtain ⟨⟨ws, _, hv, _⟩, _⟩ := regexExec_some key content m v rest hre
    exact hv

/-- C11, counterexample. The model output `{"clothes": "shirt"}` is valid JSON:
`detectClothes` and `detectUserClothes` return the parsed object, which has no
`color` property. -/
theorem detectClothes_partial_descriptor :
    (GeminiAPIService.detectClothes partialEnv exampleStore (lit "p.jpg")).2 =
      .ok (.obj [(lit "clothes", .str (lit "shirt"))]) ∧
    (GeminiAPIService.detectUserClothes partialEnv exampleStore (lit "PHOTO")
      (some (descriptor (lit "shirt") (lit "blue")))).2 =
      .ok (.obj [(lit "clothes", .str (lit "shirt"))]) ∧
    ¬ IsDescriptor (.obj [(lit "clothes", .str (lit "shirt"))]) := by
  refine ⟨rfl, rfl, ?_⟩
  rintro ⟨fields, clothes, color, hobj, _, hcolor⟩
  cases hobj
  have hnone : lookup (lit "color") [(lit "clothes", JSON.str (lit "shirt"))] = none := rfl
  rw [hnone] at hcolor
  cases hcolor

/-- C11, amended. For every model output text: when the trimmed text is valid
JSON, `detectClothes` and `detectUserClothes` return the parsed value as it is,
whatever its shape; when it is not, both return a descriptor whose `clothes`
and `color` are present, non-empty strings. -/
theorem detection_descriptor_unless_parsed (content : JSString) :
    (∃ v, jsonParse (trim content) = some v ∧ detectClothesParse content = v ∧
      detectUserClothesParse content = v) ∨
    (jsonParse (trim content) = none ∧
      ∃ clothes color, clothes ≠ [] ∧ color ≠ [] ∧
        detectClothesParse content = descriptor clothes color ∧
        detectUserClothesParse content = descriptor clothes color ∧
        IsDescriptor (descriptor clothes color)) := by
  cases h : jsonParse (trim content) with
  | some v =>
    left
    refine ⟨v, rfl, ?_, ?_⟩
    · unfold detectClothesParse; rw [h]
    · unfold detectUserClothesParse; rw [h]
  | none =>
    right
    refine ⟨rfl, capturedOr (lit "clothes") content (lit "clothing item"),
      capturedOr (lit "color") content (lit "unknown"),
      capturedOr_ne_nil _ _ _ (by decide), capturedOr_ne_nil _ _ _ (by decide), ?_, ?_,
      ⟨_, _, _, rfl, rfl, rfl⟩⟩
    · unfold detectClothesParse; rw [h]; rfl
    · unfold detectUserClothesParse; rw [h]; rfl

/-! ## Traces of the orchestrator -/

theorem providerStages_append (l1 l2 : List Event) :
    providerStages (l1 ++ l2) = providerStages l1 ++ providerStages l2 := by
  induction l1 with
  | nil => rfl
  | cons e rest ih => cases e <;> simp [providerStages, ih]

theorem storageWrites_append (l1 l2 : List Event) :
    storageWrites (l1 ++ l2) = storageWrites l1 ++ storageWrites l2 := by
  induction l1 with
  | nil => rfl
  | cons e rest ih => cases e <;> simp [storageWrites, ih]

theorem storedValues_append (l1 l2 : List Event) :
    storedValues (l1 ++ l2) = storedValues l1 ++ storedValues l2 := by
  induction l1 with
  | nil => rfl
  | cons e rest ih => cases e <;> simp [storedValues, ih]

theorem shownResults_append (l1 l2 : List Event) :
    shownResults (l1 ++ l2) = shownResults l1 ++ shownResults l2 := by
  induction l1 with
  | nil => rfl
  | cons e rest ih => cases e <;> simp [shownResults, ih]

theorem shownErrors_append (l1 l2 : List Event) :
    shownErrors (l1 ++ l2) = shownErrors l1 ++ shownErrors l2 := by
  induction l1 with
  | nil => rfl
  | cons e rest ih => cases e <;> simp [shownErrors, ih]

theorem storageRemovals_append (l1 l2 : List Event) :
    storageRemovals (l1 ++ l2) = storageRemovals l1 + storageRemovals l2 := by
  induction l1 with
  | nil => simp [storageRemovals]
  | cons e rest ih =>
    cases e <;> simp [storageRemovals, ih]
    omega

/-- A trace of service effects holds no storage effect and no display. -/
theorem service_trace (l : List Event) (h : l.all Event.isService = true) :
    storageWrites l = [] ∧ storedValues l = [] ∧ shownResults l = [] ∧ shownErrors l = [] ∧
      storageRemovals l = 0 := by
  induction l with
  | nil => exact ⟨rfl, rfl, rfl, rfl, rfl⟩
  | cons e rest ih =>
    simp only [List.all_cons, Bool.and_eq_true] at h
    have := ih h.2
    cases e <;> simp [Event.isService] at h <;>
      simpa [storageWrites, storedValues, shownResults, shownErrors, storageRemovals] using this

/-- A trace of storage effects holds no provider call and no display. -/
theorem storage_trace (l : List Event) (h : l.all Event.isStorage = true) :
    providerStages l = [] ∧ shownResults l = [] ∧ shownErrors l = [] := by
  induction l with
  | nil => exact ⟨rfl, rfl, rfl⟩
  | cons e rest ih =>
    simp only [List.all_cons, Bool.and_eq_true] at h
    have := ih h.2
    cases e <;> simp [Event.isStorage] at h <;>
      simpa [providerStages, shownResults, shownErrors] using this

theorem detectClothes_service (env : Env) (store : Store) (imageSrc : JSString) :
    (GeminiAPIService.detectClothes env store imageSrc).1.all Event.isService = true := by
  unfold GeminiAPIService.detectClothes
  split
  · rfl
  · rfl
  · split <;> rfl

theorem detectUserClothes_service (env : Env) (store : Store) (userPhoto : JSString)
    (info : Option JSON) :
    (GeminiAPIService.detectUserClothes env store userPhoto info).1.all Event.isService
      = true := by
  unfold GeminiAPIService.detectUserClothes
  split
  · rfl
  · rfl
  · split <;> rfl

theorem generateTryOn_service (env : Env) (store : Store) (imageSrc : JSString)
    (info : Option JSON) :
    (GeminiAPIService.generateTryOn env store imageSrc info).1.all Event.isService = true := by
  unfold GeminiAPIService.generateTryOn
  split
  · rename_i k ks p ps _ _
    have h := detectUserClothes_service env store (p :: ps) info
    split
    · rename_i events e heq; rw [heq] at h; exact h
    · rename_i events u heq; rw [heq] at h; exact h
  · rfl

theorem generateTryOnWithGemini_service (env : Env) (store : Store)
    (userPhoto productImageSrc : JSString) (productClothes : Option JSON) (userClothes : JSON) :
    (GeminiAPIService.generateTryOnWithGemini env store userPhoto productImageSrc
      productClothes userClothes).1.all Event.isService = true := by
  unfold GeminiAPIService.generateTryOnWithGemini
  simp only
  split
  · rfl
  · split <;> rfl

theorem cleanOldCache_storage (store : Store) :
    (cleanOldCache store).1.all Event.isStorage = true := by
  unfold cleanOldCache
  simp only
  split_ifs <;> rfl

theorem cacheStep_storage (env : Env) (store : Store) (k : JSString) (a : JSON) :
    (cacheStep env store k a).1.all Event.isStorage = true := by
  have hq := cacheStep_courses env store k a
  by_cases h : getStorageUsage env store + (stringify a).length < 4 * 1024 * 1024
  · rw [(hq.1 h).1]; rfl
  · by_cases h1 : getStorageUsage env (cleanOldCache store).2 + (stringify a).length
        < 4 * 1024 * 1024
    · rw [((hq.2 h).1 h1).1, List.all_append, cleanOldCache_storage]; rfl
    · rw [((hq.2 h).2 h1).1]; exact cleanOldCache_storage store
theorem lookup_insertIndexed_same (i : Nat) (key : JSString) (v : JSON) :
    ∀ l : List (JSString × JSON), lookup key l = none →
      lookup key (insertIndexed i key v l) = some v
  | [], _ => by simp [insertIndexed, lookup]
  | (k, w) :: rest, h => by
    simp only [lookup] at h
    split_ifs at h with hk
    simp only [insertIndexed]
    split
    · split_ifs
      · simp only [lookup, hk, if_false]
        exact lookup_insertIndexed_same i key v rest h
      · simp [lookup]
    · simp [lookup]

theorem lookup_insertIndexed_other (i : Nat) (key name : JSString) (v : JSON)
    (hne : name ≠ key) :
    ∀ l : List (JSString × JSON), lookup name (insertIndexed i key v l) = lookup name l
  | [] => by simp [insertIndexed, lookup, Ne.symm hne]
  | (k, w) :: rest => by
    simp only [insertIndexed]
    split
    · split_ifs
      · simp only [lookup]
        split_ifs
        · rfl
        · exact lookup_insertIndexed_other i key name v hne rest
      · simp [lookup, Ne.symm hne]
    · simp [lookup, Ne.symm hne]

theorem lookup_defineProp_same (fields : List (JSString × JSON)) (key : JSString) (v : JSON) :
    lookup key (defineProp fields key v) = some v := by
  unfold defineProp
  cases h : lookup key fields with
  | some w => exact lookup_replaceValue_same key v fields (by rw [h]; simp)
  | none =>
    simp only
    cases arrayIndex key with
    | some i => exact lookup_insertIndexed_same i key v fields h
    | none => exact lookup_append_new key v fields h

theorem lookup_defineProp_other (fields : List (JSString × JSON)) (key name : JSString)
    (v : JSON) (hne : name ≠ key) :
    lookup name (defineProp fields key v) = lookup name fields := by
  unfold defineProp
  cases lookup key fields with
  | some w => exact lookup_replaceValue_other key name v fields hne
  | none =>
    simp only
    cases arrayIndex key with
    | some i => exact lookup_insertIndexed_other i key name v hne fields
    | none => exact lookup_append_other key name v fields hne

/-- The failure artifact: the analysis with `generatedImage: null` and the
fixed `error`. -/
theorem failureArtifact_fields (apiResult : Analysis) :
    ∃ fields, failureArtifact apiResult = .obj fields ∧
      lookup (lit "generatedImage") fields = some .null ∧
      lookup (lit "error") fields = some (.str (lit "Image generation failed")) ∧
      ∀ name, name ≠ lit "generatedImage" → name ≠ lit "error" →
        lookup name fields = lookup name apiResult.fields := by
  refine ⟨_, rfl, ?_, lookup_defineProp_same _ _ _, ?_⟩
  · rw [lookup_defineProp_other _ _ _ _ (by decide)]
    exact lookup_defineProp_same _ _ _
  · intro name h1 h2
    rw [lookup_defineProp_other _ _ _ _ h2, lookup_defineProp_other _ _ _ _ h1]

theorem viaMessage_error {α : Type} (e : JSError) (h : e ≠ .error []) :
    viaMessage (Except.error e : Except JSError α) = .error e := by
  cases e with
  | typeError => rfl
  | error m =>
    cases m with
    | nil => exact absurd rfl h
    | cons c cs => rfl

/-- A cache hit: the stored value is shown; nothing else happens. -/
theorem handleTryOnClick_hit (env : Env) (store : Store) (imageSrc : JSString)
    (h : truthy (some (getCachedResult store (generateCacheKey imageSrc store.userPhoto)))
      = true) :
    handleTryOnClick env store imageSrc =
      ([.showResult (getCachedResult store (generateCacheKey imageSrc store.userPhoto))],
        store) := by
  unfold handleTryOnClick
  simp only
  rw [if_pos h]

/-- A cache miss with a failing product detection. -/
theorem handleTryOnClick_detect_failed (env : Env) (store : Store) (imageSrc : JSString)
    (t1 : List Event) (e : JSError)
    (hmiss : truthy (some (getCachedResult store (generateCacheKey imageSrc store.userPhoto)))
      = false)
    (h1 : GeminiAPIService.detectClothes env store imageSrc = (t1, .error e))
    (he : e ≠ .error []) :
    handleTryOnClick env store imageSrc =
      (.showLoadingModal imageSrc :: t1 ++ [.showError e], store) := by
  unfold handleTryOnClick
  simp only
  rw [if_neg (by rw [hmiss]; simp), h1]
  simp only [viaMessage_error e he]

/-- A cache miss with a failing analysis. -/
theorem handleTryOnClick_analysis_failed (env : Env) (store : Store) (imageSrc : JSString)
    (t1 t2 : List Event) (clothesInfo : JSON) (e : JSError)
    (hmiss : truthy (some (getCachedResult store (generateCacheKey imageSrc store.userPhoto)))
      = false)
    (h1 : GeminiAPIService.detectClothes env store imageSrc = (t1, .ok clothesInfo))
    (h2 : GeminiAPIService.generateTryOn env store imageSrc (some clothesInfo)
      = (t2, .error e))
    (he : e ≠ .error []) :
    handleTryOnClick env store imageSrc =
      (.showLoadingModal imageSrc :: t1 ++ t2 ++ [.showError e], store) := by
  unfold handleTryOnClick
  simp only
  rw [if_neg (by rw [hmiss]; simp), h1]
  simp only [viaMessage, h2, viaMessage_error e he]

/-- A cache miss with both detections done: the generation stage, the caching
step, the display of the final result. -/
theorem handleTryOnClick_analysed (env : Env) (store : Store) (imageSrc : JSString)
    (t1 t2 : List Event) (clothesInfo : JSON) (apiResult : Analysis)
    (hmiss : truthy (some (getCachedResult store (generateCacheKey imageSrc store.userPhoto)))
      = false)
    (h1 : GeminiAPIService.detectClothes env store imageSrc = (t1, .ok clothesInfo))
    (h2 : GeminiAPIService.generateTryOn env store imageSrc (some clothesInfo)
      = (t2, .ok apiResult)) :
    handleTryOnClick env store imageSrc =
      (.showLoadingModal imageSrc :: t1 ++ t2 ++
          ((generationStage env store apiResult).1 ++
            (cacheStep env store (generateCacheKey imageSrc store.userPhoto)
              (generationStage env store apiResult).2).1 ++
            [.showResult (generationStage env store apiResult).2]),
        (cacheStep env store (generateCacheKey imageSrc store.userPhoto)
          (generationStage env store apiResult).2).2) := by
  unfold handleTryOnClick
  simp only
  rw [if_neg (by rw [hmiss]; simp), h1]
  simp only [viaMessage, h2, generateAndShow]

theorem generateTryOn_needsGeneration (env : Env) (store : Store) (imageSrc : JSString)
    (info : Option JSON) (t2 : List Event) (apiResult : Analysis)
    (h : GeminiAPIService.generateTryOn env store imageSrc info = (t2, .ok apiResult)) :
    apiResult.needsGeneration = true := by
  unfold GeminiAPIService.generateTryOn at h
  split at h
  · split at h
    · cases h
    · simp only [Prod.mk.injEq, Except.ok.injEq] at h
      rw [← h.2]
  · cases h

/-- The generation stage after a failed generation message. -/
theorem generationStage_failed (env : Env) (store : Store) (apiResult : Analysis)
    (t3 : List Event) (e : JSError) (hneeds : apiResult.needsGeneration = true)
    (h3 : GeminiAPIService.generateTryOnWithGemini env store apiResult.userPhoto
      apiResult.productImage apiResult.productClothes apiResult.userClothes
        = (t3, .error e)) :
    generationStage env store apiResult = (t3, failureArtifact apiResult) := by
  unfold generationStage
  rw [if_pos hneeds, h3]
  simp only
  cases e with
  | typeError => rfl
  | error m =>
    cases m with
    | nil => rfl
    | cons c cs => rfl

/-- The generation stage after a generation message that returned an image. -/
theorem generationStage_done (env : Env) (store : Store) (apiResult : Analysis)
    (t3 : List Event) (image : TryOnImage) (hneeds : apiResult.needsGeneration = true)
    (h3 : GeminiAPIService.generateTryOnWithGemini env store apiResult.userPhoto
      apiResult.productImage apiResult.productClothes apiResult.userClothes
        = (t3, .ok image)) :
    generationStage env store apiResult =
      (t3, withGeneratedImage apiResult image.generatedImage) := by
  unfold generationStage
  rw [if_pos hneeds, h3]
  rfl

theorem candidateLevel_ok (log : List LogEvent) (candidate : JSON) (image : TryOnImage)
    (h : (candidateLevel log candidate).result = .ok image) :
    ∃ payload, image = imageResult payload := by
  unfold candidateLevel at h
  split at h
  · cases h
  · split at h
    · cases h
    · rename_i s _
      simp only [Except.ok.injEq] at h
      exact ⟨s, h.symm⟩
  · cases h

theorem extractFromCandidate_ok (result candidate : JSON) (image : TryOnImage)
    (h : (extractFromCandidate result candidate).result = .ok image) :
    ∃ payload, image = imageResult payload := by
  unfold extractFromCandidate at h
  split at h
  · rename_i s _
    simp only [Except.ok.injEq] at h
    exact ⟨s, h.symm⟩
  · split at h
    · cases h
    · rename_i s _
      simp only [Except.ok.injEq] at h
      exact ⟨s, h.symm⟩
    · exact candidateLevel_ok _ _ _ h

/-- Every image the extraction returns is a data URL: the fixed head followed
by the payload. -/
theorem extractImage_ok (result : JSON) (image : TryOnImage)
    (h : (extractImage result).result = .ok image) :
    ∃ payload, image = imageResult payload := by
  unfold extractImage at h
  split at h
  · cases h
  · split at h
    · cases h
    · cases h
    · split_ifs at h
      split at h
      · cases h
      · cases h
      · exact extractFromCandidate_ok _ _ _ h

theorem generateTryOnWithGemini_ok (env : Env) (store : Store)
    (userPhoto productImageSrc : JSString) (productClothes : Option JSON) (userClothes : JSON)
    (t3 : List Event) (image : TryOnImage)
    (h : GeminiAPIService.generateTryOnWithGemini env store userPhoto productImageSrc
      productClothes userClothes = (t3, .ok image)) :
    providerStages t3 = [.generate] ∧ image.generatedImage ≠ [] := by
  unfold GeminiAPIService.generateTryOnWithGemini at h
  simp only at h
  split at h
  · cases h
  · split at h
    · cases h
    · simp only [Prod.mk.injEq] at h
      refine ⟨by rw [← h.1]; rfl, ?_⟩
      have h2 := h.2
      unfold generationResult at h2
      split at h2
      · cases h2
      · cases h2
      · obtain ⟨payload, hp⟩ := extractImage_ok _ _ h2
        rw [hp]
        exact fun e => by cases e

theorem detectClothes_ok (env : Env) (store : Store) (imageSrc : JSString)
    (t1 : List Event) (info : JSON)
    (h : GeminiAPIService.detectClothes env store imageSrc = (t1, .ok info)) :
    providerStages t1 = [.detectProduct] := by
  unfold GeminiAPIService.detectClothes at h
  split at h
  · cases h
  · cases h
  · split at h
    · cases h
    · simp only [Prod.mk.injEq] at h
      rw [← h.1]
      rfl

theorem detectUserClothes_ok (env : Env) (store : Store) (userPhoto : JSString)
    (productInfo : Option JSON) (t : List Event) (info : JSON)
    (h : GeminiAPIService.detectUserClothes env store userPhoto productInfo = (t, .ok info)) :
    providerStages t = [.detectUser] := by
  unfold GeminiAPIService.detectUserClothes at h
  split at h
  · cases h
  · cases h
  · split at h
    · cases h
    · simp only [Prod.mk.injEq] at h
      rw [← h.1]
      rfl

theorem generateTryOn_ok (env : Env) (store : Store) (imageSrc : JSString)
    (info : Option JSON) (t2 : List Event) (apiResult : Analysis)
    (h : GeminiAPIService.generateTryOn env store imageSrc info = (t2, .ok apiResult)) :
    providerStages t2 = [.detectUser] := by
  unfold GeminiAPIService.generateTryOn at h
  split at h
  · split at h
    · cases h
    · rename_i heq
      simp only [Prod.mk.injEq] at h
      rw [← h.1]
      exact detectUserClothes_ok _ _ _ _ _ _ heq
  · cases h
/-! ## The orchestrator after the analysis -/

/-- The projections of the trace of a run that reaches `showResult`. -/
theorem run_trace (imageSrc : JSString) (t1 t2 t3 t4 : List Event) (a : JSON)
    (h1 : t1.all Event.isService = true) (h2 : t2.all Event.isService = true)
    (h3 : t3.all Event.isService = true) (h4 : t4.all Event.isStorage = true) :
    shownErrors (.showLoadingModal imageSrc :: t1 ++ t2 ++ (t3 ++ t4 ++ [.showResult a])) = [] ∧
    shownResults (.showLoadingModal imageSrc :: t1 ++ t2 ++ (t3 ++ t4 ++ [.showResult a]))
      = [a] ∧
    providerStages (.showLoadingModal imageSrc :: t1 ++ t2 ++ (t3 ++ t4 ++ [.showResult a]))
      = providerStages t1 ++ providerStages t2 ++ providerStages t3 ∧
    storageWrites (.showLoadingModal imageSrc :: t1 ++ t2 ++ (t3 ++ t4 ++ [.showResult a]))
      = storageWrites t4 ∧
    storedValues (.showLoadingModal imageSrc :: t1 ++ t2 ++ (t3 ++ t4 ++ [.showResult a]))
      = storedValues t4 ∧
    storageRemovals (.showLoadingModal imageSrc :: t1 ++ t2 ++ (t3 ++ t4 ++ [.showResult a]))
      = storageRemovals t4 := by
  have e : (.showLoadingModal imageSrc :: t1 ++ t2 ++ (t3 ++ t4 ++ [.showResult a])) =
      [.showLoadingModal imageSrc] ++ (t1 ++ (t2 ++ (t3 ++ (t4 ++ [.showResult a])))) := by
    simp
  have s1 := service_trace t1 h1
  have s2 := service_trace t2 h2
  have s3 := service_trace t3 h3
  have s4 := storage_trace t4 h4
  have a1 : shownErrors [Event.showLoadingModal imageSrc] = [] := rfl
  have a2 : shownErrors [Event.showResult a] = [] := rfl
  have b1 : shownResults [Event.showLoadingModal imageSrc] = [] := rfl
  have b2 : shownResults [Event.showResult a] = [a] := rfl
  have c1 : providerStages [Event.showLoadingModal imageSrc] = [] := rfl
  have c2 : providerStages [Event.showResult a] = [] := rfl
  have d1 : storageWrites [Event.showLoadingModal imageSrc] = [] := rfl
  have d2 : storageWrites [Event.showResult a] = [] := rfl
  have f1 : storedValues [Event.showLoadingModal imageSrc] = [] := rfl
  have f2 : storedValues [Event.showResult a] = [] := rfl
  have g1 : storageRemovals [Event.showLoadingModal imageSrc] = 0 := rfl
  have g2 : storageRemovals [Event.showResult a] = 0 := rfl
  rw [e]
  refine ⟨?_, ?_, ?_, ?_, ?_, ?_⟩
  · rw [shownErrors_append, shownErrors_append, shownErrors_append, shownErrors_append,
      shownErrors_append, a1, a2, s1.2.2.2.1, s2.2.2.2.1, s3.2.2.2.1, s4.2.2]
    rfl
  · rw [shownResults_append, shownResults_append, shownResults_append, shownResults_append,
      shownResults_append, b1, b2, s1.2.2.1, s2.2.2.1, s3.2.2.1, s4.2.1]
    rfl
  · rw [providerStages_append, providerStages_append, providerStages_append,
      providerStages_append, providerStages_append, c1, c2, s4.1]
    simp
  · rw [storageWrites_append, storageWrites_append, storageWrites_append,
      storageWrites_append, storageWrites_append, d1, d2, s1.1, s2.1, s3.1]
    simp
  · rw [storedValues_append, storedValues_append, storedValues_append,
      storedValues_append, storedValues_append, f1, f2, s1.2.1, s2.2.1, s3.2.1]
    simp
  · rw [storageRemovals_append, storageRemovals_append, storageRemovals_append,
      storageRemovals_append, storageRemovals_append, g1, g2, s1.2.2.2.2, s2.2.2.2.2,
      s3.2.2.2.2]
    simp

/-- A cache miss, both detections done, the generation message failed: the
failure artifact goes through the caching step and is shown. -/
theorem handleTryOnClick_generation_failed (env : Env) (store : Store) (imageSrc : JSString)
    (t1 t2 t3 : List Event) (clothesInfo : JSON) (apiResult : Analysis) (e : JSError)
    (hmiss : truthy (some (getCachedResult store (generateCacheKey imageSrc store.userPhoto)))
      = false)
    (h1 : GeminiAPIService.detectClothes env store imageSrc = (t1, .ok clothesInfo))
    (h2 : GeminiAPIService.generateTryOn env store imageSrc (some clothesInfo)
      = (t2, .ok apiResult))
    (h3 : GeminiAPIService.generateTryOnWithGemini env store apiResult.userPhoto
      apiResult.productImage apiResult.productClothes apiResult.userClothes
        = (t3, .error e)) :
    handleTryOnClick env store imageSrc =
      (.showLoadingModal imageSrc :: t1 ++ t2 ++ (t3 ++
          (cacheStep env store (generateCacheKey imageSrc store.userPhoto)
            (failureArtifact apiResult)).1 ++ [.showResult (failureArtifact apiResult)]),
        (cacheStep env store (generateCacheKey imageSrc store.userPhoto)
          (failureArtifact apiResult)).2) ∧
    shownErrors (handleTryOnClick env store imageSrc).1 = [] ∧
    shownResults (handleTryOnClick env store imageSrc).1 = [failureArtifact apiResult] ∧
    storageWrites (handleTryOnClick env store imageSrc).1 =
      storageWrites (cacheStep env store (generateCacheKey imageSrc store.userPhoto)
        (failureArtifact apiResult)).1 := by
  have hrun := handleTryOnClick_analysed env store imageSrc t1 t2 clothesInfo apiResult
    hmiss h1 h2
  rw [generationStage_failed env store apiResult t3 e
    (generateTryOn_needsGeneration _ _ _ _ _ _ h2) h3] at hrun
  simp only at hrun
  have q1 : t1.all Event.isService = true := by
    have := detectClothes_service env store imageSrc
    rw [h1] at this
    exact this
  have q2 : t2.all Event.isService = true := by
    have := generateTryOn_service env store imageSrc (some clothesInfo)
    rw [h2] at this
    exact this
  have q3 : t3.all Event.isService = true := by
    have := generateTryOnWithGemini_service env store apiResult.userPhoto
      apiResult.productImage apiResult.productClothes apiResult.userClothes
    rw [h3] at this
    exact this
  have tr := run_trace imageSrc t1 t2 t3 _ (failureArtifact apiResult) q1 q2 q3
    (cacheStep_storage env store (generateCacheKey imageSrc store.userPhoto)
      (failureArtifact apiResult))
  refine ⟨hrun, ?_, ?_, ?_⟩
  · rw [hrun]; exact tr.1
  · rw [hrun]; exact tr.2.1
  · rw [hrun]; exact tr.2.2.2.1

/-- C12. On a cache miss where the product detection and the analysis with the
user detection succeed and the generation fails with the no-image error,
`handleTryOnClick` does not abort: it builds the failure artifact (the analysis
with `generatedImage: null` and a non-null `error`), hands it to the caching
step under the request's cache key, and shows it with `showResult`; `showError`
is not called. -/
theorem handleTryOnClick_no_image (env : Env) (store : Store) (imageSrc : JSString)
    (t1 t2 t3 : List Event) (clothesInfo : JSON) (apiResult : Analysis)
    (hmiss : truthy (some (getCachedResult store (generateCacheKey imageSrc store.userPhoto)))
      = false)
    (h1 : GeminiAPIService.detectClothes env store imageSrc = (t1, .ok clothesInfo))
    (h2 : GeminiAPIService.generateTryOn env store imageSrc (some clothesInfo)
      = (t2, .ok apiResult))
    (h3 : GeminiAPIService.generateTryOnWithGemini env store apiResult.userPhoto
      apiResult.productImage apiResult.productClothes apiResult.userClothes
        = (t3, .error (.error noImageMessage))) :
    handleTryOnClick env store imageSrc =
      (.showLoadingModal imageSrc :: t1 ++ t2 ++ (t3 ++
          (cacheStep env store (generateCacheKey imageSrc store.userPhoto)
            (failureArtifact apiResult)).1 ++ [.showResult (failureArtifact apiResult)]),
        (cacheStep env store (generateCacheKey imageSrc store.userPhoto)
          (failureArtifact apiResult)).2) ∧
    shownErrors (handleTryOnClick env store imageSrc).1 = [] ∧
    shownResults (handleTryOnClick env store imageSrc).1 = [failureArtifact apiResult] ∧
    ∃ fields, failureArtifact apiResult = .obj fields ∧
      lookup (lit "generatedImage") fields = some .null ∧
      lookup (lit "error") fields = some (.str (lit "Image generation failed")) ∧
      ∀ name, name ≠ lit "generatedImage" → name ≠ lit "error" →
        lookup name fields = lookup name apiResult.fields :=
  have h := handleTryOnClick_generation_failed env store imageSrc t1 t2 t3 clothesInfo
    apiResult _ hmiss h1 h2 h3
  ⟨h.1, h.2.1, h.2.2.1, failureArtifact_fields apiResult⟩

/-- C12, at a provider that answers the generation call with a text part only:
the failure artifact is stored under the cache name and shown. -/
theorem handleTryOnClick_no_image_witness :
    shownErrors (handleTryOnClick noImageEnv exampleStore exampleProduct).1 = [] ∧
    shownResults (handleTryOnClick noImageEnv exampleStore exampleProduct).1 =
      [failureArtifact exampleAnalysis] :=
  have h := handleTryOnClick_no_image noImageEnv exampleStore exampleProduct
    [.imageFetch exampleProduct,
      .providerCall .detectProduct (detectionRequest readClothesDetectionPrompt (lit "IMG"))]
    (GeminiAPIService.generateTryOn noImageEnv exampleStore exampleProduct
      (some (descriptor (lit "shirt") (lit "blue")))).1
    (GeminiAPIService.generateTryOnWithGemini noImageEnv exampleStore
      exampleAnalysis.userPhoto exampleAnalysis.productImage exampleAnalysis.productClothes
      exampleAnalysis.userClothes).1
    (descriptor (lit "shirt") (lit "blue")) exampleAnalysis rfl rfl rfl rfl
  ⟨h.2.1, h.2.2.1⟩
/-- The projections of the trace of a run that ends in `showError`. -/
theorem error_trace (imageSrc : JSString) (t : List Event) (e : JSError)
    (h : t.all Event.isService = true) :
    storageWrites (.showLoadingModal imageSrc :: t ++ [.showError e]) = [] ∧
    storageRemovals (.showLoadingModal imageSrc :: t ++ [.showError e]) = 0 ∧
    shownResults (.showLoadingModal imageSrc :: t ++ [.showError e]) = [] ∧
    shownErrors (.showLoadingModal imageSrc :: t ++ [.showError e]) = [e] := by
  have s := service_trace t h
  have e1 : (.showLoadingModal imageSrc :: t ++ [.showError e]) =
      [.showLoadingModal imageSrc] ++ (t ++ [.showError e]) := rfl
  rw [e1]
  refine ⟨?_, ?_, ?_, ?_⟩
  · rw [storageWrites_append, storageWrites_append, s.1]; rfl
  · rw [storageRemovals_append, storageRemovals_append, s.2.2.2.2]; rfl
  · rw [shownResults_append, shownResults_append, s.2.2.1]; rfl
  · rw [shownErrors_append, shownErrors_append, s.2.2.2.1]; rfl

/-- C13, counterexample. The generation endpoint answers with status 500:
`generateTryOnWithGemini` throws the upstream error, and `handleTryOnClick`
does not end in the error state: it writes the failure artifact under the cache
name, which held nothing before, and shows it with `showResult`. -/
theorem handleTryOnClick_caches_upstream_error :
    (GeminiAPIService.generateTryOnWithGemini upstreamErrorEnv exampleStore
      exampleAnalysis.userPhoto exampleAnalysis.productImage exampleAnalysis.productClothes
      exampleAnalysis.userClothes).2 = .error (.error (lit "Gemini API error (500): boom")) ∧
    exampleStore.get (cacheName (generateCacheKey exampleProduct exampleStore.userPhoto))
      = none ∧
    (handleTryOnClick upstreamErrorEnv exampleStore exampleProduct).2.get
      (cacheName (generateCacheKey exampleProduct exampleStore.userPhoto))
      = some (failureArtifact exampleAnalysis) ∧
    storageWrites (handleTryOnClick upstreamErrorEnv exampleStore exampleProduct).1 =
      [cacheName (generateCacheKey exampleProduct exampleStore.userPhoto)] ∧
    shownErrors (handleTryOnClick upstreamErrorEnv exampleStore exampleProduct).1 = [] ∧
    shownResults (handleTryOnClick upstreamErrorEnv exampleStore exampleProduct).1 =
      [failureArtifact exampleAnalysis] := by
  have h := handleTryOnClick_generation_failed upstreamErrorEnv exampleStore exampleProduct
    [.imageFetch exampleProduct,
      .providerCall .detectProduct (detectionRequest readClothesDetectionPrompt (lit "IMG"))]
    (GeminiAPIService.generateTryOn upstreamErrorEnv exampleStore exampleProduct
      (some (descriptor (lit "shirt") (lit "blue")))).1
    (GeminiAPIService.generateTryOnWithGemini upstreamErrorEnv exampleStore
      exampleAnalysis.userPhoto exampleAnalysis.productImage exampleAnalysis.productClothes
      exampleAnalysis.userClothes).1
    (descriptor (lit "shirt") (lit "blue")) exampleAnalysis
    (.error (lit "Gemini API error (500): boom")) rfl rfl rfl rfl
  have hc := (cacheStep_courses upstreamErrorEnv exampleStore
    (generateCacheKey exampleProduct exampleStore.userPhoto)
    (failureArtifact exampleAnalysis)).1 (by decide!)
  refine ⟨rfl, rfl, ?_, ?_, h.2.1, h.2.2.1⟩
  · rw [h.1]
    simp only
    rw [hc.2.2]
    exact Store.get_set_same _ _ _
  · rw [h.2.2.2, hc.1]
    rfl

/-- C13, amended. On a cache miss, a failure of the product detection or of the
analysis with the user detection (a missing credential fails there) ends in
`showError` with no `set` and no `remove` call and the area unchanged; a
failure of the generation message, whatever the error (an upstream status
included), does not: the failure artifact goes through the caching step and is
shown with `showResult`. An error whose message is empty is left aside. -/
theorem handleTryOnClick_failure_paths (env : Env) (store : Store) (imageSrc : JSString)
    (hmiss : truthy (some (getCachedResult store (generateCacheKey imageSrc store.userPhoto)))
      = false) :
    (∀ t1 e, GeminiAPIService.detectClothes env store imageSrc = (t1, .error e) →
      e ≠ .error [] →
      handleTryOnClick env store imageSrc =
        (.showLoadingModal imageSrc :: t1 ++ [.showError e], store) ∧
      storageWrites (handleTryOnClick env store imageSrc).1 = [] ∧
      storageRemovals (handleTryOnClick env store imageSrc).1 = 0) ∧
    (∀ t1 t2 clothesInfo e,
      GeminiAPIService.detectClothes env store imageSrc = (t1, .ok clothesInfo) →
      GeminiAPIService.generateTryOn env store imageSrc (some clothesInfo) = (t2, .error e) →
      e ≠ .error [] →
      handleTryOnClick env store imageSrc =
        (.showLoadingModal imageSrc :: t1 ++ t2 ++ [.showError e], store) ∧
      storageWrites (handleTryOnClick env store imageSrc).1 = [] ∧
      storageRemovals (handleTryOnClick env store imageSrc).1 = 0) ∧
    (store.geminiApiKey = none ∨ store.geminiApiKey = some [] →
      handleTryOnClick env store imageSrc =
        ([.showLoadingModal imageSrc, .showError (.error (lit "No API key configured"))],
          store)) ∧
    (∀ t1 t2 t3 clothesInfo apiResult e,
      GeminiAPIService.detectClothes env store imageSrc = (t1, .ok clothesInfo) →
      GeminiAPIService.generateTryOn env store imageSrc (some clothesInfo)
        = (t2, .ok apiResult) →
      GeminiAPIService.generateTryOnWithGemini env store apiResult.userPhoto
        apiResult.productImage apiResult.productClothes apiResult.userClothes
          = (t3, .error e) →
      handleTryOnClick env store imageSrc =
        (.showLoadingModal imageSrc :: t1 ++ t2 ++ (t3 ++
            (cacheStep env store (generateCacheKey imageSrc store.userPhoto)
              (failureArtifact apiResult)).1 ++ [.showResult (failureArtifact apiResult)]),
          (cacheStep env store (generateCacheKey imageSrc store.userPhoto)
            (failureArtifact apiResult)).2) ∧
      shownErrors (handleTryOnClick env store imageSrc).1 = [] ∧
      shownResults (handleTryOnClick env store imageSrc).1 = [failureArtifact apiResult]) := by
  refine ⟨?_, ?_, ?_, ?_⟩
  · intro t1 e h1 he
    have hrun := handleTryOnClick_detect_failed env store imageSrc t1 e hmiss h1 he
    have q1 : t1.all Event.isService = true := by
      have := detectClothes_service env store imageSrc
      rw [h1] at this
      exact this
    have tr := error_trace imageSrc t1 e q1
    rw [hrun]
    exact ⟨rfl, tr.1, tr.2.1⟩
  · intro t1 t2 clothesInfo e h1 h2 he
    have hrun := handleTryOnClick_analysis_failed env store imageSrc t1 t2 clothesInfo e
      hmiss h1 h2 he
    have q : (t1 ++ t2).all Event.isService = true := by
      have a1 := detectClothes_service env store imageSrc
      have a2 := generateTryOn_service env store imageSrc (some clothesInfo)
      rw [h1] at a1
      rw [h2] at a2
      rw [List.all_append, a1, a2]
      rfl
    have tr := error_trace imageSrc (t1 ++ t2) e q
    rw [hrun]
    exact ⟨rfl, tr.1, tr.2.1⟩
  · intro hkey
    have h1 : GeminiAPIService.detectClothes env store imageSrc =
        ([], .error (.error (lit "No API key configured"))) := by
      unfold GeminiAPIService.detectClothes
      rcases hkey with hk | hk <;> rw [hk]
    exact handleTryOnClick_detect_failed env store imageSrc [] _ hmiss h1 (by decide)
  · intro t1 t2 t3 clothesInfo apiResult e h1 h2 h3
    have h := handleTryOnClick_generation_failed env store imageSrc t1 t2 t3 clothesInfo
      apiResult e hmiss h1 h2 h3
    exact ⟨h.1, h.2.1, h.2.2.1⟩

/-- C13, amended, at an area without a credential: the run ends in `showError`
and the area is unchanged. -/
theorem handleTryOnClick_failure_paths_witness :
    handleTryOnClick upstreamErrorEnv emptyStore exampleProduct =
      ([.showLoadingModal exampleProduct, .showError (.error (lit "No API key configured"))],
        emptyStore) :=
  (handleTryOnClick_failure_paths upstreamErrorEnv emptyStore exampleProduct rfl).2.2.1
    (Or.inl rfl)

theorem get_none_of_no_cacheKeys (store : Store) (name : JSString)
    (hempty : store.cacheKeys = []) (hname : isCacheName name = true) :
    store.get name = none := by
  unfold Store.get
  rw [lookup_eq_none_iff]
  intro hmem
  have : name ∈ store.cacheKeys := List.mem_filter.mpr ⟨hmem, hname⟩
  rw [hempty] at this
  cases this

theorem getCachedResult_miss (store : Store) (cacheKey : JSString)
    (h : store.get (cacheName cacheKey) = none) :
    truthy (some (getCachedResult store cacheKey)) = false := by
  unfold getCachedResult
  rw [h]
  rfl

/-- A cache miss, both detections done, the generation message answered: the
artifact with the image goes through the caching step and is shown. -/
theorem handleTryOnClick_generation_done (env : Env) (store : Store) (imageSrc : JSString)
    (t1 t2 t3 : List Event) (clothesInfo : JSON) (apiResult : Analysis) (image : TryOnImage)
    (hmiss : truthy (some (getCachedResult store (generateCacheKey imageSrc store.userPhoto)))
      = false)
    (h1 : GeminiAPIService.detectClothes env store imageSrc = (t1, .ok clothesInfo))
    (h2 : GeminiAPIService.generateTryOn env store imageSrc (some clothesInfo)
      = (t2, .ok apiResult))
    (h3 : GeminiAPIService.generateTryOnWithGemini env store apiResult.userPhoto
      apiResult.productImage apiResult.productClothes apiResult.userClothes
        = (t3, .ok image)) :
    handleTryOnClick env store imageSrc =
      (.showLoadingModal imageSrc :: t1 ++ t2 ++ (t3 ++
          (cacheStep env store (generateCacheKey imageSrc store.userPhoto)
            (withGeneratedImage apiResult image.generatedImage)).1 ++
          [.showResult (withGeneratedImage apiResult image.generatedImage)]),
        (cacheStep env store (generateCacheKey imageSrc store.userPhoto)
          (withGeneratedImage apiResult image.generatedImage)).2) ∧
    shownErrors (handleTryOnClick env store imageSrc).1 = [] ∧
    shownResults (handleTryOnClick env store imageSrc).1 =
      [withGeneratedImage apiResult image.generatedImage] ∧
    providerStages (handleTryOnClick env store imageSrc).1 =
      [.detectProduct, .detectUser, .generate] ∧
    storageWrites (handleTryOnClick env store imageSrc).1 =
      storageWrites (cacheStep env store (generateCacheKey imageSrc store.userPhoto)
        (withGeneratedImage apiResult image.generatedImage)).1 ∧
    storedValues (handleTryOnClick env store imageSrc).1 =
      storedValues (cacheStep env store (generateCacheKey imageSrc store.userPhoto)
        (withGeneratedImage apiResult image.generatedImage)).1 ∧
    storageRemovals (handleTryOnClick env store imageSrc).1 =
      storageRemovals (cacheStep env store (generateCacheKey imageSrc store.userPhoto)
        (withGeneratedImage apiResult image.generatedImage)).1 := by
  have hrun := handleTryOnClick_analysed env store imageSrc t1 t2 clothesInfo apiResult
    hmiss h1 h2
  rw [generationStage_done env store apiResult t3 image
    (generateTryOn_needsGeneration _ _ _ _ _ _ h2) h3] at hrun
  simp only at hrun
  have q1 : t1.all Event.isService = true := by
    have := detectClothes_service env store imageSrc
    rw [h1] at this
    exact this
  have q2 : t2.all Event.isService = true := by
    have := generateTryOn_service env store imageSrc (some clothesInfo)
    rw [h2] at this
    exact this
  have q3 : t3.all Event.isService = true := by
    have := generateTryOnWithGemini_service env store apiResult.userPhoto
      apiResult.productImage apiResult.productClothes apiResult.userClothes
    rw [h3] at this
    exact this
  have tr := run_trace imageSrc t1 t2 t3 _ (withGeneratedImage apiResult image.generatedImage)
    q1 q2 q3 (cacheStep_storage env store (generateCacheKey imageSrc store.userPhoto)
      (withGeneratedImage apiResult image.generatedImage))
  rw [detectClothes_ok _ _ _ _ _ h1, generateTryOn_ok _ _ _ _ _ _ h2,
    (generateTryOnWithGemini_ok _ _ _ _ _ _ _ _ h3).1] at tr
  rw [hrun]
  exact ⟨rfl, tr.1, tr.2.1, tr.2.2.1, tr.2.2.2.1, tr.2.2.2.2.1, tr.2.2.2.2.2⟩

theorem ok_of_toOption {ε α : Type} (x : Except ε α) (a : α)
    (h : x.toOption = some a) : x = .ok a := by
  cases x with
  | error e => cases h
  | ok v =>
    simp only [Except.toOption, Option.some.injEq] at h
    rw [h]

/-- Once the product image is fetched and the prompt is built, the outcome of
`generateTryOnWithGemini` is what `generationResult` makes of the reply. -/
theorem generateTryOnWithGemini_snd (env : Env) (store : Store)
    (userPhoto productImageSrc : JSString) (productClothes : Option JSON) (userClothes : JSON)
    (hi : ∃ b, env.image productImageSrc = .ok b)
    (hp : ∃ p, tryOnPrompt productClothes = .ok p) :
    (GeminiAPIService.generateTryOnWithGemini env store userPhoto productImageSrc
      productClothes userClothes).2 = generationResult (env.reply .generate) := by
  obtain ⟨b, hb⟩ := hi
  obtain ⟨p, hp⟩ := hp
  unfold GeminiAPIService.generateTryOnWithGemini
  simp only [hb, hp]

theorem generationResult_inlineImage : generationResult (imageEnv.reply .generate) =
    .ok (imageResult (List.replicate 1200 65)) :=
  ok_of_toOption _ _ (by decide!)

/-- C14. With no cache entry stored, the three calls of the service worker
succeeding for the product (which needs the credential and the user photo to be
stored), room for the artifact under the budget and the write accepted: one run
of `handleTryOnClick` makes exactly the provider calls detect product, detect
user, generate, in this order, makes exactly one `set` call (the artifact under
the cache name) and no `remove` call, and shows the artifact; a second run for
the same product on the resulting area, whatever the environment then answers,
makes no provider call and no storage call and shows that same artifact. -/
theorem handleTryOnClick_call_count (env : Env) (store : Store) (imageSrc : JSString)
    (t1 t2 t3 : List Event) (clothesInfo : JSON) (apiResult : Analysis) (image : TryOnImage)
    (hempty : store.cacheKeys = [])
    (h1 : GeminiAPIService.detectClothes env store imageSrc = (t1, .ok clothesInfo))
    (h2 : GeminiAPIService.generateTryOn env store imageSrc (some clothesInfo)
      = (t2, .ok apiResult))
    (h3 : GeminiAPIService.generateTryOnWithGemini env store apiResult.userPhoto
      apiResult.productImage apiResult.productClothes apiResult.userClothes
        = (t3, .ok image))
    (hroom : getStorageUsage env store +
      (stringify (withGeneratedImage apiResult image.generatedImage)).length < 4 * 1024 * 1024)
    (hset : env.setError store (cacheName (generateCacheKey imageSrc store.userPhoto))
      (withGeneratedImage apiResult image.generatedImage) = none) :
    providerStages (handleTryOnClick env store imageSrc).1 =
      [.detectProduct, .detectUser, .generate] ∧
    storageWrites (handleTryOnClick env store imageSrc).1 =
      [cacheName (generateCacheKey imageSrc store.userPhoto)] ∧
    storedValues (handleTryOnClick env store imageSrc).1 =
      [withGeneratedImage apiResult image.generatedImage] ∧
    storageRemovals (handleTryOnClick env store imageSrc).1 = 0 ∧
    shownResults (handleTryOnClick env store imageSrc).1 =
      [withGeneratedImage apiResult image.generatedImage] ∧
    (handleTryOnClick env store imageSrc).2 =
      store.set (cacheName (generateCacheKey imageSrc store.userPhoto))
        (withGeneratedImage apiResult image.generatedImage) ∧
    ∀ env2, handleTryOnClick env2 (handleTryOnClick env store imageSrc).2 imageSrc =
      ([.showResult (withGeneratedImage apiResult image.generatedImage)],
        (handleTryOnClick env store imageSrc).2) := by
  have hmiss := getCachedResult_miss store (generateCacheKey imageSrc store.userPhoto)
    (get_none_of_no_cacheKeys store _ hempty (isCacheName_cacheName _))
  have h := handleTryOnClick_generation_done env store imageSrc t1 t2 t3 clothesInfo
    apiResult image hmiss h1 h2 h3
  have hc := (cacheStep_courses env store (generateCacheKey imageSrc store.userPhoto)
    (withGeneratedImage apiResult image.generatedImage)).1 hroom
  rw [hset] at hc
  have hstore : (handleTryOnClick env store imageSrc).2 =
      store.set (cacheName (generateCacheKey imageSrc store.userPhoto))
        (withGeneratedImage apiResult image.generatedImage) := by
    rw [h.1]
    exact hc.2.2
  refine ⟨h.2.2.2.1, ?_, ?_, ?_, h.2.2.1, hstore, ?_⟩
  · rw [h.2.2.2.2.1, hc.1]; rfl
  · rw [h.2.2.2.2.2.1, hc.1]; rfl
  · rw [h.2.2.2.2.2.2, hc.2.1]
  · intro env2
    rw [hstore]
    have hphoto : (store.set (cacheName (generateCacheKey imageSrc store.userPhoto))
        (withGeneratedImage apiResult image.generatedImage)).userPhoto = store.userPhoto := rfl
    have hget : getCachedResult
        (store.set (cacheName (generateCacheKey imageSrc store.userPhoto))
          (withGeneratedImage apiResult image.generatedImage))
        (generateCacheKey imageSrc store.userPhoto) =
          withGeneratedImage apiResult image.generatedImage := by
      unfold getCachedResult
      rw [Store.get_set_same]
      rfl
    have hhit := handleTryOnClick_hit env2
      (store.set (cacheName (generateCacheKey imageSrc store.userPhoto))
        (withGeneratedImage apiResult image.generatedImage)) imageSrc
    rw [hphoto, hget] at hhit
    exact hhit rfl

/-- C14, at a provider that answers the detections with a descriptor and the
generation with an image of 1200 characters. -/
theorem handleTryOnClick_call_count_witness :
    providerStages (handleTryOnClick imageEnv exampleStore exampleProduct).1 =
      [.detectProduct, .detectUser, .generate] ∧
    storageWrites (handleTryOnClick imageEnv exampleStore exampleProduct).1 =
      [cacheName (generateCacheKey exampleProduct exampleStore.userPhoto)] ∧
    ∀ env2, handleTryOnClick env2 (handleTryOnClick imageEnv exampleStore exampleProduct).2
        exampleProduct =
      ([.showResult (withGeneratedImage exampleAnalysis
          (imageResult (List.replicate 1200 65)).generatedImage)],
        (handleTryOnClick imageEnv exampleStore exampleProduct).2) :=
  have h := handleTryOnClick_call_count imageEnv exampleStore exampleProduct
    [.imageFetch exampleProduct,
      .providerCall .detectProduct (detectionRequest readClothesDetectionPrompt (lit "IMG"))]
    (GeminiAPIService.generateTryOn imageEnv exampleStore exampleProduct
      (some (descriptor (lit "shirt") (lit "blue")))).1
    (GeminiAPIService.generateTryOnWithGemini imageEnv exampleStore
      exampleAnalysis.userPhoto exampleAnalysis.productImage exampleAnalysis.productClothes
      exampleAnalysis.userClothes).1
    (descriptor (lit "shirt") (lit "blue")) exampleAnalysis
    (imageResult (List.replicate 1200 65)) rfl rfl rfl
    (Prod.ext rfl ((generateTryOnWithGemini_snd imageEnv exampleStore
      exampleAnalysis.userPhoto exampleAnalysis.productImage exampleAnalysis.productClothes
      exampleAnalysis.userClothes ⟨_, rfl⟩ ⟨_, rfl⟩).trans generationResult_inlineImage))
    (by decide!) rfl
  ⟨h.1, h.2.1, h.2.2.2.2.2.2⟩

/-! ## The artifacts of a run -/

theorem viaMessage_some {α : Type} (r : Except JSError α) (a : α)
    (h : viaMessage r = .ok (some a)) : r = .ok a := by
  cases r with
  | ok v =>
    simp only [viaMessage, Except.ok.injEq, Option.some.injEq] at h
    rw [h]
  | error e =>
    cases e with
    | typeError => cases h
    | error m =>
      cases m with
      | nil => cases h
      | cons c cs => cases h

theorem generationStage_service (env : Env) (store : Store) (apiResult : Analysis) :
    (generationStage env store apiResult).1.all Event.isService = true := by
  unfold generationStage
  split_ifs
  · have h := generateTryOnWithGemini_service env store apiResult.userPhoto
      apiResult.productImage apiResult.productClothes apiResult.userClothes
    simp only
    split <;> exact h
  · rfl

/-- The shapes of a run: a cache hit; an error shown, with the area unchanged;
or the analysis done, followed by the generation stage, the caching step and the
display of the final result. -/
theorem handleTryOnClick_shape (env : Env) (store : Store) (imageSrc : JSString) :
    (truthy (some (getCachedResult store (generateCacheKey imageSrc store.userPhoto))) = true ∧
      handleTryOnClick env store imageSrc =
        ([.showResult (getCachedResult store (generateCacheKey imageSrc store.userPhoto))],
          store)) ∨
    (∃ t e, t.all Event.isService = true ∧
      handleTryOnClick env store imageSrc =
        (.showLoadingModal imageSrc :: t ++ [.showError e], store)) ∨
    (truthy (some (getCachedResult store (generateCacheKey imageSrc store.userPhoto)))
        = false ∧
      ∃ t1 t2 info apiResult, t1.all Event.isService = true ∧
        GeminiAPIService.generateTryOn env store imageSrc info = (t2, .ok apiResult) ∧
        handleTryOnClick env store imageSrc =
          (.showLoadingModal imageSrc :: t1 ++ t2 ++
              ((generationStage env store apiResult).1 ++
                (cacheStep env store (generateCacheKey imageSrc store.userPhoto)
                  (generationStage env store apiResult).2).1 ++
                [.showResult (generationStage env store apiResult).2]),
            (cacheStep env store (generateCacheKey imageSrc store.userPhoto)
              (generationStage env store apiResult).2).2)) := by
  by_cases hhit : truthy (some (getCachedResult store
      (generateCacheKey imageSrc store.userPhoto))) = true
  · exact Or.inl ⟨hhit, handleTryOnClick_hit env store imageSrc hhit⟩
  · right
    have hmiss : truthy (some (getCachedResult store
        (generateCacheKey imageSrc store.userPhoto))) = false := by
      simpa using hhit
    have q1 := detectClothes_service env store imageSrc
    unfold handleTryOnClick
    simp only
    rw [if_neg hhit]
    rcases hd : GeminiAPIService.detectClothes env store imageSrc with ⟨events1, reply1⟩
    rw [hd] at q1
    simp only at q1 ⊢
    cases hv : viaMessage reply1 with
    | error e => exact Or.inl ⟨events1, e, q1, rfl⟩
    | ok info =>
      simp only
      have q2 := generateTryOn_service env store imageSrc info
      rcases hg : GeminiAPIService.generateTryOn env store imageSrc info with ⟨events2, reply2⟩
      rw [hg] at q2
      simp only at q2 ⊢
      have q12 : (events1 ++ events2).all Event.isService = true := by
        rw [List.all_append, q1, q2]
        rfl
      cases hv2 : viaMessage reply2 with
      | error e => exact Or.inl ⟨events1 ++ events2, e, q12, rfl⟩
      | ok o =>
        cases o with
        | none => exact Or.inl ⟨events1 ++ events2, .typeError, q12, rfl⟩
        | some apiResult =>
          have hr := viaMessage_some reply2 apiResult hv2
          rw [hr] at hg
          exact Or.inr ⟨hmiss, events1, events2, info, apiResult, q1, hg, rfl⟩
theorem cleanOldCache_storedValues (store : Store) :
    storedValues (cleanOldCache store).1 = [] := by
  unfold cleanOldCache
  simp only
  split_ifs <;> rfl

/-- The caching step hands nothing but the artifact to `set`. -/
theorem cacheStep_storedValues (env : Env) (store : Store) (k : JSString) (a x : JSON)
    (hx : x ∈ storedValues (cacheStep env store k a).1) : x = a := by
  have hq := cacheStep_courses env store k a
  by_cases h : getStorageUsage env store + (stringify a).length < 4 * 1024 * 1024
  · rw [(hq.1 h).1] at hx
    simpa [storedValues] using hx
  · by_cases h1 : getStorageUsage env (cleanOldCache store).2 + (stringify a).length
        < 4 * 1024 * 1024
    · rw [((hq.2 h).1 h1).1, storedValues_append, cleanOldCache_storedValues] at hx
      simpa [storedValues] using hx
    · rw [((hq.2 h).2 h1).1, cleanOldCache_storedValues] at hx
      cases hx

theorem cleanOldCache_get (store : Store) (name : JSString) (v : JSON)
    (h : (cleanOldCache store).2.get name = some v) : store.get name = some v := by
  unfold cleanOldCache at h
  simp only at h
  split_ifs at h
  · by_cases hn : name ∈ store.cacheKeys.take (store.cacheKeys.length - 3)
    · rw [Store.get_remove_dropped _ _ _ hn] at h
      cases h
    · rw [Store.get_remove_kept _ _ _ hn] at h
      exact h
  · exact h

theorem set_get (store : Store) (key name : JSString) (a v : JSON)
    (h : (store.set key a).get name = some v) : store.get name = some v ∨ v = a := by
  by_cases hn : name = key
  · subst hn
    rw [Store.get_set_same] at h
    simp only [Option.some.injEq] at h
    exact Or.inr h.symm
  · rw [Store.get_set_other _ _ _ _ hn] at h
    exact Or.inl h

/-- After the caching step the area holds values it held before, and the
artifact. -/
theorem cacheStep_get (env : Env) (store : Store) (k name : JSString) (a v : JSON)
    (h : (cacheStep env store k a).2.get name = some v) : store.get name = some v ∨ v = a := by
  have hq := cacheStep_courses env store k a
  by_cases h0 : getStorageUsage env store + (stringify a).length < 4 * 1024 * 1024
  · rw [(hq.1 h0).2.2] at h
    cases hs : env.setError store (cacheName k) a with
    | none => rw [hs] at h; exact set_get _ _ _ _ _ h
    | some m => rw [hs] at h; exact Or.inl h
  · by_cases h1 : getStorageUsage env (cleanOldCache store).2 + (stringify a).length
        < 4 * 1024 * 1024
    · rw [((hq.2 h0).1 h1).2] at h
      cases hs : env.setError (cleanOldCache store).2 (cacheName k) a with
      | none =>
        rw [hs] at h
        rcases set_get _ _ _ _ _ h with h2 | h2
        · exact Or.inl (cleanOldCache_get _ _ _ h2)
        · exact Or.inr h2
      | some m => rw [hs] at h; exact Or.inl (cleanOldCache_get _ _ _ h)
    · rw [((hq.2 h0).2 h1).1] at h
      exact Or.inl (cleanOldCache_get _ _ _ h)

/-- The final result of the generation stage after an analysis of
`generateTryOn`: it has an image exactly when the generation message returned
one, and without an image it has the fixed error. -/
theorem generationStage_paired (env : Env) (store : Store) (imageSrc : JSString)
    (info : Option JSON) (t2 : List Event) (apiResult : Analysis)
    (h2 : GeminiAPIService.generateTryOn env store imageSrc info = (t2, .ok apiResult)) :
    ∃ fields, (generationStage env store apiResult).2 = .obj fields ∧
      ((∃ image, (GeminiAPIService.generateTryOnWithGemini env store apiResult.userPhoto
          apiResult.productImage apiResult.productClothes apiResult.userClothes).2
            = .ok image) ↔ HasImage fields) ∧
      (LacksImage fields → HasError fields) := by
  have hneeds := generateTryOn_needsGeneration _ _ _ _ _ _ h2
  rcases hg : GeminiAPIService.generateTryOnWithGemini env store apiResult.userPhoto
      apiResult.productImage apiResult.productClothes apiResult.userClothes with ⟨t3, reply⟩
  cases reply with
  | ok image =>
    rw [generationStage_done env store apiResult t3 image hneeds hg]
    have hne := (generateTryOnWithGemini_ok _ _ _ _ _ _ _ _ hg).2
    have hl : lookup (lit "generatedImage")
        (defineProp apiResult.fields (lit "generatedImage") (.str image.generatedImage)) =
        some (.str image.generatedImage) := lookup_defineProp_same _ _ _
    refine ⟨_, rfl, ⟨fun _ => ⟨_, hne, hl⟩, fun _ => ⟨image, rfl⟩⟩, ?_⟩
    rintro (hn | hn)
    · rw [hl] at hn; cases hn
    · rw [hl] at hn; cases hn
  | error e =>
    rw [generationStage_failed env store apiResult t3 e hneeds hg]
    obtain ⟨fields, hf, hgi, herr, _⟩ := failureArtifact_fields apiResult
    refine ⟨fields, hf, ⟨?_, ?_⟩, fun _ => ⟨_, herr, fun h => JSON.noConfusion h⟩⟩
    · rintro ⟨image, hi⟩
      cases hi
    · rintro ⟨s, _, hs⟩
      rw [hgi] at hs
      cases hs
theorem getCachedResult_hit (store : Store) (cacheKey : JSString)
    (h : truthy (some (getCachedResult store cacheKey)) = true) :
    store.get (cacheName cacheKey) = some (getCachedResult store cacheKey) := by
  unfold getCachedResult at h ⊢
  cases hg : store.get (cacheName cacheKey) with
  | none => rw [hg] at h; cases h
  | some v =>
    rw [hg] at h
    simp only at h ⊢
    by_cases ht : truthy (some v) = true
    · rw [if_pos ht]
    · rw [if_neg ht] at h
      cases h

/-- C15. In an area whose cached values are paired (an object that, when its
`generatedImage` is absent or `null`, has a non-null `error`), every value a
run of `handleTryOnClick` shows or hands to `set` is paired; on a cache hit it
is the stored value; on a miss it is the final result of the generation stage
after an analysis, and its `generatedImage` is a non-empty string exactly when
the generation message returned an image. The cached values of the area after
the run are paired again. -/
theorem handleTryOnClick_artifact_invariant (env : Env) (store : Store) (imageSrc : JSString)
    (hinv : ∀ name v, isCacheName name = true → store.get name = some v → Paired v) :
    (∀ a, a ∈ shownResults (handleTryOnClick env store imageSrc).1 ∨
        a ∈ storedValues (handleTryOnClick env store imageSrc).1 →
      Paired a ∧
      ((truthy (some (getCachedResult store (generateCacheKey imageSrc store.userPhoto)))
          = true ∧
        a = getCachedResult store (generateCacheKey imageSrc store.userPhoto)) ∨
      (truthy (some (getCachedResult store (generateCacheKey imageSrc store.userPhoto)))
          = false ∧
        ∃ t2 info apiResult fields,
          GeminiAPIService.generateTryOn env store imageSrc info = (t2, .ok apiResult) ∧
          a = .obj fields ∧
          ((∃ image, (GeminiAPIService.generateTryOnWithGemini env store apiResult.userPhoto
              apiResult.productImage apiResult.productClothes apiResult.userClothes).2
                = .ok image) ↔ HasImage fields) ∧
          (LacksImage fields → HasError fields)))) ∧
    (∀ name v, isCacheName name = true →
      (handleTryOnClick env store imageSrc).2.get name = some v → Paired v) := by
  rcases handleTryOnClick_shape env store imageSrc with
    ⟨hhit, hrun⟩ | ⟨t, e, ht, hrun⟩ | ⟨hmiss, t1, t2, info, apiResult, q1, h2, hrun⟩
  · rw [hrun]
    refine ⟨?_, fun name v hn hv => hinv name v hn hv⟩
    intro a ha
    have hcached : a = getCachedResult store (generateCacheKey imageSrc store.userPhoto) := by
      rcases ha with ha | ha
      · simpa [shownResults] using ha
      · simp [storedValues] at ha
    exact ⟨hcached ▸ hinv _ _ (isCacheName_cacheName _) (getCachedResult_hit store _ hhit),
      Or.inl ⟨hhit, hcached⟩⟩
  · rw [hrun]
    refine ⟨?_, fun name v hn hv => hinv name v hn hv⟩
    intro a ha
    have s := service_trace t ht
    have e1 : (.showLoadingModal imageSrc :: t ++ [.showError e]) =
        [.showLoadingModal imageSrc] ++ (t ++ [.showError e]) := rfl
    simp only at ha
    rw [e1, shownResults_append, shownResults_append, storedValues_append,
      storedValues_append, s.2.1, s.2.2.1] at ha
    rcases ha with ha | ha
    · simp [shownResults] at ha
    · simp [storedValues] at ha
  · have q2 : t2.all Event.isService = true := by
      have := generateTryOn_service env store imageSrc info
      rw [h2] at this
      exact this
    have tr := run_trace imageSrc t1 t2 _ _ (generationStage env store apiResult).2 q1 q2
      (generationStage_service env store apiResult)
      (cacheStep_storage env store (generateCacheKey imageSrc store.userPhoto)
        (generationStage env store apiResult).2)
    obtain ⟨fields, hf, hiff, hle⟩ := generationStage_paired env store imageSrc info t2
      apiResult h2
    rw [hrun]
    refine ⟨?_, ?_⟩
    · intro a ha
      simp only at ha
      rw [tr.2.1, tr.2.2.2.2.1] at ha
      have hfinal : a = (generationStage env store apiResult).2 := by
        rcases ha with ha | ha
        · simpa using ha
        · exact cacheStep_storedValues _ _ _ _ _ ha
      rw [hfinal]
      exact ⟨⟨fields, hf, hle⟩, Or.inr ⟨hmiss, t2, info, apiResult, fields, h2, hf, hiff, hle⟩⟩
    · intro name v hn hv
      rcases cacheStep_get _ _ _ _ _ _ hv with h | h
      · exact hinv name v hn h
      · rw [h]
        exact ⟨fields, hf, hle⟩

/-- C15, at a run that generates an image on an area without cache entries: the
artifact it shows is paired. -/
theorem handleTryOnClick_artifact_invariant_witness :
    Paired (withGeneratedImage exampleAnalysis
      (imageResult (List.replicate 1200 65)).generatedImage) :=
  ((handleTryOnClick_artifact_invariant imageEnv exampleStore exampleProduct
    (fun _ v _ h => nomatch (show (none : Option JSON) = some v from h))).1
    (withGeneratedImage exampleAnalysis (imageResult (List.replicate 1200 65)).generatedImage)
    (Or.inl (by
      rw [(handleTryOnClick_generation_done imageEnv exampleStore exampleProduct
        [.imageFetch exampleProduct,
          .providerCall .detectProduct
            (detectionRequest readClothesDetectionPrompt (lit "IMG"))]
        (GeminiAPIService.generateTryOn imageEnv exampleStore exampleProduct
          (some (descriptor (lit "shirt") (lit "blue")))).1
        (GeminiAPIService.generateTryOnWithGemini imageEnv exampleStore
          exampleAnalysis.userPhoto exampleAnalysis.productImage
          exampleAnalysis.productClothes exampleAnalysis.userClothes).1
        (descriptor (lit "shirt") (lit "blue")) exampleAnalysis
        (imageResult (List.replicate 1200 65)) rfl rfl rfl
        (Prod.ext rfl ((generateTryOnWithGemini_snd imageEnv exampleStore
          exampleAnalysis.userPhoto exampleAnalysis.productImage
          exampleAnalysis.productClothes exampleAnalysis.userClothes
          ⟨_, rfl⟩ ⟨_, rfl⟩).trans generationResult_inlineImage))).2.2.1]
      exact List.mem_singleton.mpr rfl))).1

/-! ## Frames of the removals -/

theorem Store.remove_sublist (store : Store) (names : List JSString) :
    List.Sublist (store.remove names).entries store.entries :=
  List.filter_sublist _

theorem Store.get_remove_some (store : Store) (names : List JSString) (name : JSString)
    (v : JSON) (h : (store.remove names).get name = some v) : store.get name = some v := by
  by_cases hn : name ∈ names
  · rw [Store.get_remove_dropped _ _ _ hn] at h
    cases h
  · rw [Store.get_remove_kept _ _ _ hn] at h
    exact h

theorem cacheKeys_isCacheName (store : Store) (name : JSString)
    (h : name ∈ store.cacheKeys) : isCacheName name = true :=
  (List.mem_filter.mp h).2

/-- The frame of an eviction that keeps `keep` cache names. -/
theorem eviction_frame (store : Store) (keep : Nat) (result : List Event × Store)
    (hresult : result =
      if store.cacheKeys.length > keep then
        ([.storageRemove (store.cacheKeys.take (store.cacheKeys.length - keep))],
          store.remove (store.cacheKeys.take (store.cacheKeys.length - keep)))
      else ([], store)) :
    result.2.geminiApiKey = store.geminiApiKey ∧
    result.2.userPhoto = store.userPhoto ∧
    (∀ name, isCacheName name = false → result.2.get name = store.get name) ∧
    (∀ name v, result.2.get name = some v → store.get name = some v) ∧
    (∀ names, Event.storageRemove names ∈ result.1 →
      ∀ name ∈ names, isCacheName name = true) ∧
    storageWrites result.1 = [] ∧
    List.Sublist result.2.entries store.entries := by
  rw [hresult]
  split_ifs with h
  · refine ⟨rfl, rfl, ?_, ?_, ?_, rfl, Store.remove_sublist _ _⟩
    · intro name hn
      apply Store.get_remove_kept
      intro hmem
      have := cacheKeys_isCacheName store name (List.mem_of_mem_take hmem)
      rw [hn] at this
      cases this
    · intro name v hv
      exact Store.get_remove_some _ _ _ _ hv
    · intro names hmem name hname
      simp only [List.mem_singleton, Event.storageRemove.injEq] at hmem
      rw [hmem] at hname
      exact cacheKeys_isCacheName store name (List.mem_of_mem_take hname)
  · refine ⟨rfl, rfl, fun _ _ => rfl, fun _ _ hv => hv, ?_, rfl, List.Sublist.refl _⟩
    intro names hmem
    cases hmem

/-- C27. `cleanOldCache` and `CacheManager.clearOldCache` pass to `remove` only
names that start with `cache_`, and write nothing: the credential and the user
photo stay as they are, every name that does not start with `cache_` (the
`firstRun` flag is one) keeps its entry and value, every entry found afterwards
was there before with the same value, and the entries left are the former ones
in their order. -/
theorem cleanOldCache_frame (store : Store) :
    ((cleanOldCache store).2.geminiApiKey = store.geminiApiKey ∧
      (cleanOldCache store).2.userPhoto = store.userPhoto ∧
      (∀ name, isCacheName name = false →
        (cleanOldCache store).2.get name = store.get name) ∧
      (∀ name v, (cleanOldCache store).2.get name = some v → store.get name = some v) ∧
      (∀ names, Event.storageRemove names ∈ (cleanOldCache store).1 →
        ∀ name ∈ names, isCacheName name = true) ∧
      storageWrites (cleanOldCache store).1 = [] ∧
      List.Sublist (cleanOldCache store).2.entries store.entries) ∧
    ((CacheManager.clearOldCache store).2.geminiApiKey = store.geminiApiKey ∧
      (CacheManager.clearOldCache store).2.userPhoto = store.userPhoto ∧
      (∀ name, isCacheName name = false →
        (CacheManager.clearOldCache store).2.get name = store.get name) ∧
      (∀ name v, (CacheManager.clearOldCache store).2.get name = some v →
        store.get name = some v) ∧
      (∀ names, Event.storageRemove names ∈ (CacheManager.clearOldCache store).1 →
        ∀ name ∈ names, isCacheName name = true) ∧
      storageWrites (CacheManager.clearOldCache store).1 = [] ∧
      List.Sublist (CacheManager.clearOldCache store).2.entries store.entries) ∧
    isCacheName (lit "firstRun") = false ∧ isCacheName (lit "geminiApiKey") = false ∧
    isCacheName (lit "userPhoto") = false := by
  refine ⟨eviction_frame store 3 _ ?_, eviction_frame store 5 _ ?_, by decide, by decide,
    by decide⟩
  · unfold cleanOldCache
    rfl
  · unfold CacheManager.clearOldCache
    rfl
/-- On a cache miss the run starts with the loading modal and the effects of
`detectClothes`. -/
theorem handleTryOnClick_miss_start (env : Env) (store : Store) (imageSrc : JSString)
    (hmiss : truthy (some (getCachedResult store (generateCacheKey imageSrc store.userPhoto)))
      = false) :
    ∃ rest, (handleTryOnClick env store imageSrc).1 =
      .showLoadingModal imageSrc :: (GeminiAPIService.detectClothes env store imageSrc).1 ++
        rest := by
  unfold handleTryOnClick
  simp only
  rw [if_neg (by rw [hmiss]; simp)]
  rcases GeminiAPIService.detectClothes env store imageSrc with ⟨events1, reply1⟩
  simp only
  cases viaMessage reply1 with
  | error e => exact ⟨_, rfl⟩
  | ok info =>
    simp only
    rcases GeminiAPIService.generateTryOn env store imageSrc info with ⟨events2, reply2⟩
    simp only
    cases viaMessage reply2 with
    | error e => exact ⟨events2 ++ [.showError e], by simp⟩
    | ok o =>
      cases o with
      | none => exact ⟨events2 ++ [.showError .typeError], by simp⟩
      | some apiResult =>
        exact ⟨events2 ++ (generateAndShow env store
          (generateCacheKey imageSrc store.userPhoto) apiResult).1, by simp⟩

/-- C21. After `clearCache(k)`, whose one effect is the removal of the name
`cache_` + k, `getCachedResult(k)` is `null`; the credential, the user photo
and the entry of every other name are as before. A run of `handleTryOnClick`
for the product and user photo of the key then misses the cache: it shows no
cached value, it starts with the loading modal and the effects of
`detectClothes`, which are those on the area before the removal, and when the
three calls of the service worker succeed it makes the three provider calls. -/
theorem clearCache_invalidates (env : Env) (store : Store) (k imageSrc : JSString) :
    (clearCache store k).1 = [.storageRemove [cacheName k]] ∧
    getCachedResult (clearCache store k).2 k = .null ∧
    (clearCache store k).2.geminiApiKey = store.geminiApiKey ∧
    (clearCache store k).2.userPhoto = store.userPhoto ∧
    (∀ name, name ≠ cacheName k → (clearCache store k).2.get name = store.get name) ∧
    truthy (some (getCachedResult
      (clearCache store (generateCacheKey imageSrc store.userPhoto)).2
      (generateCacheKey imageSrc
        (clearCache store (generateCacheKey imageSrc store.userPhoto)).2.userPhoto))) = false ∧
    GeminiAPIService.detectClothes env
        (clearCache store (generateCacheKey imageSrc store.userPhoto)).2 imageSrc =
      GeminiAPIService.detectClothes env store imageSrc ∧
    (∃ rest, (handleTryOnClick env
        (clearCache store (generateCacheKey imageSrc store.userPhoto)).2 imageSrc).1 =
      .showLoadingModal imageSrc :: (GeminiAPIService.detectClothes env store imageSrc).1 ++
        rest) ∧
    (∀ t1 t2 t3 clothesInfo apiResult image,
      GeminiAPIService.detectClothes env
        (clearCache store (generateCacheKey imageSrc store.userPhoto)).2 imageSrc
          = (t1, .ok clothesInfo) →
      GeminiAPIService.generateTryOn env
        (clearCache store (generateCacheKey imageSrc store.userPhoto)).2 imageSrc
          (some clothesInfo) = (t2, .ok apiResult) →
      GeminiAPIService.generateTryOnWithGemini env
        (clearCache store (generateCacheKey imageSrc store.userPhoto)).2 apiResult.userPhoto
          apiResult.productImage apiResult.productClothes apiResult.userClothes
            = (t3, .ok image) →
      providerStages (handleTryOnClick env
        (clearCache store (generateCacheKey imageSrc store.userPhoto)).2 imageSrc).1 =
          [.detectProduct, .detectUser, .generate]) := by
  have hnone : ∀ j, (clearCache store j).2.get (cacheName j) = none := by
    intro j
    unfold clearCache
    exact Store.get_remove_dropped _ _ _ (List.mem_singleton.mpr rfl)
  have hmiss : truthy (some (getCachedResult
      (clearCache store (generateCacheKey imageSrc store.userPhoto)).2
      (generateCacheKey imageSrc
        (clearCache store (generateCacheKey imageSrc store.userPhoto)).2.userPhoto))) = false :=
    getCachedResult_miss _ _ (hnone _)
  have hdetect : GeminiAPIService.detectClothes env
      (clearCache store (generateCacheKey imageSrc store.userPhoto)).2 imageSrc =
      GeminiAPIService.detectClothes env store imageSrc := rfl
  refine ⟨rfl, ?_, rfl, rfl, ?_, hmiss, hdetect, ?_, ?_⟩
  · unfold getCachedResult
    rw [hnone]
  · intro name hn
    unfold clearCache
    apply Store.get_remove_kept
    intro hmem
    exact hn (List.mem_singleton.mp hmem)
  · rw [← hdetect]
    exact handleTryOnClick_miss_start env _ imageSrc hmiss
  · intro t1 t2 t3 clothesInfo apiResult image h1 h2 h3
    exact (handleTryOnClick_generation_done env _ imageSrc t1 t2 t3 clothesInfo apiResult
      image hmiss h1 h2 h3).2.2.2.1

/-! ## The shape of a hash -/

theorem digit36_isBase36Digit (d : Nat) (h : d < 36) : isBase36Digit (digit36 d) = true := by
  unfold isBase36Digit digit36
  split_ifs with h10
  · simp only [Bool.or_eq_true, Bool.and_eq_true, decide_eq_true_eq]
    left
    omega
  · simp only [Bool.or_eq_true, Bool.and_eq_true, decide_eq_true_eq]
    right
    omega

theorem toDigits36_digits (fuel : Nat) : ∀ (n : Nat) (acc : JSString),
    (∀ c ∈ acc, isBase36Digit c = true) →
    ∀ c ∈ toDigits36 fuel n acc, isBase36Digit c = true := by
  induction fuel with
  | zero => intro n acc h; simpa [toDigits36] using h
  | succ k ih =>
    intro n acc h
    have hacc : ∀ c ∈ digit36 (n % 36) :: acc, isBase36Digit c = true := by
      intro c hc
      rcases List.mem_cons.mp hc with hc | hc
      · rw [hc]
        exact digit36_isBase36Digit _ (Nat.mod_lt _ (by decide))
      · exact h c hc
    unfold toDigits36
    simp only []
    split_ifs
    · exact hacc
    · exact ih _ _ hacc

theorem toDigits36_ne_nil (fuel : Nat) : ∀ (n : Nat) (acc : JSString),
    toDigits36 (fuel + 1) n acc ≠ [] := by
  induction fuel with
  | zero =>
    intro n acc
    simp [toDigits36]
  | succ k ih =>
    intro n acc
    unfold toDigits36
    simp only []
    split_ifs
    · simp
    · exact ih _ _

/-- C28. For every string `s`, `simpleHash(s)` is a non-empty run of characters
from `0`-`9`, `a`-`z`, with or without a `-` before it, and holds no `_`; and
two cache keys are equal exactly when the hashes of the two product references
are equal and the hashes of the two user photos (an absent photo counting as
the empty string) are equal. -/
theorem simpleHash_shape_and_key_split :
    (∀ s : JSString, ∃ digits, digits ≠ [] ∧ (∀ c ∈ digits, isBase36Digit c = true) ∧
      (simpleHash s = digits ∨ simpleHash s = 45 :: digits) ∧ 95 ∉ simpleHash s) ∧
    (∀ (p p' : JSString) (u u' : Option JSString),
      generateCacheKey p u = generateCacheKey p' u' ↔
        simpleHash p = simpleHash p' ∧
          simpleHash (u.getD []) = simpleHash (u'.getD [])) := by
  refine ⟨?_, ?_⟩
  · intro s
    refine ⟨toDigits36 ((hashLoop s).natAbs + 1) (hashLoop s).natAbs [],
      toDigits36_ne_nil _ _ _, toDigits36_digits _ _ _ (by simp), ?_,
      simpleHash_no_underscore s⟩
    unfold simpleHash toString36
    split_ifs
    · exact Or.inr rfl
    · exact Or.inl rfl
  · intro p p' u u'
    rw [generateCacheKey_unfold, generateCacheKey_unfold]
    constructor
    · intro e
      exact append_sep_inj _ _ _ _ (simpleHash_no_underscore p)
        (simpleHash_no_underscore p') e
    · rintro ⟨e1, e2⟩
      rw [e1, e2]
/-! ## The key inside an artifact -/

theorem cleanOldCache_storageWrites (store : Store) :
    storageWrites (cleanOldCache store).1 = [] := by
  unfold cleanOldCache
  simp only
  split_ifs <;> rfl

/-- The caching step writes under no name but `cache_` + key. -/
theorem cacheStep_storageWrites (env : Env) (store : Store) (k name : JSString) (a : JSON)
    (hx : name ∈ storageWrites (cacheStep env store k a).1) : name = cacheName k := by
  have hq := cacheStep_courses env store k a
  by_cases h : getStorageUsage env store + (stringify a).length < 4 * 1024 * 1024
  · rw [(hq.1 h).1] at hx
    simpa [storageWrites] using hx
  · by_cases h1 : getStorageUsage env (cleanOldCache store).2 + (stringify a).length
        < 4 * 1024 * 1024
    · rw [((hq.2 h).1 h1).1, storageWrites_append, cleanOldCache_storageWrites] at hx
      simpa [storageWrites] using hx
    · rw [((hq.2 h).2 h1).2] at hx
      cases hx

theorem generateTryOn_cacheKey (env : Env) (store : Store) (imageSrc : JSString)
    (info : Option JSON) (t2 : List Event) (apiResult : Analysis)
    (h : GeminiAPIService.generateTryOn env store imageSrc info = (t2, .ok apiResult)) :
    apiResult.cacheKey = GeminiAPIService.generateCacheKey imageSrc store.userPhoto := by
  unfold GeminiAPIService.generateTryOn at h
  split at h
  · split at h
    · cases h
    · simp only [Prod.mk.injEq, Except.ok.injEq] at h
      rw [← h.2]
  · cases h

theorem lookup_cacheKey_fields (a : Analysis) :
    lookup (lit "cacheKey") a.fields = some (.str a.cacheKey) := by
  unfold Analysis.fields
  cases a.productClothes <;> rfl

/-- The final result of the generation stage carries the `cacheKey` of the
analysis. -/
theorem generationStage_cacheKey (env : Env) (store : Store) (apiResult : Analysis) :
    ∃ fields, (generationStage env store apiResult).2 = .obj fields ∧
      lookup (lit "cacheKey") fields = some (.str apiResult.cacheKey) := by
  have hw : ∀ image : JSString, ∃ fields,
      withGeneratedImage apiResult image = .obj fields ∧
        lookup (lit "cacheKey") fields = some (.str apiResult.cacheKey) := by
    intro image
    refine ⟨_, rfl, ?_⟩
    rw [lookup_defineProp_other _ _ _ _ (by decide)]
    exact lookup_cacheKey_fields apiResult
  have hf : ∃ fields, failureArtifact apiResult = .obj fields ∧
      lookup (lit "cacheKey") fields = some (.str apiResult.cacheKey) := by
    refine ⟨_, rfl, ?_⟩
    rw [lookup_defineProp_other _ _ _ _ (by decide),
      lookup_defineProp_other _ _ _ _ (by decide)]
    exact lookup_cacheKey_fields apiResult
  unfold generationStage
  split_ifs
  · simp only
    split
    · exact hw _
    · exact hf
    · exact hf
  · exact ⟨_, rfl, lookup_cacheKey_fields apiResult⟩

/-- C29. The three copies of `generateCacheKey` (service worker,
`BaseTryOnConnector`, `UniversalTryOn`) return the same string for every
product reference and stored user photo. So the `cacheKey` of an analysis that
`generateTryOn` returns, which the final result of the generation stage
carries on, is the key under which the caching step of `handleTryOnClick`
writes, and `clearCache` of it removes the name of that entry and no other. -/
theorem cacheKey_copies_agree (env : Env) (store : Store) (imageSrc : JSString)
    (info : Option JSON) (t2 : List Event) (apiResult : Analysis)
    (h2 : GeminiAPIService.generateTryOn env store imageSrc info = (t2, .ok apiResult)) :
    (∀ p u, GeminiAPIService.generateCacheKey p u = generateCacheKey p u ∧
      UniversalTryOn.generateCacheKey p u = generateCacheKey p u) ∧
    apiResult.cacheKey = generateCacheKey imageSrc store.userPhoto ∧
    (∃ fields, (generationStage env store apiResult).2 = .obj fields ∧
      lookup (lit "cacheKey") fields =
        some (.str (generateCacheKey imageSrc store.userPhoto))) ∧
    (∀ a name, name ∈ storageWrites
        (cacheStep env store (generateCacheKey imageSrc store.userPhoto) a).1 →
      name = cacheName apiResult.cacheKey) ∧
    (∀ s : Store,
      (clearCache s apiResult.cacheKey).1 =
        [.storageRemove [cacheName (generateCacheKey imageSrc store.userPhoto)]] ∧
      (clearCache s apiResult.cacheKey).2.get
        (cacheName (generateCacheKey imageSrc store.userPhoto)) = none ∧
      ∀ name, name ≠ cacheName (generateCacheKey imageSrc store.userPhoto) →
        (clearCache s apiResult.cacheKey).2.get name = s.get name) := by
  have hkey : apiResult.cacheKey = generateCacheKey imageSrc store.userPhoto :=
    generateTryOn_cacheKey env store imageSrc info t2 apiResult h2
  refine ⟨fun p u => ⟨rfl, rfl⟩, hkey, ?_, ?_, ?_⟩
  · rw [← hkey]
    exact generationStage_cacheKey env store apiResult
  · intro a name hname
    rw [hkey]
    exact cacheStep_storageWrites env store _ name a hname
  · intro s
    rw [hkey]
    refine ⟨rfl, ?_, ?_⟩
    · unfold clearCache
      exact Store.get_remove_dropped _ _ _ (List.mem_singleton.mpr rfl)
    · intro name hn
      unfold clearCache
      apply Store.get_remove_kept
      intro hmem
      exact hn (List.mem_singleton.mp hmem)

/-- C29, at the analysis of the example product: its `cacheKey` is the key of
the content script, and clearing it on the area after a run removes the entry
that run stored. -/
theorem cacheKey_copies_agree_witness :
    exampleAnalysis.cacheKey = generateCacheKey exampleProduct exampleStore.userPhoto ∧
    (clearCache (handleTryOnClick imageEnv exampleStore exampleProduct).2
      exampleAnalysis.cacheKey).2.get
        (cacheName (generateCacheKey exampleProduct exampleStore.userPhoto)) = none :=
  have h := cacheKey_copies_agree imageEnv exampleStore exampleProduct
    (some (descriptor (lit "shirt") (lit "blue")))
    (GeminiAPIService.generateTryOn imageEnv exampleStore exampleProduct
      (some (descriptor (lit "shirt") (lit "blue")))).1
    exampleAnalysis rfl
  ⟨h.2.1, ((h.2.2.2.2) (handleTryOnClick imageEnv exampleStore exampleProduct).2).2.1⟩

/-! ## The credential check -/

mutual
/-- `ToString` throws nothing but a `TypeError`. -/
theorem toStr_error : ∀ (v : JSON) (e : JSError), toStr v = .error e → e = .typeError
  | .null, e, h => by simp [toStr] at h
  | .bool true, e, h => by simp [toStr] at h
  | .bool false, e, h => by simp [toStr] at h
  | .num _, e, h => by simp [toStr] at h
  | .str _, e, h => by simp [toStr] at h
  | .arr items, e, h => joinItems_error items e (by simpa [toStr] using h)
  | .obj fields, e, h => by
    simp only [toStr] at h
    split at h
    · simp only [Except.error.injEq] at h
      exact h.symm
    · cases h
/-- `join` throws nothing but a `TypeError`. -/
theorem joinItems_error : ∀ (items : List JSON) (e : JSError),
    joinItems items = .error e → e = .typeError
  | [], e, h => by simp [joinItems] at h
  | [x], e, h => by
    cases x with
    | null => simp [joinItems] at h
    | bool b => exact toStr_error (.bool b) e (by simpa [joinItems] using h)
    | num t => exact toStr_error (.num t) e (by simpa [joinItems] using h)
    | str s => exact toStr_error (.str s) e (by simpa [joinItems] using h)
    | arr l => exact toStr_error (.arr l) e (by simpa [joinItems] using h)
    | obj f => exact toStr_error (.obj f) e (by simpa [joinItems] using h)
  | x :: y :: rest, e, h => by
    cases x with
    | null =>
      simp only [joinItems] at h
      split at h
      · cases h
      · rename_i e' he
        simp only [Except.error.injEq] at h
        rw [← h]
        exact joinItems_error (y :: rest) e' he
    | bool b =>
      simp only [joinItems] at h
      split at h
      · rename_i e1 he
        simp only [Except.error.injEq] at h
        rw [← h]
        exact toStr_error (.bool b) e1 he
      · split at h
        · cases h
        · rename_i e1 he
          simp only [Except.error.injEq] at h
          rw [← h]
          exact joinItems_error (y :: rest) e1 he
    | num t =>
      simp only [joinItems] at h
      split at h
      · rename_i e1 he
        simp only [Except.error.injEq] at h
        rw [← h]
        exact toStr_error (.num t) e1 he
      · split at h
        · cases h
        · rename_i e1 he
          simp only [Except.error.injEq] at h
          rw [← h]
          exact joinItems_error (y :: rest) e1 he
    | str s =>
      simp only [joinItems] at h
      split at h
      · rename_i e1 he
        simp only [Except.error.injEq] at h
        rw [← h]
        exact toStr_error (.str s) e1 he
      · split at h
        · cases h
        · rename_i e1 he
          simp only [Except.error.injEq] at h
          rw [← h]
          exact joinItems_error (y :: rest) e1 he
    | arr l =>
      simp only [joinItems] at h
      split at h
      · rename_i e1 he
        simp only [Except.error.injEq] at h
        rw [← h]
        exact toStr_error (.arr l) e1 he
      · split at h
        · cases h
        · rename_i e1 he
          simp only [Except.error.injEq] at h
          rw [← h]
          exact joinItems_error (y :: rest) e1 he
    | obj f =>
      simp only [joinItems] at h
      split at h
      · rename_i e1 he
        simp only [Except.error.injEq] at h
        rw [← h]
        exact toStr_error (.obj f) e1 he
      · split at h
        · cases h
        · rename_i e1 he
          simp only [Except.error.injEq] at h
          rw [← h]
          exact joinItems_error (y :: rest) e1 he
end
theorem getProp_error (v : Option JSON) (key : JSString) (e : JSError)
    (h : getProp v key = .error e) : e = .typeError := by
  unfold getProp at h
  split at h
  · simp only [Except.error.injEq] at h
    exact h.symm
  · simp only [Except.error.injEq] at h
    exact h.symm
  · cases h
  · cases h

theorem toStringOf_error (v : Option JSON) (e : JSError)
    (h : toStringOf v = .error e) : e = .typeError := by
  cases v with
  | none => cases h
  | some w => exact toStr_error w e h

/-- Building the user-detection prompt throws nothing but a `TypeError`. -/
theorem buildUserClothesDetectionPrompt_error (info : Option JSON) (e : JSError)
    (h : buildUserClothesDetectionPrompt info = .error e) : e = .typeError := by
  unfold buildUserClothesDetectionPrompt at h
  split at h
  · rename_i e1 he
    simp only [Except.error.injEq] at h
    rw [← h]
    exact getProp_error _ _ _ he
  · split at h
    · rename_i e1 he
      simp only [Except.error.injEq] at h
      rw [← h]
      exact toStringOf_error _ _ he
    · split at h
      · rename_i e1 he
        simp only [Except.error.injEq] at h
        rw [← h]
        exact getProp_error _ _ _ he
      · split at h
        · rename_i e1 he
          simp only [Except.error.injEq] at h
          rw [← h]
          exact toStringOf_error _ _ he
        · cases h

/-- Building the try-on prompt throws nothing but a `TypeError`. -/
theorem tryOnPrompt_error (productClothes : Option JSON) (e : JSError)
    (h : tryOnPrompt productClothes = .error e) : e = .typeError := by
  unfold tryOnPrompt at h
  split at h
  · rename_i e1 he
    simp only [Except.error.injEq] at h
    rw [← h]
    exact getProp_error _ _ _ he
  · split at h
    · rename_i e1 he
      simp only [Except.error.injEq] at h
      rw [← h]
      exact toStringOf_error _ _ he
    · split at h
      · rename_i e1 he
        simp only [Except.error.injEq] at h
        rw [← h]
        exact getProp_error _ _ _ he
      · split at h
        · rename_i e1 he
          simp only [Except.error.injEq] at h
          rw [← h]
          exact toStringOf_error _ _ he
        · cases h

/-- What a detection call makes of a reply is the fixed credential error only
when the provider call was rejected with it. -/
theorem detectionResult_message (errorHead : JSString) (parse : JSString → JSON)
    (reply : ProviderReply) (hhead : ∀ text, errorHead ++ text ≠ lit "No API key configured")
    (h : detectionResult errorHead parse reply =
      .error (.error (lit "No API key configured"))) :
    reply = .rejected (.error (lit "No API key configured")) := by
  unfold detectionResult at h
  split at h
  · simp only [Except.error.injEq] at h
    rw [h]
  · simp only [Except.error.injEq, JSError.error.injEq] at h
    exact absurd h (hhead _)
  · split at h
    · rename_i e he
      unfold responseText at he
      have key : e = .typeError := by
        split at he
        · simp only [Except.error.injEq] at he
          rw [← he]
          exact getProp_error _ _ _ (by assumption)
        · split at he
          · rename_i e1 h1
            simp only [Except.error.injEq] at he
            rw [← he]
            unfold getIndex0 at h1
            split at h1
            · simp only [Except.error.injEq] at h1
              exact h1.symm
            · simp only [Except.error.injEq] at h1
              exact h1.symm
            · cases h1
          · split at he
            · simp only [Except.error.injEq] at he
              rw [← he]
              exact getProp_error _ _ _ (by assumption)
            · split at he
              · simp only [Except.error.injEq] at he
                rw [← he]
                exact getProp_error _ _ _ (by assumption)
              · split at he
                · rename_i e1 h1
                  simp only [Except.error.injEq] at he
                  rw [← he]
                  unfold getIndex0 at h1
                  split at h1
                  · simp only [Except.error.injEq] at h1
                    exact h1.symm
                  · simp only [Except.error.injEq] at h1
                    exact h1.symm
                  · cases h1
                · exact getProp_error _ _ _ he
      rw [key] at h
      cases h
    · cases h
    · cases h
theorem detection_head_ne (text : JSString) :
    lit "Gemini API error: " ++ text ≠ lit "No API key configured" ∧
    lit "Gemini API error for user detection: " ++ text ≠ lit "No API key configured" := by
  have h1 : (lit "Gemini API error: " ++ text).head? = some 71 := rfl
  have h2 : (lit "Gemini API error for user detection: " ++ text).head? = some 71 := rfl
  have h3 : (lit "No API key configured").head? = some 78 := rfl
  constructor
  · intro h
    rw [h, h3] at h1
    cases h1
  · intro h
    rw [h, h3] at h2
    cases h2

/-- C23. `detectClothes`, and likewise `detectUserClothes`, ends with the error
`No API key configured` and no effect at all (no image fetch, no provider call)
exactly when the stored credential is absent or empty. With a credential
stored, a call can end with an error of that message only if the environment
itself produced it: the image load failed with it, or the provider call was
rejected with it. -/
theorem detection_auth_missing (env : Env) (store : Store) (imageSrc userPhoto : JSString)
    (productClothesInfo : Option JSON) :
    (GeminiAPIService.detectClothes env store imageSrc =
        ([], .error (.error (lit "No API key configured"))) ↔
      (store.geminiApiKey = none ∨ store.geminiApiKey = some [])) ∧
    (GeminiAPIService.detectUserClothes env store userPhoto productClothesInfo =
        ([], .error (.error (lit "No API key configured"))) ↔
      (store.geminiApiKey = none ∨ store.geminiApiKey = some [])) ∧
    (∀ c cs, store.geminiApiKey = some (c :: cs) →
      (GeminiAPIService.detectClothes env store imageSrc).2 =
        .error (.error (lit "No API key configured")) →
      env.image imageSrc = .error (.error (lit "No API key configured")) ∨
        env.reply .detectProduct = .rejected (.error (lit "No API key configured"))) ∧
    (∀ c cs, store.geminiApiKey = some (c :: cs) →
      (GeminiAPIService.detectUserClothes env store userPhoto productClothesInfo).2 =
        .error (.error (lit "No API key configured")) →
      env.reply .detectUser = .rejected (.error (lit "No API key configured"))) := by
  refine ⟨?_, ?_, ?_, ?_⟩
  · constructor
    · intro h
      rcases hk : store.geminiApiKey with _ | key
      · exact Or.inl rfl
      · cases key with
        | nil => exact Or.inr rfl
        | cons c cs =>
          unfold GeminiAPIService.detectClothes at h
          rw [hk] at h
          simp only at h
          split at h
          · cases h
          · cases h
    · intro h
      unfold GeminiAPIService.detectClothes
      rcases h with h | h <;> rw [h]
  · constructor
    · intro h
      rcases hk : store.geminiApiKey with _ | key
      · exact Or.inl rfl
      · cases key with
        | nil => exact Or.inr rfl
        | cons c cs =>
          unfold GeminiAPIService.detectUserClothes at h
          rw [hk] at h
          simp only at h
          split at h
          · rename_i e he
            simp only [Prod.mk.injEq, Except.error.injEq, true_and] at h
            have := buildUserClothesDetectionPrompt_error _ _ he
            rw [this] at h
            cases h
          · cases h
    · intro h
      unfold GeminiAPIService.detectUserClothes
      rcases h with h | h <;> rw [h]
  · intro c cs hk h
    unfold GeminiAPIService.detectClothes at h
    rw [hk] at h
    simp only at h
    split at h
    · rename_i e he
      simp only [Except.error.injEq] at h
      rw [h] at he
      exact Or.inl he
    · exact Or.inr (detectionResult_message _ _ _ (fun t => (detection_head_ne t).1) h)
  · intro c cs hk h
    unfold GeminiAPIService.detectUserClothes at h
    rw [hk] at h
    simp only at h
    split at h
    · rename_i e he
      simp only [Except.error.injEq] at h
      have := buildUserClothesDetectionPrompt_error _ _ he
      rw [this] at h
      cases h
    · exact detectionResult_message _ _ _ (fun t => (detection_head_ne t).2) h

/-! ## The request of `generateTryOnWithGemini` -/

theorem dropLiteral_head_ne (p c : Nat) (ps cs : JSString) (h : p ≠ c) :
    dropLiteral (p :: ps) (c :: cs) = none := by
  simp [dropLiteral, h]

/-- A pattern whose first character does not occur before it is found where it
stands. -/
theorem splitAtFirst_fresh (p : Nat) (ps : JSString) :
    ∀ (x y : JSString), p ∉ x →
      splitAtFirst (p :: ps) (x ++ p :: (ps ++ y)) = some (x, y)
  | [], y, _ => by
    have hd : dropLiteral (p :: ps) (p :: (ps ++ y)) = some y :=
      dropLiteral_append (p :: ps) y
    simp only [List.nil_append, splitAtFirst, hd]
  | c :: cs, y, h => by
    simp only [List.mem_cons, not_or] at h
    have hd : dropLiteral (p :: ps) (c :: (cs ++ p :: (ps ++ y))) = none :=
      dropLiteral_head_ne p c ps _ h.1
    have ih := splitAtFirst_fresh p ps cs y h.2
    show splitAtFirst (p :: ps) (c :: (cs ++ p :: (ps ++ y))) = some (c :: cs, y)
    rw [splitAtFirst, hd]
    simp only [ih]

/-- A pattern whose first character does not occur is not found. -/
theorem splitAtFirst_absent (p : Nat) (ps : JSString) :
    ∀ s : JSString, p ∉ s → splitAtFirst (p :: ps) s = none
  | [], _ => by simp [splitAtFirst]
  | c :: cs, h => by
    simp only [List.mem_cons, not_or] at h
    have hd : dropLiteral (p :: ps) (c :: cs) = none := dropLiteral_head_ne p c ps cs h.1
    have ih := splitAtFirst_absent p ps cs h.2
    simp only [splitAtFirst, hd, ih]

theorem takeWhile_ne_self (payload : JSString) (h : 44 ∉ payload) :
    payload.takeWhile (fun c => c != 44) = payload := by
  rw [List.takeWhile_eq_self_iff]
  intro c hc
  have : c ≠ 44 := fun e => h (e ▸ hc)
  simp [this]

theorem stripDataUrl_dataUrl (head payload : JSString) (hh : 44 ∉ head)
    (hp : 44 ∉ payload) : stripDataUrl (head ++ 44 :: payload) = payload := by
  have h := splitAtFirst_fresh 44 [] head payload hh
  simp only [List.nil_append] at h
  unfold stripDataUrl
  rw [h]
  exact takeWhile_ne_self payload hp

theorem takeWhile_until_comma (b c : JSString) (h : 44 ∉ b) :
    (b ++ 44 :: c).takeWhile (fun x => x != 44) = b := by
  induction b with
  | nil => simp [List.takeWhile]
  | cons x xs ih =>
    simp only [List.mem_cons, not_or] at h
    have hx : x ≠ 44 := fun e => h.1 e.symm
    simp only [List.cons_append, List.takeWhile_cons, bne_iff_ne, ne_eq, hx, not_false_eq_true,
      if_true, ih h.2]

theorem stripDataUrl_segment (a b c : JSString) (ha : 44 ∉ a) (hb : 44 ∉ b) :
    stripDataUrl (a ++ 44 :: (b ++ 44 :: c)) = b := by
  have h := splitAtFirst_fresh 44 [] a (b ++ 44 :: c) ha
  simp only [List.nil_append] at h
  unfold stripDataUrl
  rw [h]
  exact takeWhile_until_comma b c hb

theorem stripDataUrl_plain (userPhoto : JSString) (h : 44 ∉ userPhoto) :
    stripDataUrl userPhoto = userPhoto := by
  unfold stripDataUrl
  rw [splitAtFirst_absent 44 [] userPhoto h]

/-- The effects and the outcome of `generateTryOnWithGemini` once the product
image is loaded and the prompt is built. -/
theorem generateTryOnWithGemini_eq (env : Env) (store : Store)
    (userPhoto productImageSrc : JSString) (productClothes : Option JSON) (userClothes : JSON)
    (b p : JSString) (hb : env.image productImageSrc = .ok b)
    (hp : tryOnPrompt productClothes = .ok p) :
    GeminiAPIService.generateTryOnWithGemini env store userPhoto productImageSrc
      productClothes userClothes =
      ([.imageFetch productImageSrc,
          .providerCall .generate (generationRequest b (stripDataUrl userPhoto) p)],
        generationResult (env.reply .generate)) := by
  unfold GeminiAPIService.generateTryOnWithGemini
  simp only [hb, hp]

/-- A text with two commas, which is not a photo as the setup page stores it
(`readAsDataURL` gives a base64 data URL, with one comma): the second part of
the request carries the text between the first two commas. -/
theorem generateTryOnWithGemini_second_comma :
    stripDataUrl (lit "data:image/svg+xml,<svg id=\"a,b\"/>") = lit "<svg id=\"a" ∧
    lit "<svg id=\"a" ≠ lit "<svg id=\"a,b\"/>" ∧
    ∃ p, (GeminiAPIService.generateTryOnWithGemini imageEnv exampleStore
      (lit "data:image/svg+xml,<svg id=\"a,b\"/>")
      exampleProduct (some (descriptor (lit "shirt") (lit "blue")))
      (descriptor (lit "jeans") (lit "black"))).1 =
        [.imageFetch exampleProduct,
          .providerCall .generate (generationRequest (lit "IMG") (lit "<svg id=\"a") p)] :=
  ⟨rfl, by decide, _, rfl⟩

/-- C30. For every user photo, product image and product garment, the effects
and the outcome of `generateTryOnWithGemini`, the request body among them, are
the same for any two user garments. Once the product image is loaded and the
prompt is built, the request body has one content with exactly three parts, in
this order: the product image, the user photo without its data-URL head up to
the first comma (for a photo as it is stored, a head without comma, a comma and
a base64 payload, which holds no comma: the payload; for a photo without any
comma: the photo itself), and the prompt text. For an object as product garment
the prompt is the fixed text with the garment's color and type, and nothing
else, in its three holes; it names the garment as of the first image and the
person as of the second. What `split(',')[1]` makes of a text with two commas
or more is stated last. -/
theorem generateTryOnWithGemini_request (env : Env) (store : Store)
    (userPhoto productImageSrc : JSString) (productClothes : Option JSON)
    (w1 w2 : JSON) :
    GeminiAPIService.generateTryOnWithGemini env store userPhoto productImageSrc
        productClothes w1 =
      GeminiAPIService.generateTryOnWithGemini env store userPhoto productImageSrc
        productClothes w2 ∧
    (∀ b p, env.image productImageSrc = .ok b → tryOnPrompt productClothes = .ok p →
      (GeminiAPIService.generateTryOnWithGemini env store userPhoto productImageSrc
        productClothes w1).1 =
        [.imageFetch productImageSrc,
          .providerCall .generate
            (.obj [(lit "contents", .arr [.obj [(lit "parts", .arr [
              .obj [(lit "inline_data",
                .obj [(lit "mime_type", .str (lit "image/png")), (lit "data", .str b)])],
              .obj [(lit "inline_data",
                .obj [(lit "mime_type", .str (lit "image/png")),
                  (lit "data", .str (stripDataUrl userPhoto))])],
              .obj [(lit "text", .str p)]])]])])]) ∧
    (∀ head payload : JSString, 44 ∉ head → 44 ∉ payload →
      stripDataUrl (head ++ 44 :: payload) = payload) ∧
    (44 ∉ userPhoto → stripDataUrl userPhoto = userPhoto) ∧
    (∀ fields color clothes, productClothes = some (.obj fields) →
      toStringOf (lookup (lit "color") fields) = .ok color →
      toStringOf (lookup (lit "clothes") fields) = .ok clothes →
      tryOnPrompt productClothes =
        .ok (lit "Create a professional e-commerce fashion photo. Take the " ++
          color ++ lit " " ++ clothes ++
          lit " from the first image and let the person from the second image wear it. " ++
          lit "Generate a realistic, full-body shot of the person wearing the " ++
          clothes ++
          lit ", with the lighting and shadows adjusted to match the environment. " ++
          lit "Ensure the clothing fits naturally on the person's body shape and " ++
          lit "the image looks professional and realistic.")) ∧
    (∀ a b c : JSString, 44 ∉ a → 44 ∉ b →
      stripDataUrl (a ++ 44 :: (b ++ 44 :: c)) = b) := by
  refine ⟨rfl, ?_, fun head payload hh hp => stripDataUrl_dataUrl head payload hh hp,
    stripDataUrl_plain userPhoto, ?_, fun a b c ha hb => stripDataUrl_segment a b c ha hb⟩
  · intro b p hb hp
    rw [generateTryOnWithGemini_eq env store userPhoto productImageSrc productClothes w1 b p
      hb hp]
    rfl
  · intro fields color clothes hpc hcolor hclothes
    rw [hpc]
    simp only [tryOnPrompt, getProp, hcolor, hclothes]

/-- C24, at the failing input. No credential is stored. `detectClothes` and
`detectUserClothes` fail with `No API key configured` and `generateTryOn` fails
with `Missing API key or user photo`, each before any effect.
`generateTryOnWithGemini` does not: it loads the product image, issues the
provider request, and fails with what the provider answers, here status 500. -/
theorem generateTryOnWithGemini_without_credential :
    emptyStore.geminiApiKey = none ∧
    GeminiAPIService.detectClothes upstreamErrorEnv emptyStore exampleProduct =
      ([], .error (.error (lit "No API key configured"))) ∧
    GeminiAPIService.detectUserClothes upstreamErrorEnv emptyStore
      (lit "data:image/png;base64,PHOTO") (some (descriptor (lit "shirt") (lit "blue"))) =
      ([], .error (.error (lit "No API key configured"))) ∧
    GeminiAPIService.generateTryOn upstreamErrorEnv emptyStore exampleProduct
      (some (descriptor (lit "shirt") (lit "blue"))) =
      ([], .error (.error (lit "Missing API key or user photo"))) ∧
    (GeminiAPIService.generateTryOnWithGemini upstreamErrorEnv emptyStore
      (lit "data:image/png;base64,PHOTO") exampleProduct
      (some (descriptor (lit "shirt") (lit "blue")))
      (descriptor (lit "jeans") (lit "black"))).1.head? = some (.imageFetch exampleProduct) ∧
    providerStages (GeminiAPIService.generateTryOnWithGemini upstreamErrorEnv emptyStore
      (lit "data:image/png;base64,PHOTO") exampleProduct
      (some (descriptor (lit "shirt") (lit "blue")))
      (descriptor (lit "jeans") (lit "black"))).1 = [.generate] ∧
    (GeminiAPIService.generateTryOnWithGemini upstreamErrorEnv emptyStore
      (lit "data:image/png;base64,PHOTO") exampleProduct
      (some (descriptor (lit "shirt") (lit "blue")))
      (descriptor (lit "jeans") (lit "black"))).2 =
        .error (.error (lit "Gemini API error (500): boom")) :=
  ⟨rfl, rfl, rfl, rfl, rfl, rfl, rfl⟩

/-- The stored credential has no part in `generateTryOnWithGemini`: its
effects and its outcome are the same whatever the storage area holds; it always
starts with the load of the product image; once the image is loaded and the
prompt is built it issues the provider request and its outcome is what
`generationResult` makes of the reply, which for a status that is not a success
is the error `Gemini API error (status): text`. -/
theorem generateTryOnWithGemini_ignores_credential (env : Env) (store store1 : Store)
    (userPhoto productImageSrc : JSString) (productClothes : Option JSON)
    (userClothes : JSON) :
    GeminiAPIService.generateTryOnWithGemini env store userPhoto productImageSrc
        productClothes userClothes =
      GeminiAPIService.generateTryOnWithGemini env store1 userPhoto productImageSrc
        productClothes userClothes ∧
    (∃ rest, (GeminiAPIService.generateTryOnWithGemini env store userPhoto productImageSrc
      productClothes userClothes).1 = .imageFetch productImageSrc :: rest) ∧
    (∀ b p, env.image productImageSrc = .ok b → tryOnPrompt productClothes = .ok p →
      GeminiAPIService.generateTryOnWithGemini env store userPhoto productImageSrc
        productClothes userClothes =
        ([.imageFetch productImageSrc,
            .providerCall .generate (generationRequest b (stripDataUrl userPhoto) p)],
          generationResult (env.reply .generate))) ∧
    (∀ status text, generationResult (.httpError status text) =
      .error (.error (lit "Gemini API error (" ++ status ++ lit "): " ++ text))) := by
  refine ⟨rfl, ?_, fun b p hb hp => generateTryOnWithGemini_eq env store userPhoto
    productImageSrc productClothes userClothes b p hb hp, fun _ _ => rfl⟩
  unfold GeminiAPIService.generateTryOnWithGemini
  simp only
  split
  · exact ⟨_, rfl⟩
  · split
    · exact ⟨_, rfl⟩
    · exact ⟨_, rfl⟩
/-! ## Write failures -/

theorem nonStorage_append (l1 l2 : List Event) :
    nonStorage (l1 ++ l2) = nonStorage l1 ++ nonStorage l2 :=
  List.filter_append _ _

theorem nonStorage_storage (l : List Event) (h : l.all Event.isStorage = true) :
    nonStorage l = [] := by
  unfold nonStorage
  rw [List.filter_eq_nil_iff]
  intro e he
  have := List.all_eq_true.mp h e he
  simp [this]

theorem shownResults_nonStorage (l : List Event) :
    shownResults (nonStorage l) = shownResults l := by
  induction l with
  | nil => rfl
  | cons e rest ih =>
    cases e <;> simp [nonStorage, List.filter_cons, Event.isStorage, shownResults] at ih ⊢ <;>
      exact ih

theorem shownErrors_nonStorage (l : List Event) :
    shownErrors (nonStorage l) = shownErrors l := by
  induction l with
  | nil => rfl
  | cons e rest ih =>
    cases e <;> simp [nonStorage, List.filter_cons, Event.isStorage, shownErrors] at ih ⊢ <;>
      exact ih

theorem providerStages_nonStorage (l : List Event) :
    providerStages (nonStorage l) = providerStages l := by
  induction l with
  | nil => rfl
  | cons e rest ih =>
    cases e <;> simp [nonStorage, List.filter_cons, Event.isStorage, providerStages] at ih ⊢ <;>
      exact ih

/-- Two environments that load the same images and give the same provider
replies lead to runs that differ in their storage effects at most. -/
theorem handleTryOnClick_nonStorage (env env1 : Env) (store : Store) (imageSrc : JSString)
    (himage : env1.image = env.image) (hreply : env1.reply = env.reply) :
    nonStorage (handleTryOnClick env1 store imageSrc).1 =
      nonStorage (handleTryOnClick env store imageSrc).1 := by
  have hd : GeminiAPIService.detectClothes env1 store imageSrc =
      GeminiAPIService.detectClothes env store imageSrc := by
    unfold GeminiAPIService.detectClothes
    rw [himage, hreply]
  have hg : ∀ info, GeminiAPIService.generateTryOn env1 store imageSrc info =
      GeminiAPIService.generateTryOn env store imageSrc info := by
    intro info
    unfold GeminiAPIService.generateTryOn GeminiAPIService.detectUserClothes
    rw [hreply]
  have hs : ∀ a, generationStage env1 store a = generationStage env store a := by
    intro a
    unfold generationStage GeminiAPIService.generateTryOnWithGemini
    rw [himage, hreply]
  unfold handleTryOnClick
  simp only [hd, hg]
  split_ifs
  · rfl
  · rcases GeminiAPIService.detectClothes env store imageSrc with ⟨events1, reply1⟩
    simp only
    cases viaMessage reply1 with
    | error e => rfl
    | ok info =>
      simp only
      rcases GeminiAPIService.generateTryOn env store imageSrc info with ⟨events2, reply2⟩
      simp only
      cases viaMessage reply2 with
      | error e => rfl
      | ok o =>
        cases o with
        | none => rfl
        | some apiResult =>
          simp only [generateAndShow, hs]
          have e1 : ∀ t4 : List Event,
              (Event.showLoadingModal imageSrc :: events1 ++ events2 ++
                ((generationStage env store apiResult).1 ++ t4 ++
                  [Event.showResult (generationStage env store apiResult).2])) =
              (Event.showLoadingModal imageSrc :: events1 ++ events2 ++
                (generationStage env store apiResult).1) ++ (t4 ++
                  [Event.showResult (generationStage env store apiResult).2]) := by
            intro t4
            simp
          have e2 : ∀ (A B t4 : List Event), t4.all Event.isStorage = true →
              nonStorage (A ++ (t4 ++ B)) = nonStorage A ++ nonStorage B := by
            intro A B t4 h4
            rw [nonStorage_append, nonStorage_append, nonStorage_storage t4 h4,
              List.nil_append]
          rw [e1, e1, e2 _ _ _ (cacheStep_storage _ _ _ _),
            e2 _ _ _ (cacheStep_storage _ _ _ _)]
/-- C22. Two environments that load the same images and give the same provider
replies, whatever errors their storage areas raise on a write and whatever
usage they report, lead to runs of `handleTryOnClick` with the same effects
apart from the storage calls: the same provider calls, the same values shown by
`showResult`, the same errors shown by `showError`. A run that reaches the
caching step, where a rejected `set` makes `cacheResult` throw, shows the final
result and never calls `showError`. -/
theorem handleTryOnClick_write_failure_hidden (env env1 : Env) (store : Store)
    (imageSrc : JSString) (himage : env1.image = env.image)
    (hreply : env1.reply = env.reply) :
    nonStorage (handleTryOnClick env1 store imageSrc).1 =
      nonStorage (handleTryOnClick env store imageSrc).1 ∧
    shownResults (handleTryOnClick env1 store imageSrc).1 =
      shownResults (handleTryOnClick env store imageSrc).1 ∧
    shownErrors (handleTryOnClick env1 store imageSrc).1 =
      shownErrors (handleTryOnClick env store imageSrc).1 ∧
    providerStages (handleTryOnClick env1 store imageSrc).1 =
      providerStages (handleTryOnClick env store imageSrc).1 ∧
    (∀ k a message, env1.setError store (cacheName k) a = some message →
      (cacheResult env1 store k a).2 = .error (.error message)) ∧
    (∀ t1 t2 clothesInfo apiResult,
      truthy (some (getCachedResult store (generateCacheKey imageSrc store.userPhoto)))
        = false →
      GeminiAPIService.detectClothes env store imageSrc = (t1, .ok clothesInfo) →
      GeminiAPIService.generateTryOn env store imageSrc (some clothesInfo)
        = (t2, .ok apiResult) →
      shownErrors (handleTryOnClick env1 store imageSrc).1 = [] ∧
      shownResults (handleTryOnClick env1 store imageSrc).1 =
        [(generationStage env store apiResult).2]) := by
  have h := handleTryOnClick_nonStorage env env1 store imageSrc himage hreply
  have hr : shownResults (handleTryOnClick env1 store imageSrc).1 =
      shownResults (handleTryOnClick env store imageSrc).1 := by
    rw [← shownResults_nonStorage, h, shownResults_nonStorage]
  have he : shownErrors (handleTryOnClick env1 store imageSrc).1 =
      shownErrors (handleTryOnClick env store imageSrc).1 := by
    rw [← shownErrors_nonStorage, h, shownErrors_nonStorage]
  refine ⟨h, hr, he, ?_, ?_, ?_⟩
  · rw [← providerStages_nonStorage, h, providerStages_nonStorage]
  · intro k a message hm
    unfold cacheResult
    rw [hm]
  · intro t1 t2 clothesInfo apiResult hmiss h1 h2
    have hrun := handleTryOnClick_analysed env store imageSrc t1 t2 clothesInfo apiResult
      hmiss h1 h2
    have q1 : t1.all Event.isService = true := by
      have := detectClothes_service env store imageSrc
      rw [h1] at this
      exact this
    have q2 : t2.all Event.isService = true := by
      have := generateTryOn_service env store imageSrc (some clothesInfo)
      rw [h2] at this
      exact this
    have tr := run_trace imageSrc t1 t2 _ _ (generationStage env store apiResult).2 q1 q2
      (generationStage_service env store apiResult)
      (cacheStep_storage env store (generateCacheKey imageSrc store.userPhoto)
        (generationStage env store apiResult).2)
    rw [hr, he, hrun]
    exact ⟨tr.1, tr.2.1⟩

/-- C22, at a storage area that rejects every write: the run shows what the run
with a working storage area shows, and no error. -/
theorem handleTryOnClick_write_failure_hidden_witness :
    shownResults (handleTryOnClick fullDiskEnv exampleStore exampleProduct).1 =
      shownResults (handleTryOnClick imageEnv exampleStore exampleProduct).1 ∧
    shownErrors (handleTryOnClick fullDiskEnv exampleStore exampleProduct).1 =
      shownErrors (handleTryOnClick imageEnv exampleStore exampleProduct).1 :=
  have h := handleTryOnClick_write_failure_hidden imageEnv fullDiskEnv exampleStore
    exampleProduct rfl rfl
  ⟨h.2.1, h.2.2.1⟩

/-! ## Prompts after detection -/

/-- Both prompts are built from a descriptor. -/
theorem prompts_of_descriptor (v : JSON) (h : IsDescriptor v) :
    (∃ p, buildUserClothesDetectionPrompt (some v) = .ok p) ∧
    (∃ q, tryOnPrompt (some v) = .ok q) := by
  obtain ⟨fields, clothes, color, hv, hclothes, hcolor⟩ := h
  rw [hv]
  constructor
  · simp only [buildUserClothesDetectionPrompt, getProp, hclothes, hcolor, toStringOf, toStr]
    exact ⟨_, rfl⟩
  · simp only [tryOnPrompt, getProp, hclothes, hcolor, toStringOf, toStr]
    exact ⟨_, rfl⟩

/-- C25, at the failing input. The model answers the product detection with the
text `null`, which is valid JSON: `detectClothes` returns `null`, both prompt
constructions throw a `TypeError` on it, and the run of `handleTryOnClick` ends
after the first provider call in `showError`, with nothing shown as a result.
For a text that is not JSON, here `a shirt`, `detectClothes` falls back to the
descriptor of a `clothing item` of color `unknown`, which both constructions
accept. -/
theorem handleTryOnClick_null_detection :
    (GeminiAPIService.detectClothes nullDetectionEnv exampleStore exampleProduct).2 =
      .ok .null ∧
    buildUserClothesDetectionPrompt (some .null) = .error .typeError ∧
    tryOnPrompt (some .null) = .error .typeError ∧
    providerStages (handleTryOnClick nullDetectionEnv exampleStore exampleProduct).1 =
      [.detectProduct] ∧
    shownErrors (handleTryOnClick nullDetectionEnv exampleStore exampleProduct).1 =
      [.typeError] ∧
    shownResults (handleTryOnClick nullDetectionEnv exampleStore exampleProduct).1 = [] ∧
    detectClothesParse (lit "a shirt") =
      descriptor (lit "clothing item") (lit "unknown") ∧
    buildUserClothesDetectionPrompt (some (detectClothesParse (lit "a shirt"))) =
      .ok (userPromptVerbatim (lit "clothing item") (lit "unknown")) ∧
    (∃ q, tryOnPrompt (some (detectClothesParse (lit "a shirt"))) = .ok q) :=
  ⟨rfl, rfl, rfl, rfl, rfl, rfl, rfl, ok_of_toOption _ _ (by decide!), ⟨_, rfl⟩⟩

/-- What the two prompt constructions make of the value `detectClothes`
returns for the model's text: when the trimmed text is not valid JSON, the
fallback descriptor is accepted by `buildUserClothesDetectionPrompt` and by the
construction of the try-on prompt; so is every parsed value that is a
descriptor, and every parsed value that is neither `null` nor an object. When
the text parses to `null`, both constructions throw a `TypeError`. -/
theorem prompts_accept_fallback (content : JSString) :
    (jsonParse (trim content) = none →
      (∃ p, buildUserClothesDetectionPrompt (some (detectClothesParse content)) = .ok p) ∧
      (∃ q, tryOnPrompt (some (detectClothesParse content)) = .ok q)) ∧
    (∀ v, jsonParse (trim content) = some v → IsDescriptor v →
      (∃ p, buildUserClothesDetectionPrompt (some (detectClothesParse content)) = .ok p) ∧
      (∃ q, tryOnPrompt (some (detectClothesParse content)) = .ok q)) ∧
    (∀ v, jsonParse (trim content) = some v → v ≠ .null → (∀ fields, v ≠ .obj fields) →
      (∃ p, buildUserClothesDetectionPrompt (some (detectClothesParse content)) = .ok p) ∧
      (∃ q, tryOnPrompt (some (detectClothesParse content)) = .ok q)) ∧
    (jsonParse (trim content) = some .null →
      detectClothesParse content = .null ∧
      buildUserClothesDetectionPrompt (some (detectClothesParse content)) =
        .error .typeError ∧
      tryOnPrompt (some (detectClothesParse content)) = .error .typeError) := by
  have hparsed : ∀ v, jsonParse (trim content) = some v → detectClothesParse content = v := by
    intro v hv
    unfold detectClothesParse
    rw [hv]
  refine ⟨?_, ?_, ?_, ?_⟩
  · intro h
    apply prompts_of_descriptor
    unfold detectClothesParse
    rw [h]
    exact ⟨_, _, _, rfl, rfl, rfl⟩
  · intro v hv hd
    rw [hparsed v hv]
    exact prompts_of_descriptor v hd
  · intro v hv hnull hobj
    rw [hparsed v hv]
    cases v with
    | null => exact absurd rfl hnull
    | obj fields => exact absurd rfl (hobj fields)
    | bool b => exact ⟨⟨_, rfl⟩, ⟨_, rfl⟩⟩
    | num t => exact ⟨⟨_, rfl⟩, ⟨_, rfl⟩⟩
    | str s => exact ⟨⟨_, rfl⟩, ⟨_, rfl⟩⟩
    | arr l => exact ⟨⟨_, rfl⟩, ⟨_, rfl⟩⟩
  · intro h
    rw [hparsed _ h]
    exact ⟨rfl, rfl, rfl⟩

/-! ## The user-detection prompt -/

/-- The template is its head, the two placeholders with the middle between
them, and its tail. -/
theorem userPrompt_template :
    readUserClothesDetectionPrompt =
      userPromptHead ++ clothesPlaceholder ++ userPromptMiddle ++ colorPlaceholder ++
        userPromptTail := by
  decide!

/-- A replacement text without a dollar sign is inserted as it is. -/
theorem getSubstitution_plain (m b a : JSString) :
    ∀ r : JSString, 36 ∉ r → getSubstitution m b a r = r
  | [], _ => rfl
  | [_], _ => rfl
  | c :: d :: rest, h => by
    simp only [List.mem_cons, not_or] at h
    have hc : ¬ c = 36 := fun e => h.1 e.symm
    have ih := getSubstitution_plain m b a (d :: rest) (by
      simp only [List.mem_cons, not_or]
      exact h.2)
    simp only [getSubstitution, hc, if_false, ih]

/-- The pattern is found at its first occurrence: where no earlier suffix of
the text before it starts with the pattern. -/
theorem splitAtFirst_first (pat : JSString) (hpat : pat ≠ []) :
    ∀ (x y : JSString),
      (∀ x1 x2, x = x1 ++ x2 → x2 ≠ [] → dropLiteral pat (x2 ++ pat ++ y) = none) →
      splitAtFirst pat (x ++ pat ++ y) = some (x, y)
  | [], y, _ => by
    cases pat with
    | nil => exact absurd rfl hpat
    | cons p ps =>
      have hd : dropLiteral (p :: ps) (p :: (ps ++ y)) = some y :=
        dropLiteral_append (p :: ps) y
      show splitAtFirst (p :: ps) (p :: (ps ++ y)) = some ([], y)
      rw [splitAtFirst, hd]
  | c :: cs, y, h => by
    have hd : dropLiteral pat (c :: (cs ++ pat ++ y)) = none :=
      h [] (c :: cs) rfl (by simp)
    have ih := splitAtFirst_first pat hpat cs y (by
      intro x1 x2 hx hx2
      exact h (c :: x1) x2 (by rw [hx]; rfl) hx2)
    show splitAtFirst pat (c :: (cs ++ pat ++ y)) = some (c :: cs, y)
    rw [splitAtFirst, hd]
    simp only [ih]
theorem dropLiteral_start (p : Nat) (ps x2 rest r : JSString) (hx2 : x2 ≠ [])
    (h : dropLiteral (p :: ps) (x2 ++ rest) = some r) : ∃ x3, x2 = p :: x3 := by
  cases x2 with
  | nil => exact absurd rfl hx2
  | cons c x3 =>
    simp only [List.cons_append, dropLiteral] at h
    split_ifs at h with hpc
    exact ⟨x3, by rw [hpc]⟩

/-- A text that ends a type without an occurrence of the pattern, followed by a
middle whose first character is foreign to the pattern, does not start with
the pattern. -/
theorem pattern_not_at_suffix (pat t a c M y r : JSString) (m0 : Nat) (M1 : JSString)
    (hocc : ∀ a b, t ≠ a ++ pat ++ b) (hM : M = m0 :: M1) (hm0 : m0 ∉ pat)
    (ht : t = a ++ c) (h : dropLiteral pat (c ++ (M ++ pat ++ y)) = some r) : False := by
  have he := dropLiteral_some pat _ _ h
  rcases List.append_eq_append_iff.mp he with ⟨a2, hp, hrest⟩ | ⟨c2, hc, _⟩
  · cases a2 with
    | nil =>
      rw [List.append_nil] at hp
      exact hocc a [] (by rw [ht, hp, List.append_nil])
    | cons d a3 =>
      rw [hM] at hrest
      simp only [List.cons_append, List.cons.injEq] at hrest
      apply hm0
      rw [hp, hrest.1]
      simp
  · exact hocc a c2 (by rw [ht, hc, List.append_assoc])

/-- The pattern does not occur before its place in head, type, middle, pattern:
the head and the middle hold no first character of the pattern, the type holds
no occurrence of the pattern, the middle starts with a character foreign to the
pattern. -/
theorem pattern_not_before (p : Nat) (ps H t M y : JSString) (m0 : Nat) (M1 : JSString)
    (hH : p ∉ H) (hMp : p ∉ M) (hM : M = m0 :: M1) (hm0 : m0 ∉ p :: ps)
    (hocc : ∀ a b, t ≠ a ++ (p :: ps) ++ b) :
    ∀ x1 x2, H ++ t ++ M = x1 ++ x2 → x2 ≠ [] →
      dropLiteral (p :: ps) (x2 ++ (p :: ps) ++ y) = none := by
  intro x1 x2 hx hx2
  cases hd : dropLiteral (p :: ps) (x2 ++ (p :: ps) ++ y) with
  | none => rfl
  | some r =>
    exfalso
    rw [List.append_assoc] at hd
    obtain ⟨x3, hx3⟩ := dropLiteral_start p ps x2 _ r hx2 hd
    rcases List.append_eq_append_iff.mp hx with ⟨a1, _, hMeq⟩ | ⟨c1, hHt, hx2eq⟩
    · apply hMp
      rw [hMeq, hx3]
      simp
    · rcases List.append_eq_append_iff.mp hHt with ⟨a2, _, hteq⟩ | ⟨c2, hHeq, hc1⟩
      · rw [hx2eq, List.append_assoc] at hd
        exact pattern_not_at_suffix (p :: ps) t a2 c1 M y r m0 M1 hocc hM hm0 hteq
          (by simpa [List.append_assoc] using hd)
      · cases c2 with
        | nil =>
          rw [List.nil_append] at hc1
          rw [hx2eq, hc1, List.append_assoc] at hd
          exact pattern_not_at_suffix (p :: ps) t [] t M y r m0 M1 hocc hM hm0 rfl
            (by simpa [List.append_assoc] using hd)
        | cons e c3 =>
          rw [hx2eq, hc1] at hx3
          simp only [List.cons_append, List.cons.injEq] at hx3
          apply hH
          rw [hHeq, hx3.1]
          simp
theorem splitAtFirst_fresh_pat (pat x y : JSString) (p : Nat) (ps : JSString)
    (hpat : pat = p :: ps) (hx : p ∉ x) :
    splitAtFirst pat (x ++ pat ++ y) = some (x, y) := by
  subst hpat
  simpa [List.append_assoc] using splitAtFirst_fresh p ps x y hx

theorem splitAtFirst_in_template (pat H t M y : JSString) (p : Nat) (ps : JSString)
    (m0 : Nat) (M1 : JSString) (hpat : pat = p :: ps) (hH : p ∉ H) (hMp : p ∉ M)
    (hM : M = m0 :: M1) (hm0 : m0 ∉ pat) (hocc : ∀ a b, t ≠ a ++ pat ++ b) :
    splitAtFirst pat (H ++ t ++ M ++ pat ++ y) = some (H ++ t ++ M, y) := by
  subst hpat
  exact splitAtFirst_first _ (by simp) _ _
    (pattern_not_before p ps H t M y m0 M1 hH hMp hM hm0 hocc)

/-- C26, at the failing input. The type `$&` is not inserted verbatim: `replace`
expands it to the matched text, so the prompt keeps `{PRODUCT_CLOTHES}`. The
type `{PRODUCT_COLOR}` is inserted, and the second `replace` then puts the
color in its place and leaves the template's own color placeholder. The try-on
prompt, built by a template literal, holds the type `$&` as it is. -/
theorem buildUserClothesDetectionPrompt_not_verbatim :
    buildUserClothesDetectionPrompt (some (descriptor (lit "$&") (lit "blue"))) =
      .ok (userPromptVerbatim clothesPlaceholder (lit "blue")) ∧
    userPromptVerbatim clothesPlaceholder (lit "blue") ≠
      userPromptVerbatim (lit "$&") (lit "blue") ∧
    buildUserClothesDetectionPrompt (some (descriptor colorPlaceholder (lit "blue"))) =
      .ok (userPromptVerbatim (lit "blue") colorPlaceholder) ∧
    userPromptVerbatim (lit "blue") colorPlaceholder ≠
      userPromptVerbatim colorPlaceholder (lit "blue") ∧
    tryOnPrompt (some (descriptor (lit "$&") (lit "blue"))) =
      .ok (lit "Create a professional e-commerce fashion photo. Take the " ++
        lit "blue" ++ lit " " ++ lit "$&" ++
        lit " from the first image and let the person from the second image wear it. " ++
        lit "Generate a realistic, full-body shot of the person wearing the " ++
        lit "$&" ++
        lit ", with the lighting and shadows adjusted to match the environment. " ++
        lit "Ensure the clothing fits naturally on the person's body shape and " ++
        lit "the image looks professional and realistic.") :=
  ⟨ok_of_toOption _ _ (by decide!), by decide!, ok_of_toOption _ _ (by decide!), by decide!,
    rfl⟩

/-- For every descriptor whose type `t` and color `c` are strings without a
dollar sign, the type holding no occurrence of `{PRODUCT_COLOR}`,
`buildUserClothesDetectionPrompt` returns the template with `t` in the place of
`{PRODUCT_CLOTHES}`, `c` in the place of `{PRODUCT_COLOR}`, and nothing else
changed. -/
theorem buildUserClothesDetectionPrompt_verbatim (t c : JSString)
    (ht : 36 ∉ t) (hc : 36 ∉ c) (hocc : ∀ a b, t ≠ a ++ colorPlaceholder ++ b) :
    buildUserClothesDetectionPrompt (some (descriptor t c)) =
      .ok (userPromptVerbatim t c) ∧
    readUserClothesDetectionPrompt = userPromptVerbatim clothesPlaceholder colorPlaceholder := by
  have h0 : buildUserClothesDetectionPrompt (some (descriptor t c)) =
      .ok (replaceFirst (replaceFirst readUserClothesDetectionPrompt clothesPlaceholder t)
        colorPlaceholder c) := rfl
  have h1 : replaceFirst readUserClothesDetectionPrompt clothesPlaceholder t =
      userPromptHead ++ t ++ userPromptMiddle ++ colorPlaceholder ++ userPromptTail := by
    have e : readUserClothesDetectionPrompt =
        userPromptHead ++ clothesPlaceholder ++
          (userPromptMiddle ++ colorPlaceholder ++ userPromptTail) := by
      rw [userPrompt_template]
      simp only [List.append_assoc]
    unfold replaceFirst
    rw [e, splitAtFirst_fresh_pat clothesPlaceholder userPromptHead _ 123
      (lit "PRODUCT_CLOTHES\x7d") (by decide) (by decide)]
    simp only [getSubstitution_plain _ _ _ t ht, List.append_assoc]
  have h2 : replaceFirst
      (userPromptHead ++ t ++ userPromptMiddle ++ colorPlaceholder ++ userPromptTail)
      colorPlaceholder c = userPromptVerbatim t c := by
    unfold replaceFirst
    rw [splitAtFirst_in_template colorPlaceholder userPromptHead t userPromptMiddle
      userPromptTail 123 (lit "PRODUCT_COLOR\x7d") 32 (lit "in ") (by decide) (by decide)
      (by decide) (by decide) (by decide) hocc]
    simp only [getSubstitution_plain _ _ _ c hc]
    rfl
  rw [h0, h1, h2]
  exact ⟨rfl, userPrompt_template⟩

/-- The descriptor of a blue shirt is inserted verbatim. -/
theorem buildUserClothesDetectionPrompt_verbatim_witness :
    buildUserClothesDetectionPrompt (some (descriptor (lit "shirt") (lit "blue"))) =
      .ok (userPromptVerbatim (lit "shirt") (lit "blue")) :=
  (buildUserClothesDetectionPrompt_verbatim (lit "shirt") (lit "blue") (by decide)
    (by decide) (fun a b h => by
      have hl := congrArg List.length h
      have h5 : (lit "shirt").length = 5 := rfl
      have h15 : colorPlaceholder.length = 15 := rfl
      rw [List.length_append, List.length_append, h5, h15] at hl
      omega)).1

end Kabinka
